import Mathlib

/-!
# BookVerse: the book entity and the singleton book store

A shallow embedding of `patterns/mvc/model.js` (class `Book`),
`patterns/factory/BookFactory.js` (`create`, `createMultiple`),
`patterns/observer/eventBus.js` (class `EventBus`),
`patterns/singleton/bookManager.js` (class `BookManager`) and
`patterns/mvc/controller.js` (class `Controller`: the filters, the handlers of
the store's events, import and export).

Modelling conventions

* A raw record (`data`, `updates`, an element of an imported array) is a
  `BookData`: every property is optional, text properties are strings and
  `id` / `createdAt` are integers.  `none` stands for an absent property.
* `Date.now()` is external.  The values it returns to one `new Book(data)` are
  passed in as a `Clock`; a batch construction receives one `Clock` per record.
* `localStorage.setItem` may fail; whether it succeeds is the input `writeOk`.
* `eventBus.emit` never throws (every subscriber runs inside `try`/`catch`), and
  no subscriber of this repository writes to the store, so emitting is modelled
  by appending the event to the log `emitted`.
* A JavaScript method that mutates `this` and may throw returns the state after
  the call together with its outcome.
* `String.prototype.toLowerCase` is a parameter of `search`.
* Strings are compared, as by `<` and by `sort()`, on their UTF-16 code units.
* `categoryCount` in `getStats` is an object literal: reading a key that is not
  an own property answers with the member of `Object.prototype`, if any.
* On the event bus a function supplied by a caller is known by a number (its
  identity).  What it does when it is invoked is an input: the calls of `on`,
  `off` and `once` it makes on the bus while it runs (`ops`), and whether it
  then throws (`throws`).  It does not call `emit` or `removeAllListeners`
  while it runs.
* `Set.prototype.forEach` walks the live set: an element deleted before the
  walk reaches it is not visited, an element added during the walk is visited
  at the end.  A walk need not end (a subscriber may unsubscribe and subscribe
  itself again on every visit), so `emit` takes the number of steps allowed
  (`fuel`: one for each visit and one to find the end of the set) and answers
  `none` when they do not suffice.
* `JSON.stringify` followed by `JSON.parse` gives back the array of records.
* What `localStorage.getItem` and `JSON.parse` give is an input (`StoredItem`,
  `Parsed`).
* The view is the record of what the controller last asked of it; its methods
  do not throw.  The events a store call emits reach the controller's handlers
  against the store as the call leaves it, since every store method emits only
  after it has finished writing `this.books`.
-/

namespace BookVerse

/-! ## Strings -/

/-- The code points that `String.prototype.trim` strips: ECMAScript `WhiteSpace`
and `LineTerminator`. -/
def isTrimChar (c : Char) : Bool :=
  let n := c.toNat
  n == 0x09 || n == 0x0A || n == 0x0B || n == 0x0C || n == 0x0D || n == 0x20 ||
  n == 0xA0 || n == 0x1680 || (0x2000 ≤ n && n ≤ 0x200A) || n == 0x2028 ||
  n == 0x2029 || n == 0x202F || n == 0x205F || n == 0x3000 || n == 0xFEFF

/-- The method `String.prototype.trim`: strip leading and trailing white space. -/
def trim (s : String) : String :=
  String.mk ((s.data.dropWhile isTrimChar).reverse.dropWhile isTrimChar).reverse

/-- Occurrence test on code points: does `needle` occur in `hay` at some position. -/
def includesChars (needle : List Char) : List Char → Bool
  | [] => needle.isPrefixOf []
  | c :: cs => needle.isPrefixOf (c :: cs) || includesChars needle cs

/-- The method `String.prototype.includes`. -/
def includes (s searchString : String) : Bool :=
  includesChars searchString.data s.data

/-- ASCII lower-casing; `toLowerCase` agrees with it on ASCII text. -/
def asciiLower (s : String) : String :=
  String.mk (s.data.map Char.toLower)

/-- The UTF-16 code units of a code point. -/
def utf16Char (c : Char) : List Nat :=
  if c.toNat < 0x10000 then [c.toNat]
  else [0xD800 + (c.toNat - 0x10000) / 0x400, 0xDC00 + (c.toNat - 0x10000) % 0x400]

/-- The UTF-16 code units of a text. -/
def codeUnits : List Char → List Nat
  | [] => []
  | c :: cs => utf16Char c ++ codeUnits cs

/-- Lexicographic `<` on sequences of code units. -/
def unitsLt : List Nat → List Nat → Bool
  | _, [] => false
  | [], _ :: _ => true
  | x :: xs, y :: ys => decide (x < y) || (x == y && unitsLt xs ys)

/-- The operator `<` on two strings: lexicographic on their UTF-16 code units. -/
def stringLt (a b : String) : Bool :=
  unitsLt (codeUnits a.data) (codeUnits b.data)

/-- Source: `Array.prototype.sort()` on an array of strings, with no comparator:
ascending by `<` on strings. -/
def sort (xs : List String) : List String :=
  xs.insertionSort (fun a b => stringLt b a = false)

/-- Source: `Set.prototype.add`, the set kept as the list of its elements in
insertion order. -/
def setAdd (set : List String) (x : String) : List String :=
  if x ∈ set then set else set ++ [x]

/-- Source: `[...new Set(xs)]`. -/
def newSet (xs : List String) : List String :=
  xs.foldl setAdd []

/-! ## Plain objects used as dictionaries

`getStats` counts categories in an object literal `{}`, whose prototype is
`Object.prototype`.  Reading a key that is not an own property falls through
to the prototype. -/

/-- What a property of `categoryCount` holds: a number, or a text.  The texts
that arise are the source text of a native function followed by digits `1`;
none of them reads as a number. -/
inductive CountValue
  | number (n : Nat)
  | text (t : String)
deriving DecidableEq, Repr

/-- The own properties of an object, in creation order. -/
abbrev CountObject := List (String × CountValue)

/-- The function-valued members of `Object.prototype`, each with the name of
the function it holds. -/
def prototypeFunctions : List (String × String) :=
  [("constructor", "Object"),
   ("__defineGetter__", "__defineGetter__"),
   ("__defineSetter__", "__defineSetter__"),
   ("hasOwnProperty", "hasOwnProperty"),
   ("__lookupGetter__", "__lookupGetter__"),
   ("__lookupSetter__", "__lookupSetter__"),
   ("isPrototypeOf", "isPrototypeOf"),
   ("propertyIsEnumerable", "propertyIsEnumerable"),
   ("toString", "toString"),
   ("valueOf", "valueOf"),
   ("toLocaleString", "toLocaleString")]

/-- The keys that `Object.prototype` answers for: its function-valued members
and the accessor `__proto__`. -/
def isPrototypeMember (key : String) : Bool :=
  key == "__proto__" || (prototypeFunctions.lookup key).isSome

/-- The text `Function.prototype.toString` gives for a native function. -/
def nativeSource (name : String) : String :=
  "function " ++ name ++ "() { [native code] }"

/-- The outcome of reading `object[key]`. -/
inductive Read
  | undefined
  | own (v : CountValue)
  | inheritedFunction (name : String)
  | objectPrototype
deriving DecidableEq, Repr

/-- The expression `object[key]`: the own property, else the member of
`Object.prototype`, else `undefined`. -/
def CountObject.get (o : CountObject) (key : String) : Read :=
  match o.lookup key with
  | some v => .own v
  | none =>
    if key = "__proto__" then .objectPrototype
    else
      match prototypeFunctions.lookup key with
      | some name => .inheritedFunction name
      | none => .undefined

/-- The expression `(x || 0) + 1`: a number is incremented; a non-empty text,
a function or an object is converted to text and `"1"` is appended. -/
def orZeroPlusOne : Read → CountValue
  | .undefined => .number 1
  | .own (.number n) => .number (n + 1)
  | .own (.text t) => if t = "" then .number 1 else .text (t ++ "1")
  | .inheritedFunction name => .text (nativeSource name ++ "1")
  | .objectPrototype => .text ("[object Object]" ++ "1")

/-- The assignment `object[key] = v` of a number or text: the setter of
`__proto__` ignores it, an own property keeps its place, a new property goes
last. -/
def CountObject.set (o : CountObject) (key : String) (v : CountValue) : CountObject :=
  if key = "__proto__" then o
  else if (o.lookup key).isSome then
    o.map (fun kv => if kv.1 = key then (key, v) else kv)
  else o ++ [(key, v)]

/-- The value of a sequence of decimal digits. -/
def decimalValue (cs : List Char) : Nat :=
  cs.foldl (fun n c => 10 * n + (c.toNat - 48)) 0

/-- The array index a key denotes, if any: a canonical decimal numeral below
`2^32 - 1`. -/
def arrayIndex? (key : String) : Option Nat :=
  let cs := key.data
  if cs ≠ [] ∧ cs.all Char.isDigit = true ∧ (cs.head? ≠ some '0' ∨ cs.length = 1) ∧
      decimalValue cs < 4294967295 then
    some (decimalValue cs)
  else none

/-- Source: `Object.keys(object)`: the array-index keys in ascending numeric
order, then the other keys in creation order. -/
def CountObject.keys (o : CountObject) : List String :=
  let names := o.map Prod.fst
  let indices := names.filter (fun k => (arrayIndex? k).isSome)
  let others := names.filter (fun k => (arrayIndex? k).isNone)
  indices.insertionSort (fun a b => (arrayIndex? a).getD 0 ≤ (arrayIndex? b).getD 0)
    ++ others

/-- What a read converts to under `>`: `none` for `undefined`, else its number
or text. -/
def Read.toPrimitive : Read → Option CountValue
  | .undefined => none
  | .own v => some v
  | .inheritedFunction name => some (.text (nativeSource name))
  | .objectPrototype => some (.text "[object Object]")

/-- The expression `x > y`: numbers by value, texts by code units; `undefined`
and a text set against a number convert to `NaN`, and the comparison is false. -/
def greater (x y : Read) : Bool :=
  match x.toPrimitive, y.toPrimitive with
  | some (.number n), some (.number m) => decide (m < n)
  | some (.text a), some (.text b) => stringLt b a
  | _, _ => false

/-! ## model.js : class Book -/

/-- A raw record handed to `new Book(data)`, `book.update(updates)`,
`store.add`, `store.update` or `store.importBooks`. -/
structure BookData where
  id : Option Int := none
  title : Option String := none
  author : Option String := none
  category : Option String := none
  cover : Option String := none
  description : Option String := none
  createdAt : Option Int := none
deriving DecidableEq, Repr

/-- A `Book` instance. -/
structure Book where
  id : Int
  title : String
  author : String
  category : String
  cover : String
  description : String
  createdAt : Int
deriving DecidableEq, Repr, Inhabited

/-- The errors thrown by the entity and the store. -/
inductive BookError
  | emptyTitle
  | emptyAuthor
  | emptyCategory
  | notFound
deriving DecidableEq, Repr

/-- The text of the thrown `Error`. -/
def BookError.message : BookError → String
  | .emptyTitle => "Tiêu đề sách không được để trống"
  | .emptyAuthor => "Tác giả không được để trống"
  | .emptyCategory => "Thể loại không được để trống"
  | .notFound => "Không tìm thấy sách cần cập nhật"

/-- The errors thrown by `Book.validate`. -/
def BookError.isValidation : BookError → Bool
  | .notFound => false
  | _ => true

/-- The values returned by the two `Date.now()` calls of one construction. -/
structure Clock where
  forId : Int
  forCreatedAt : Int
deriving DecidableEq, Repr

/-- The expression `x || y` for a numeric property: `undefined` and `0` are falsy. -/
def orNumber (x : Option Int) (y : Int) : Int :=
  match x with
  | some n => if n = 0 then y else n
  | none => y

/-- The expression `x || ''` for a text property: `undefined` and `''` are falsy. -/
def orEmpty (x : Option String) : String :=
  match x with
  | some s => if s = "" then "" else s
  | none => ""

/-- Source: `validate()`. -/
def Book.validate (b : Book) : Except BookError Unit :=
  if trim b.title = "" then .error .emptyTitle
  else if trim b.author = "" then .error .emptyAuthor
  else if trim b.category = "" then .error .emptyCategory
  else .ok ()

/-- The property assignments at the head of `constructor(data)`. -/
def Book.init (clock : Clock) (data : BookData) : Book :=
  { id := orNumber data.id clock.forId
    title := orEmpty data.title
    author := orEmpty data.author
    category := orEmpty data.category
    cover := orEmpty data.cover
    description := orEmpty data.description
    createdAt := orNumber data.createdAt clock.forCreatedAt }

/-- Source: `constructor(data)`: assign the properties, then `this.validate()`. -/
def Book.constructor (clock : Clock) (data : BookData) : Except BookError Book :=
  let this := Book.init clock data
  match this.validate with
  | .ok () => .ok this
  | .error e => .error e

/-- Source: `Object.assign(this, updates)`: every property present in `updates` is
written over the book. -/
def Book.assign (b : Book) (updates : BookData) : Book :=
  { id := updates.id.getD b.id
    title := updates.title.getD b.title
    author := updates.author.getD b.author
    category := updates.category.getD b.category
    cover := updates.cover.getD b.cover
    description := updates.description.getD b.description
    createdAt := updates.createdAt.getD b.createdAt }

/-- Source: `update(updates)`: the book after the call, and whether `validate` threw. -/
def Book.update (b : Book) (updates : BookData) : Book × Except BookError Unit :=
  let this := b.assign updates
  (this, this.validate)

/-- Source: `toJSON()`. -/
def Book.toJSON (b : Book) : BookData :=
  { id := some b.id
    title := some b.title
    author := some b.author
    category := some b.category
    cover := some b.cover
    description := some b.description
    createdAt := some b.createdAt }

/-- Source: `Book.fromJSON(data)`. -/
def Book.fromJSON (clock : Clock) (data : BookData) : Except BookError Book :=
  Book.constructor clock data

/-- The invariant of the entity: title, author and category are non-empty after
trimming. -/
def Book.Valid (b : Book) : Prop :=
  trim b.title ≠ "" ∧ trim b.author ≠ "" ∧ trim b.category ≠ ""

instance (b : Book) : Decidable b.Valid := by
  unfold Book.Valid; infer_instance

/-- The record fails validation: its title, author or category (an absent
property counting as the empty string) is empty after trimming. -/
def BookData.Blank (d : BookData) : Prop :=
  trim (d.title.getD "") = "" ∨ trim (d.author.getD "") = "" ∨
    trim (d.category.getD "") = ""

instance (d : BookData) : Decidable d.Blank := by
  unfold BookData.Blank; infer_instance

/-! ## BookFactory.js -/

/-- Source: `BookFactory.createMultiple(booksData)`: `booksData.map(data => new Book(data))`,
the record at position `i` read against `clocks (k + i)`.  The first failing
construction aborts the whole map. -/
def BookFactory.createMultipleFrom (clocks : Nat → Clock) (k : Nat) :
    List BookData → Except BookError (List Book)
  | [] => .ok []
  | data :: rest =>
    match Book.constructor (clocks k) data with
    | .error e => .error e
    | .ok book =>
      match BookFactory.createMultipleFrom clocks (k + 1) rest with
      | .error e => .error e
      | .ok books => .ok (book :: books)

/-- Source: `BookFactory.createMultiple(booksData)`. -/
def BookFactory.createMultiple (clocks : Nat → Clock) (booksData : List BookData) :
    Except BookError (List Book) :=
  BookFactory.createMultipleFrom clocks 0 booksData

/-- The expression `x || y` on two texts: the empty text is falsy. -/
def orText (x y : String) : String :=
  if x = "" then y else x

/-- The object `defaultData` that `BookFactory.create` builds before its
`switch`. -/
def BookFactory.defaultData (clock : Clock) (data : BookData) : BookData :=
  { id := some (orNumber data.id clock.forId)
    title := some (orEmpty data.title)
    author := some (orEmpty data.author)
    category := some (orEmpty data.category)
    cover := some (orEmpty data.cover)
    description := some (orEmpty data.description)
    createdAt := some (orNumber data.createdAt clock.forCreatedAt) }

/-- One `case` of the `switch`: `defaultData.category = defaultData.category ||
category; defaultData.description = defaultData.description || description`. -/
def BookFactory.applyDefaults (defaultData : BookData) (category description : String) :
    BookData :=
  { defaultData with
    category := some (orText (orEmpty defaultData.category) category)
    description := some (orText (orEmpty defaultData.description) description) }

/-- Source: `BookFactory.create(type, data)`.  The clock `clock` is read while
`defaultData` is built, `clock2` by `new Book(defaultData)`. -/
def BookFactory.create (toLowerCase : String → String) (clock clock2 : Clock)
    (type : String) (data : BookData) : Except BookError Book :=
  let defaultData := BookFactory.defaultData clock data
  let defaultData :=
    if toLowerCase type = "comic" then
      BookFactory.applyDefaults defaultData "Truyện tranh"
        "Truyện tranh với hình ảnh minh họa sinh động"
    else if toLowerCase type = "novel" then
      BookFactory.applyDefaults defaultData "Tiểu thuyết"
        "Tiểu thuyết văn học với cốt truyện hấp dẫn"
    else if toLowerCase type = "textbook" then
      BookFactory.applyDefaults defaultData "Sách giáo khoa"
        "Sách giáo khoa chuyên môn"
    else defaultData
  Book.constructor clock2 defaultData

/-! ## eventBus.js : the events the store emits -/

/-- An emitted event with its payload. -/
inductive Event
  | BOOKS_CHANGED (books : List Book)
  | BOOK_ADDED (book : Book)
  | BOOK_UPDATED (book : Book)
  | BOOK_DELETED (book : Book)
  | ERROR_OCCURRED (message : String)
  | SUCCESS_MESSAGE (message : String)
deriving DecidableEq, Repr

/-! ## eventBus.js : class EventBus -/

/-- A function object that can be subscribed: a function supplied by a caller,
or the closure `onceCallback` that `once(event, callback)` creates (each call
of `once` creates a new one, numbered by `serial`). -/
inductive Callback
  | fn (f : Nat)
  | onceCallback (serial : Nat) (event : String) (callback : Nat)
deriving DecidableEq, Repr

/-- The function supplied by the caller that runs when the subscriber is
invoked. -/
def Callback.target : Callback → Nat
  | .fn f => f
  | .onceCallback _ _ callback => callback

/-- The bus: the map `this.events` from event names to sets of callbacks (map
and sets in insertion order), and the number of `onceCallback` closures
created so far. -/
structure EventBus where
  events : List (String × List Callback)
  closures : Nat
deriving DecidableEq, Repr

/-- Source: `constructor()`. -/
def EventBus.empty : EventBus :=
  { events := [], closures := 0 }

/-- Source: `this.events.has(event)`. -/
def EventBus.has (bus : EventBus) (event : String) : Bool :=
  (bus.events.lookup event).isSome

/-- Source: `this.events.get(event)`, read only where the key is present. -/
def EventBus.get (bus : EventBus) (event : String) : List Callback :=
  (bus.events.lookup event).getD []

/-- Source: `Map.prototype.set`, also standing for the mutation of the set held
under `event`: a present key keeps its place, a new key goes last. -/
def EventBus.mapSet (events : List (String × List Callback)) (event : String)
    (set : List Callback) : List (String × List Callback) :=
  if (events.lookup event).isSome then
    events.map (fun kv => if kv.1 = event then (event, set) else kv)
  else events ++ [(event, set)]

/-- Source: `Set.prototype.add` on a set of callbacks. -/
def EventBus.addCallback (set : List Callback) (callback : Callback) : List Callback :=
  if callback ∈ set then set else set ++ [callback]

/-- Source: `Set.prototype.delete` on a set of callbacks. -/
def EventBus.deleteCallback (set : List Callback) (callback : Callback) : List Callback :=
  set.filter (fun c => c ≠ callback)

/-- Source: `on(event, callback)`. -/
def EventBus.on (bus : EventBus) (event : String) (callback : Callback) : EventBus :=
  let bus1 :=
    if EventBus.has bus event then bus
    else { bus with events := EventBus.mapSet bus.events event [] }
  { bus1 with
    events := EventBus.mapSet bus1.events event
      (EventBus.addCallback (EventBus.get bus1 event) callback) }

/-- Source: `off(event, callback)`. -/
def EventBus.off (bus : EventBus) (event : String) (callback : Callback) : EventBus :=
  if EventBus.has bus event then
    { bus with
      events := EventBus.mapSet bus.events event
        (EventBus.deleteCallback (EventBus.get bus event) callback) }
  else bus

/-- Source: `once(event, callback)`. -/
def EventBus.once (bus : EventBus) (event : String) (callback : Nat) : EventBus :=
  let onceCallback := Callback.onceCallback bus.closures event callback
  EventBus.on { bus with closures := bus.closures + 1 } event onceCallback

/-- A call of the bus that a caller's function makes while it runs:
`on(event, callback)`, `off(event, callback)` or `once(event, callback)`. -/
inductive BusOp
  | subscribe (event : String) (callback : Callback)
  | unsubscribe (event : String) (callback : Callback)
  | subscribeOnce (event : String) (callback : Nat)
deriving DecidableEq, Repr

/-- The event name that a call of the bus is about. -/
def BusOp.event : BusOp → String
  | .subscribe e _ => e
  | .unsubscribe e _ => e
  | .subscribeOnce e _ => e

/-- The place of a callback in the order of a set (the size of the set when it
is not an element). -/
def EventBus.position (callback : Callback) : List Callback → Nat
  | [] => 0
  | c :: cs => if c = callback then 0 else EventBus.position callback cs + 1

/-- One call of the bus made during the walk of `this.events.get(event)`.  The
state is the bus together with `visited`, the number of elements of the walked
set that the walk has reached: `add` appends, so the walk will reach the new
element; `delete` of an element already reached moves the rest one place up. -/
def EventBus.perform (event : String) (it : EventBus × Nat) : BusOp → EventBus × Nat
  | .subscribe e callback => (EventBus.on it.1 e callback, it.2)
  | .unsubscribe e callback =>
    (EventBus.off it.1 e callback,
      if e = event ∧ EventBus.position callback (EventBus.get it.1 event) < it.2
      then it.2 - 1 else it.2)
  | .subscribeOnce e callback => (EventBus.once it.1 e callback, it.2)

/-- One invocation by `emit`, inside its `try`: the state of the walk
afterwards and whether the subscriber threw.  A caller's function makes its
calls of the bus and then returns or throws; the closure `onceCallback` runs
`callback(payload); this.off(event, onceCallback)`. -/
def EventBus.invoke {P : Type} (throws : Nat → P → Bool) (ops : Nat → P → List BusOp)
    (payload : P) (event : String) (it : EventBus × Nat) :
    Callback → (EventBus × Nat) × Bool
  | .fn f => ((ops f payload).foldl (EventBus.perform event) it, throws f payload)
  | .onceCallback serial e callback =>
    let it1 := (ops callback payload).foldl (EventBus.perform event) it
    if throws callback payload then (it1, true)
    else (EventBus.perform event it1 (.unsubscribe e (.onceCallback serial e callback)),
      false)

/-- Whether a subscriber of `event` is still subscribed to it once its own
invocation is over: the closure that `once(event, callback)` made has removed
itself when `callback` returned. -/
def EventBus.stays {P : Type} (throws : Nat → P → Bool) (payload : P) (event : String) :
    Callback → Bool
  | .fn _ => true
  | .onceCallback _ e callback => throws callback payload || e != event

/-- Source: `this.events.get(event).forEach(callback => { try { callback(payload) }
catch (error) { ... } })`, from the element at place `it.2` on: the bus
afterwards and the subscribers invoked, in order, each with whether it threw
(and was caught). -/
def EventBus.forEach {P : Type} (throws : Nat → P → Bool) (ops : Nat → P → List BusOp)
    (payload : P) (event : String) :
    Nat → EventBus × Nat → List (Callback × Bool) → Option (EventBus × List (Callback × Bool))
  | 0, _, _ => none
  | fuel + 1, it, trace =>
    match (EventBus.get it.1 event)[it.2]? with
    | none => some (it.1, trace)
    | some callback =>
      let r := EventBus.invoke throws ops payload event (it.1, it.2 + 1) callback
      EventBus.forEach throws ops payload event fuel r.1 (trace ++ [(callback, r.2)])

/-- Source: `emit(event, payload)`: the bus afterwards and the subscribers
invoked, in order, each with whether it threw (and was caught).  `fuel` is the
number of steps allowed to the walk, one for each visit and one to find the
end of the set; the answer is `none` when the walk has not ended within them. -/
def EventBus.emit {P : Type} (throws : Nat → P → Bool) (ops : Nat → P → List BusOp)
    (fuel : Nat) (bus : EventBus) (event : String) (payload : P) :
    Option (EventBus × List (Callback × Bool)) :=
  if EventBus.has bus event then
    EventBus.forEach throws ops payload event fuel (bus, 0) []
  else some (bus, [])

/-- Source: `removeAllListeners(event)`; `none` is a call without argument. -/
def EventBus.removeAllListeners (bus : EventBus) (event : Option String) : EventBus :=
  match event with
  | some e =>
    if e ≠ "" then { bus with events := bus.events.filter (fun kv => kv.1 ≠ e) }
    else { bus with events := [] }
  | none => { bus with events := [] }

/-- Source: `getEventNames()`. -/
def EventBus.getEventNames (bus : EventBus) : List String :=
  bus.events.map Prod.fst

/-- Source: `getListenerCount(event)`. -/
def EventBus.getListenerCount (bus : EventBus) (event : String) : Nat :=
  if EventBus.has bus event then (EventBus.get bus event).length else 0

/-- The list stands for a map of sets: no key and no callback occurs twice. -/
def EventBus.WF (bus : EventBus) : Prop :=
  (bus.events.map Prod.fst).Nodup ∧ ∀ kv ∈ bus.events, kv.2.Nodup

/-! ## bookManager.js : class BookManager -/

/-- The store: the collection `this.books`, the item kept in `localStorage`
under `STORAGE_KEY` (as the parsed array), and the events emitted so far. -/
structure BookManager where
  books : List Book
  storage : Option (List BookData)
  emitted : List Event
deriving DecidableEq, Repr

namespace BookManager

/-- The store with an empty collection, nothing persisted, nothing emitted. -/
def empty : BookManager :=
  { books := [], storage := none, emitted := [] }

/-- Source: `eventBus.emit(event, payload)` as seen from the store. -/
def emit (s : BookManager) (e : Event) : BookManager :=
  { s with emitted := s.emitted ++ [e] }

/-- Source: `saveToStorage()`. -/
def saveToStorage (writeOk : Bool) (s : BookManager) : BookManager :=
  if writeOk then
    { s with storage := some (s.books.map Book.toJSON) }
  else
    emit s (.ERROR_OCCURRED "Không thể lưu dữ liệu vào bộ nhớ")

/-- Source: `getAll()`. -/
def getAll (s : BookManager) : List Book :=
  s.books

/-- Source: `Array.prototype.find`. -/
def find (p : Book → Bool) : List Book → Option Book
  | [] => none
  | b :: bs => if p b then some b else find p bs

/-- Source: `Array.prototype.findIndex`, with `none` for `-1`. -/
def findIndex (p : Book → Bool) : List Book → Option Nat
  | [] => none
  | b :: bs => if p b then some 0 else (findIndex p bs).map (· + 1)

/-- Source: `getById(id)`, with `none` for `null`. -/
def getById (s : BookManager) (id : Int) : Option Book :=
  find (fun book => book.id == id) s.books

/-- The effect on the array of mutating, through its reference, the object
that `find` returned: the first element satisfying `p` becomes `b`. -/
def mutateFound (p : Book → Bool) (b : Book) : List Book → List Book
  | [] => []
  | x :: xs => if p x then b :: xs else x :: mutateFound p b xs

/-- Source: `this.books.splice(index, 1)`. -/
def splice1 (index : Nat) (books : List Book) : List Book :=
  books.take index ++ books.drop (index + 1)

/-- Source: `add(bookData)`. -/
def add (clock : Clock) (writeOk : Bool) (s : BookManager) (bookData : BookData) :
    BookManager × Except BookError Book :=
  match Book.constructor clock bookData with
  | .ok book =>
    let s1 := { s with books := s.books ++ [book] }
    let s2 := saveToStorage writeOk s1
    let s3 := emit s2 (.BOOK_ADDED book)
    let s4 := emit s3 (.BOOKS_CHANGED (getAll s3))
    (s4, .ok book)
  | .error error =>
    (emit s (.ERROR_OCCURRED "Không thể thêm sách mới"), .error error)

/-- Source: `update(id, updates)`. -/
def update (writeOk : Bool) (s : BookManager) (id : Int) (updates : BookData) :
    BookManager × Except BookError Book :=
  match getById s id with
  | none =>
    (emit s (.ERROR_OCCURRED "Không thể cập nhật sách"), .error .notFound)
  | some found =>
    match Book.update found updates with
    | (book, .error error) =>
      let s1 := { s with books := mutateFound (fun b => b.id == id) book s.books }
      (emit s1 (.ERROR_OCCURRED "Không thể cập nhật sách"), .error error)
    | (book, .ok ()) =>
      let s1 := { s with books := mutateFound (fun b => b.id == id) book s.books }
      let s2 := saveToStorage writeOk s1
      let s3 := emit s2 (.BOOK_UPDATED book)
      let s4 := emit s3 (.BOOKS_CHANGED (getAll s3))
      (s4, .ok book)

/-- Source: `remove(id)`. -/
def remove (writeOk : Bool) (s : BookManager) (id : Int) : BookManager × Bool :=
  match findIndex (fun book => book.id == id) s.books with
  | none => (s, false)
  | some index =>
    let removedBook := s.books.getD index default
    let s1 := { s with books := splice1 index s.books }
    let s2 := saveToStorage writeOk s1
    let s3 := emit s2 (.BOOK_DELETED removedBook)
    let s4 := emit s3 (.BOOKS_CHANGED (getAll s3))
    (s4, true)

/-- Source: `search(query)`. -/
def search (toLowerCase : String → String) (s : BookManager) (query : String) :
    List Book :=
  if trim query = "" then
    getAll s
  else
    let searchTerm := toLowerCase query
    s.books.filter fun book =>
      includes (toLowerCase book.title) searchTerm ||
      includes (toLowerCase book.author) searchTerm ||
      includes (toLowerCase book.category) searchTerm ||
      includes (toLowerCase book.description) searchTerm

/-- Source: `clear()`. -/
def clear (writeOk : Bool) (s : BookManager) : BookManager :=
  let s1 := { s with books := [] }
  let s2 := saveToStorage writeOk s1
  emit s2 (.BOOKS_CHANGED (getAll s2))

/-- Source: `importBooks(booksData)`. -/
def importBooks (clocks : Nat → Clock) (writeOk : Bool) (s : BookManager)
    (booksData : List BookData) : BookManager × Except BookError Unit :=
  match BookFactory.createMultiple clocks booksData with
  | .ok importedBooks =>
    let s1 := { s with books := s.books ++ importedBooks }
    let s2 := saveToStorage writeOk s1
    let s3 := emit s2 (.BOOKS_CHANGED (getAll s2))
    let s4 := emit s3 (.SUCCESS_MESSAGE
      ("Đã import " ++ toString importedBooks.length ++ " sách thành công"))
    (s4, .ok ())
  | .error error =>
    (emit s (.ERROR_OCCURRED "Không thể import sách"), .error error)

/-- Source: `filterByCategory(category)`. -/
def filterByCategory (s : BookManager) (category : String) : List Book :=
  if category = "" then getAll s
  else s.books.filter (fun book => book.category = category)

/-- Source: `getCategories()`. -/
def getCategories (s : BookManager) : List String :=
  let categories := s.books.map (fun book => book.category)
  sort (newSet categories)

/-- The object returned by `getStats()`. -/
structure Stats where
  totalBooks : Nat
  totalCategories : Nat
  popularCategory : String
  categoryCount : CountObject
deriving DecidableEq, Repr

/-- The loop `this.books.forEach(book => { categoryCount[book.category] =
(categoryCount[book.category] || 0) + 1 })` on an object. -/
def countCategories (o : CountObject) (books : List Book) : CountObject :=
  books.foldl
    (fun o book => o.set book.category (orZeroPlusOne (o.get book.category))) o

/-- The reduction `Object.keys(categoryCount).reduce((a, b) =>
categoryCount[a] > categoryCount[b] ? a : b, '-')`. -/
def reducePopular (categoryCount : CountObject) : String :=
  categoryCount.keys.foldl
    (fun a b => if greater (categoryCount.get a) (categoryCount.get b) then a else b) "-"

/-- Source: `getStats()`. -/
def getStats (s : BookManager) : Stats :=
  let totalBooks := s.books.length
  let categories := getCategories s
  let totalCategories := categories.length
  let categoryCount := countCategories [] s.books
  let popularCategory := reducePopular categoryCount
  { totalBooks := totalBooks
    totalCategories := totalCategories
    popularCategory := popularCategory
    categoryCount := categoryCount }

/-- The number of books of a list whose category is `c`. -/
def countOf (books : List Book) (c : String) : Nat :=
  (books.filter (fun book => book.category = c)).length

/-- The number of books of the collection whose category is `c`. -/
def booksIn (s : BookManager) (c : String) : Nat :=
  countOf s.books c

/-- The object holds, under every category, the number of the books of `done`
in that category, and no other property. -/
def Counted (o : CountObject) (done : List Book) : Prop :=
  ∀ k, o.lookup k
    = if countOf done k = 0 then none else some (CountValue.number (countOf done k))

/-- What `localStorage.getItem` and `JSON.parse` give `loadFromStorage`: no item
(`null` or the empty text), a text that `JSON.parse` rejects, a parsed value
that is not an array (`booksData.map` is not a function), or an array of
records. -/
inductive StoredItem
  | missing
  | unparseable
  | notArray
  | records (booksData : List BookData)

/-- Source: `loadFromStorage()`. -/
def loadFromStorage (clocks : Nat → Clock) (stored : StoredItem) (s : BookManager) :
    BookManager :=
  match stored with
  | .missing => { s with books := [] }
  | .unparseable =>
    emit { s with books := [] } (.ERROR_OCCURRED "Không thể tải dữ liệu từ bộ nhớ")
  | .notArray =>
    emit { s with books := [] } (.ERROR_OCCURRED "Không thể tải dữ liệu từ bộ nhớ")
  | .records booksData =>
    match BookFactory.createMultiple clocks booksData with
    | .ok books => { s with books := books }
    | .error _ =>
      emit { s with books := [] } (.ERROR_OCCURRED "Không thể tải dữ liệu từ bộ nhớ")

/-- Source: `exportBooks()` of the controller, as the array that
`JSON.parse` reads back from the exported text. -/
def exportBooks (s : BookManager) : List BookData :=
  (getAll s).map (fun book => book.toJSON)

/-! ## Sequences of store calls -/

/-- One call of a mutating store method, with the external inputs it reads. -/
inductive Call
  | add (clock : Clock) (writeOk : Bool) (bookData : BookData)
  | update (writeOk : Bool) (id : Int) (updates : BookData)
  | remove (writeOk : Bool) (id : Int)
  | importBooks (clocks : Nat → Clock) (writeOk : Bool) (booksData : List BookData)
  | clear (writeOk : Bool)

/-- The store after a call, whether the call returned or threw. -/
def step (s : BookManager) : Call → BookManager
  | .add clock writeOk bookData => (add clock writeOk s bookData).1
  | .update writeOk id updates => (update writeOk s id updates).1
  | .remove writeOk id => (remove writeOk s id).1
  | .importBooks clocks writeOk booksData => (importBooks clocks writeOk s booksData).1
  | .clear writeOk => clear writeOk s

/-- The store after a sequence of calls. -/
def run (s : BookManager) (calls : List Call) : BookManager :=
  calls.foldl step s

/-- The id that `new Book(data)` gives each record of a batch, in order, the
record at position `i` read against `clocks (k + i)`. -/
def assignedIds (clocks : Nat → Clock) (k : Nat) : List BookData → List Int
  | [] => []
  | data :: rest => orNumber data.id (clocks k).forId :: assignedIds clocks (k + 1) rest

/-- The ids held by the collection, in order. -/
def ids (s : BookManager) : List Int :=
  s.books.map Book.id

/-- A call that brings no id already in use: an added record receives an id no
book of the collection has, the records of an imported batch receive ids
distinct from one another and from those of the collection, and an update does
not name the property `id`. -/
def KeepsIds (s : BookManager) : Call → Prop
  | .add clock _ bookData => orNumber bookData.id clock.forId ∉ ids s
  | .update _ _ updates => updates.id = none
  | .remove _ _ => True
  | .importBooks clocks _ booksData =>
    (assignedIds clocks 0 booksData).Nodup ∧
      ∀ i ∈ assignedIds clocks 0 booksData, i ∉ ids s
  | .clear _ => True

/-- Every call of the sequence, at the state it is made in, brings no id
already in use. -/
def RunKeepsIds (s : BookManager) : List Call → Prop
  | [] => True
  | call :: calls => KeepsIds s call ∧ RunKeepsIds (step s call) calls

end BookManager

/-! ## controller.js : class Controller

The view is kept as what the controller last asked of it. -/

/-- The controller: its three fields of state, and the view: the list last
handed to `renderBooks`, the statistics last handed to `renderStats`, the
categories last handed to `updateCategoryFilter`, the values of the search
input and of the category selector, and the messages shown by `showError`
and `showSuccess`, oldest first. -/
structure Controller where
  currentBooks : List Book
  currentFilter : String
  currentSearch : String
  rendered : List Book
  renderedStats : Option BookManager.Stats
  categoryOptions : List String
  searchInput : String
  categoryFilter : String
  errors : List String
  successes : List String
deriving DecidableEq, Repr

namespace Controller

/-- The fields as `constructor()` sets them, with a view that was asked
nothing yet. -/
def initial : Controller :=
  { currentBooks := []
    currentFilter := ""
    currentSearch := ""
    rendered := []
    renderedStats := none
    categoryOptions := []
    searchInput := ""
    categoryFilter := ""
    errors := []
    successes := [] }

/-- Source: `this.view.showError(message)`. -/
def showError (c : Controller) (message : String) : Controller :=
  { c with errors := c.errors ++ [message] }

/-- Source: `this.view.showSuccess(message)`. -/
def showSuccess (c : Controller) (message : String) : Controller :=
  { c with successes := c.successes ++ [message] }

/-- Source: `applyFilters()`. -/
def applyFilters (toLowerCase : String → String) (store : BookManager) (c : Controller) :
    Controller :=
  let filteredBooks := c.currentBooks
  let filteredBooks :=
    if c.currentSearch ≠ "" then BookManager.search toLowerCase store c.currentSearch
    else filteredBooks
  let filteredBooks :=
    if c.currentFilter ≠ "" then
      filteredBooks.filter (fun book => book.category = c.currentFilter)
    else filteredBooks
  { c with rendered := filteredBooks }

/-- The loop `categories.forEach(cat => { categoryCount[cat] =
this.currentBooks.filter(book => book.category === cat).length })` of
`updateView()`. -/
def regenerateCount (currentBooks : List Book) (categories : List String) : CountObject :=
  categories.foldl
    (fun o cat => o.set cat (.number (BookManager.countOf currentBooks cat))) []

/-- Source: `updateView()`. -/
def updateView (toLowerCase : String → String) (store : BookManager) (c : Controller) :
    Controller :=
  let c := { c with currentBooks := BookManager.getAll store }
  let c := applyFilters toLowerCase store c
  let stats := BookManager.getStats store
  let stats :=
    if stats.categoryCount.keys.length = 0 then
      { stats with
        categoryCount := regenerateCount c.currentBooks (BookManager.getCategories store) }
    else stats
  let c := { c with renderedStats := some stats }
  { c with categoryOptions := BookManager.getCategories store }

/-- Source: `handleBooksChanged(books)`. -/
def handleBooksChanged (toLowerCase : String → String) (store : BookManager)
    (c : Controller) (books : List Book) : Controller :=
  applyFilters toLowerCase store { c with currentBooks := books }

/-- Source: `handleBookAdded(book)`. -/
def handleBookAdded (toLowerCase : String → String) (store : BookManager)
    (c : Controller) (book : Book) : Controller :=
  let c := showSuccess c ("Đã thêm sách \"" ++ book.title ++ "\" thành công!")
  let c := { c with searchInput := "" }
  let c := { c with categoryFilter := "" }
  let c := { c with currentSearch := "" }
  let c := { c with currentFilter := "" }
  updateView toLowerCase store c

/-- Source: `handleBookUpdated(book)`. -/
def handleBookUpdated (toLowerCase : String → String) (store : BookManager)
    (c : Controller) (book : Book) : Controller :=
  let c := showSuccess c ("Đã cập nhật sách \"" ++ book.title ++ "\" thành công!")
  updateView toLowerCase store c

/-- Source: `handleBookDeleted(book)`. -/
def handleBookDeleted (toLowerCase : String → String) (store : BookManager)
    (c : Controller) (book : Book) : Controller :=
  let c := showSuccess c ("Đã xóa sách \"" ++ book.title ++ "\" thành công!")
  updateView toLowerCase store c

/-- Source: `handleSearchChanged(query)`. -/
def handleSearchChanged (toLowerCase : String → String) (store : BookManager)
    (c : Controller) (query : String) : Controller :=
  applyFilters toLowerCase store { c with currentSearch := query }

/-- Source: `handleFilterChanged(category)`. -/
def handleFilterChanged (toLowerCase : String → String) (store : BookManager)
    (c : Controller) (category : String) : Controller :=
  applyFilters toLowerCase store { c with currentFilter := category }

/-- Source: `handleError(errorData)`. -/
def handleError (c : Controller) (message : String) : Controller :=
  showError c (orText message "Đã xảy ra lỗi không xác định!")

/-- Source: `handleSuccess(messageData)`. -/
def handleSuccess (c : Controller) (message : String) : Controller :=
  showSuccess c (orText message "Thao tác thành công!")

/-- The subscriptions of `setupEventListeners()` to the events of the store:
the handler that runs for an emitted event, against the store as it is when
the event is emitted. -/
def handle (toLowerCase : String → String) (store : BookManager) (c : Controller) :
    Event → Controller
  | .BOOKS_CHANGED books => handleBooksChanged toLowerCase store c books
  | .BOOK_ADDED book => handleBookAdded toLowerCase store c book
  | .BOOK_UPDATED book => handleBookUpdated toLowerCase store c book
  | .BOOK_DELETED book => handleBookDeleted toLowerCase store c book
  | .ERROR_OCCURRED message => handleError c message
  | .SUCCESS_MESSAGE message => handleSuccess c message

/-- The events a store call appended to the log, delivered in order.  Every
store method emits after it has finished writing `this.books`, so each
handler sees the store the call leaves. -/
def deliver (toLowerCase : String → String) (before after : BookManager)
    (c : Controller) : Controller :=
  (after.emitted.drop before.emitted.length).foldl (handle toLowerCase after) c

/-- Source: `importBooks(booksData)` of the controller. -/
def importBooks (toLowerCase : String → String) (clocks : Nat → Clock)
    (writeOk : Bool) (store : BookManager) (c : Controller)
    (booksData : List BookData) : BookManager × Controller :=
  let r := BookManager.importBooks clocks writeOk store booksData
  let c := deliver toLowerCase store r.1 c
  match r.2 with
  | .ok () => (r.1, c)
  | .error error => (r.1, showError c (orText error.message "Không thể import sách!"))

/-- What `JSON.parse(text)` gives the handler of 'books:import': a syntax
error, a value that is not an array, or an array of records. -/
inductive Parsed
  | syntaxError
  | notArray
  | array (data : List BookData)

/-- The handler of 'books:import' in `setupEventListeners()`. -/
def onBooksImport (toLowerCase : String → String) (clocks : Nat → Clock)
    (writeOk : Bool) (store : BookManager) (c : Controller) :
    Parsed → BookManager × Controller
  | .syntaxError => (store, showError c "File JSON không hợp lệ")
  | .notArray => (store, showError c "File JSON không hợp lệ")
  | .array data => importBooks toLowerCase clocks writeOk store c data

/-- The books of the store's collection that pass both filters: the search
text is empty or the book is in `store.search(search)`, and the category
filter is empty or is the book's category. -/
def visibleBooks (toLowerCase : String → String) (store : BookManager)
    (search filter : String) : List Book :=
  (BookManager.getAll store).filter (fun book => decide
    ((search = "" ∨ book ∈ BookManager.search toLowerCase store search) ∧
      (filter = "" ∨ book.category = filter)))

end Controller

/-! ## Sample data (from `utils/demoLoader.js`) -/

/-- The second sample record. -/
def cleanCodeData : BookData :=
  { id := some 2
    title := some "Clean Code"
    author := some "Robert C. Martin"
    category := some "Programming"
    description := some "A Handbook of Agile Software Craftsmanship" }

/-- The third sample record. -/
def designPatternsData : BookData :=
  { id := some 3
    title := some "Design Patterns"
    author := some "Gang of Four"
    category := some "Programming"
    description := some "Elements of Reusable Object-Oriented Software" }

/-- A clock reading. -/
def sampleClock : Clock :=
  { forId := 1700000000000, forCreatedAt := 1700000000000 }

/-- The book built from the second sample record. -/
def cleanCode : Book :=
  { id := 2
    title := "Clean Code"
    author := "Robert C. Martin"
    category := "Programming"
    cover := ""
    description := "A Handbook of Agile Software Craftsmanship"
    createdAt := 1700000000000 }

/-- The book built from the third sample record. -/
def designPatterns : Book :=
  { id := 3
    title := "Design Patterns"
    author := "Gang of Four"
    category := "Programming"
    cover := ""
    description := "Elements of Reusable Object-Oriented Software"
    createdAt := 1700000000000 }

/-- A record without `id` and `createdAt`, as the form of the modal produces it. -/
def refactoringData : BookData :=
  { title := some "Refactoring"
    author := some "Martin Fowler"
    category := some "Programming"
    cover := some ""
    description := some "" }

/-- An update that gives a book another title. -/
def retitle : BookData :=
  { title := some "Clean Code, Second Edition" }

/-- A record that takes the id of the second sample record. -/
def sameIdData : BookData :=
  { id := some 2
    title := some "The Pragmatic Programmer"
    author := some "Andrew Hunt"
    category := some "Programming" }

/-- A form record whose title is white space only. -/
def blankTitleData : BookData :=
  { title := some "  "
    author := some "Martin Fowler"
    category := some "Programming" }

/-- A novel, in another category than the sample records. -/
def duneData : BookData :=
  { id := some 4
    title := some "Dune"
    author := some "Frank Herbert"
    category := some "Fiction" }

/-- A book filed under the category "constructor". -/
def constructorData : BookData :=
  { id := some 5
    title := some "Object-Oriented JavaScript"
    author := some "Stoyan Stefanov"
    category := some "constructor" }

/-- The store after the two sample records were added to the empty store. -/
def sampleStore : BookManager :=
  (BookManager.add sampleClock true
    (BookManager.add sampleClock true BookManager.empty cleanCodeData).1
    designPatternsData).1

/-- The store after "Clean Code" (Programming) and "Dune" (Fiction) were added
to the empty store. -/
def twoCategoryStore : BookManager :=
  (BookManager.add sampleClock true
    (BookManager.add sampleClock true BookManager.empty cleanCodeData).1
    duneData).1

/-- The sample store after the book filed under "constructor" was added: two
books in "Programming", one in "constructor". -/
def constructorStore : BookManager :=
  (BookManager.add sampleClock true sampleStore constructorData).1

/-- Add the second sample record, then update it with the id 0. -/
def zeroIdCalls : List BookManager.Call :=
  [.add sampleClock true cleanCodeData, .update true 2 { id := some 0 }]

/-- A bus on which the functions 1, 2 and 3 are subscribed, in this order, to
"book:added". -/
def sampleBus : EventBus :=
  EventBus.on (EventBus.on (EventBus.on EventBus.empty "book:added" (.fn 1))
    "book:added" (.fn 2)) "book:added" (.fn 3)

/-- A record without category and description, as a typed creation receives
it. -/
def asterixData : BookData :=
  { id := some 6
    title := some "Asterix"
    author := some "Goscinny"
    createdAt := some 1700000000000 }

/-- The book built from the form record "Refactoring" at the sample clock. -/
def refactoring : Book :=
  { id := 1700000000000
    title := "Refactoring"
    author := "Martin Fowler"
    category := "Programming"
    cover := ""
    description := ""
    createdAt := 1700000000000 }

/-- The sample store after the form record "Refactoring" was added. -/
def refactoringStore : BookManager :=
  (BookManager.add sampleClock true sampleStore refactoringData).1

/-- The controller over the sample store after the user typed "clean" in the
search input. -/
def searchingController : Controller :=
  Controller.handleSearchChanged asciiLower sampleStore
    { Controller.initial with
      currentBooks := BookManager.getAll sampleStore, searchInput := "clean" }
    "clean"

/-- The empty bus after `once("book:added", 2)`. -/
def onceBus : EventBus :=
  EventBus.once EventBus.empty "book:added" 2

/-- A bus with the function 1 subscribed to the event named by the empty text
and the function 2 subscribed to "book:added". -/
def mixedBus : EventBus :=
  EventBus.on (EventBus.on EventBus.empty "" (.fn 1)) "book:added" (.fn 2)

/-- The function 2 throws on every payload; the others return. -/
def secondThrows (f : Nat) (_ : Book) : Bool :=
  f == 2

/-- No function calls the bus while it runs. -/
def quiet (_ : Nat) (_ : Book) : List BusOp :=
  []

/-- The function 1 calls `off("book:added", f3)` while it runs, f3 being the
function 3; the other functions do not call the bus. -/
def firstUnsubscribesThird (f : Nat) (_ : Book) : List BusOp :=
  if f = 1 then [.unsubscribe "book:added" (.fn 3)] else []

/-- No function throws. -/
def noneThrows (_ : Nat) (_ : Book) : Bool :=
  false

/-- The function 1 calls `on("book:deleted", f4)` while it runs, f4 being the
function 4; the other functions do not call the bus. -/
def firstSubscribesElsewhere (f : Nat) (_ : Book) : List BusOp :=
  if f = 1 then [.subscribe "book:deleted" (.fn 4)] else []

/-- A bus on which the functions 1 and 2 are subscribed, in this order, to
"book:added". -/
def twoBus : EventBus :=
  EventBus.on (EventBus.on EventBus.empty "book:added" (.fn 1)) "book:added" (.fn 2)

/-- The function 1 calls `off("book:added", f1)` and then `on("book:added", f1)`
on itself while it runs. -/
def resubscribesItself (f : Nat) (_ : Book) : List BusOp :=
  if f = 1 then [.unsubscribe "book:added" (.fn 1), .subscribe "book:added" (.fn 1)] else []

/-- The empty bus after `on("book:added", f1)`, f1 being the function 1. -/
def oneBus : EventBus :=
  EventBus.on EventBus.empty "book:added" (.fn 1)

/-- Add the second sample record, then update it with a white-space title. -/
def blankingCalls : List BookManager.Call :=
  [.add sampleClock true cleanCodeData, .update true 2 { title := some "  " }]

/-- Import the two sample records, then import the same two records again. -/
def doubleImport : List BookManager.Call :=
  [.importBooks (fun _ => sampleClock) true [cleanCodeData, designPatternsData],
   .importBooks (fun _ => sampleClock) true [cleanCodeData, designPatternsData]]

/-- Import the two sample records, add a form record, retitle one book, remove
another. -/
def distinctIdCalls : List BookManager.Call :=
  [.importBooks (fun _ => sampleClock) true [cleanCodeData, designPatternsData],
   .add sampleClock true refactoringData,
   .update true 3 { title := some "Design Patterns, 2nd printing" },
   .remove true 2]

end BookVerse

/-! # Theorems -/

namespace BookVerse

/-! ## Strings -/

theorem orEmpty_eq_getD (x : Option String) : orEmpty x = x.getD "" := by
  cases x with
  | none => rfl
  | some s => by_cases h : s = "" <;> simp [orEmpty, h]

theorem mk_eq_empty_iff (l : List Char) : String.mk l = "" ↔ l = [] := by
  constructor
  · intro h
    have := congrArg String.data h
    simpa using this
  · rintro rfl
    rfl

/-- A string trims to the empty string exactly when it consists of white space
only. -/
theorem trim_eq_empty_iff (s : String) :
    trim s = "" ↔ ∀ c ∈ s.data, isTrimChar c = true := by
  unfold trim
  rw [mk_eq_empty_iff, List.reverse_eq_nil_iff, List.dropWhile_eq_nil_iff]
  constructor
  · intro h
    have hnil : s.data.dropWhile isTrimChar = [] := by
      by_contra hne
      have h1 := List.head_dropWhile_not isTrimChar s.data hne
      have h2 := h _ (List.mem_reverse.mpr (List.head_mem hne))
      simp [h1] at h2
    exact List.dropWhile_eq_nil_iff.mp hnil
  · intro h c hc
    have hnil : s.data.dropWhile isTrimChar = [] := List.dropWhile_eq_nil_iff.mpr h
    simp [hnil] at hc

theorem includesChars_iff (needle hay : List Char) :
    includesChars needle hay = true ↔ List.IsInfix needle hay := by
  induction hay with
  | nil => simp [includesChars]
  | cons c cs ih =>
    simp only [includesChars, Bool.or_eq_true, ih, List.isPrefixOf_iff_prefix]
    exact List.infix_cons_iff.symm

theorem includes_iff (s t : String) :
    includes s t = true ↔ List.IsInfix t.data s.data :=
  includesChars_iff t.data s.data

/-! ## The entity -/

theorem Book.validate_ok_iff (b : Book) : b.validate = .ok () ↔ b.Valid := by
  unfold Book.validate Book.Valid
  by_cases h1 : trim b.title = "" <;> by_cases h2 : trim b.author = "" <;>
    by_cases h3 : trim b.category = "" <;> simp [h1, h2, h3]

theorem Book.validate_error (b : Book) (e : BookError) (h : b.validate = .error e) :
    e.isValidation = true ∧ ¬ b.Valid := by
  have hv : ¬ b.Valid := by
    intro hv
    rw [(Book.validate_ok_iff b).mpr hv] at h
    cases h
  refine ⟨?_, hv⟩
  unfold Book.validate at h
  split_ifs at h <;> cases h <;> rfl

theorem Book.validate_cases (b : Book) :
    (b.validate = .ok () ∧ b.Valid) ∨
      (∃ e, b.validate = .error e ∧ e.isValidation = true ∧ ¬ b.Valid) := by
  cases h : b.validate with
  | ok u => cases u; exact Or.inl ⟨rfl, (Book.validate_ok_iff b).mp h⟩
  | error e => exact Or.inr ⟨e, rfl, Book.validate_error b e h⟩

theorem Book.constructor_ok_iff (clock : Clock) (data : BookData) (b : Book) :
    Book.constructor clock data = .ok b ↔ b = Book.init clock data ∧ b.Valid := by
  unfold Book.constructor
  rcases Book.validate_cases (Book.init clock data) with ⟨h, hv⟩ | ⟨e, h, -, hv⟩
  · simp only [h]
    constructor
    · intro hb
      cases hb
      exact ⟨rfl, hv⟩
    · rintro ⟨rfl, -⟩
      rfl
  · simp only [h]
    constructor
    · intro hb
      cases hb
    · rintro ⟨rfl, hb⟩
      exact absurd hb hv

theorem Book.constructor_error_iff (clock : Clock) (data : BookData) :
    (∃ e, Book.constructor clock data = .error e) ↔ ¬ (Book.init clock data).Valid := by
  unfold Book.constructor
  rcases Book.validate_cases (Book.init clock data) with ⟨h, hv⟩ | ⟨e, h, -, hv⟩
  · simp [h, hv]
  · simp [h, hv]

theorem Book.constructor_error_isValidation (clock : Clock) (data : BookData)
    (e : BookError) (h : Book.constructor clock data = .error e) :
    e.isValidation = true := by
  unfold Book.constructor at h
  rcases Book.validate_cases (Book.init clock data) with ⟨h1, -⟩ | ⟨e1, h1, hv, -⟩
  · simp [h1] at h
  · simp only [h1] at h
    cases h
    exact hv

/-- Whenever `update` throws, the book it leaves behind violates the invariant. -/
theorem Book.update_error_not_valid (b : Book) (updates : BookData) (e : BookError)
    (h : (Book.update b updates).2 = .error e) : ¬ (Book.update b updates).1.Valid :=
  (Book.validate_error (b.assign updates) e h).2

theorem Book.init_valid_iff (clock : Clock) (data : BookData) :
    (Book.init clock data).Valid ↔
      ¬ (trim (data.title.getD "") = "" ∨ trim (data.author.getD "") = "" ∨
        trim (data.category.getD "") = "") := by
  simp only [Book.Valid, Book.init, orEmpty_eq_getD]
  tauto

/-! ## The store: frame lemmas -/

namespace BookManager

@[simp] theorem emit_books (s : BookManager) (e : Event) : (emit s e).books = s.books :=
  rfl

@[simp] theorem saveToStorage_books (writeOk : Bool) (s : BookManager) :
    (saveToStorage writeOk s).books = s.books := by
  cases writeOk <;> rfl

theorem find_eq_none_iff (p : Book → Bool) (l : List Book) :
    find p l = none ↔ ∀ x ∈ l, p x = false := by
  induction l with
  | nil => simp [find]
  | cons x xs ih =>
    by_cases h : p x = true
    · simp [find, h]
    · simp [find, h, ih]

theorem find_append_singleton (p : Book → Bool) (l : List Book) (b : Book)
    (hl : ∀ x ∈ l, p x = false) (hb : p b = true) : find p (l ++ [b]) = some b := by
  induction l with
  | nil => simp [find, hb]
  | cons x xs ih =>
    have hx : p x = false := hl x (List.mem_cons_self x xs)
    have hxs : ∀ y ∈ xs, p y = false := fun y hy => hl y (List.mem_cons_of_mem x hy)
    simp [find, hx, ih hxs]

theorem add_of_ok (clock : Clock) (writeOk : Bool) (s : BookManager) (data : BookData)
    (b : Book) (h : Book.constructor clock data = .ok b) :
    (add clock writeOk s data).2 = .ok b ∧
      (add clock writeOk s data).1.books = s.books ++ [b] := by
  unfold add
  simp [h]

theorem add_of_error (clock : Clock) (writeOk : Bool) (s : BookManager) (data : BookData)
    (e : BookError) (h : Book.constructor clock data = .error e) :
    (add clock writeOk s data).2 = .error e ∧
      (add clock writeOk s data).1.books = s.books := by
  unfold add
  simp [h]

end BookManager

/-! ## Claims -/

/-- C2. Constructing a Book fails with a validation error if and only if the
title, the author or the category of the record (an absent property counting as
the empty string) is empty after trimming; and it succeeds, keeping the title,
author and category of the record, if and only if none of them is. -/
theorem Book.constructor_fails_iff_blank (clock : Clock) (data : BookData) :
    ((∃ e, Book.constructor clock data = .error e ∧ e.isValidation = true) ↔
      (trim (data.title.getD "") = "" ∨ trim (data.author.getD "") = "" ∨
        trim (data.category.getD "") = "")) ∧
    ((∃ b, Book.constructor clock data = .ok b ∧ b.title = data.title.getD "" ∧
        b.author = data.author.getD "" ∧ b.category = data.category.getD "") ↔
      ¬ (trim (data.title.getD "") = "" ∨ trim (data.author.getD "") = "" ∨
        trim (data.category.getD "") = "")) := by
  constructor
  · rw [← not_iff_not, ← Book.init_valid_iff clock data]
    have h := Book.constructor_error_iff clock data
    constructor
    · intro hne
      by_contra hv
      obtain ⟨e, he⟩ := h.mpr hv
      exact hne ⟨e, he, Book.constructor_error_isValidation clock data e he⟩
    · rintro hv ⟨e, he, -⟩
      exact h.mp ⟨e, he⟩ hv
  · rw [← Book.init_valid_iff clock data]
    constructor
    · rintro ⟨b, hb, -⟩
      obtain ⟨rfl, hv⟩ := (Book.constructor_ok_iff clock data b).mp hb
      exact hv
    · intro hv
      refine ⟨Book.init clock data, (Book.constructor_ok_iff clock data _).mpr ⟨rfl, hv⟩, ?_⟩
      simp [Book.init, orEmpty_eq_getD]

/-- C1 (amended). For a record whose title, author and category are non-blank
after trimming, `add` returns a book b that carries every text property the
record supplies and every non-zero `id` / `createdAt` it supplies, the length
of `getAll()` grows by exactly one, and, when no book already in the collection
has the id of b, `getById(b.id)` returns b. -/
theorem BookManager.add_then_getById (clock : Clock) (writeOk : Bool) (s : BookManager)
    (data : BookData)
    (ht : trim (data.title.getD "") ≠ "") (ha : trim (data.author.getD "") ≠ "")
    (hc : trim (data.category.getD "") ≠ "") :
    ∃ b, (BookManager.add clock writeOk s data).2 = .ok b ∧
      (∀ v, data.id = some v → v ≠ 0 → b.id = v) ∧
      (∀ v, data.title = some v → b.title = v) ∧
      (∀ v, data.author = some v → b.author = v) ∧
      (∀ v, data.category = some v → b.category = v) ∧
      (∀ v, data.cover = some v → b.cover = v) ∧
      (∀ v, data.description = some v → b.description = v) ∧
      (∀ v, data.createdAt = some v → v ≠ 0 → b.createdAt = v) ∧
      (BookManager.getAll (BookManager.add clock writeOk s data).1).length =
        (BookManager.getAll s).length + 1 ∧
      ((∀ x ∈ BookManager.getAll s, x.id ≠ b.id) →
        BookManager.getById (BookManager.add clock writeOk s data).1 b.id = some b) := by
  have hv : (Book.init clock data).Valid := by
    rw [Book.init_valid_iff]
    tauto
  have hok := (Book.constructor_ok_iff clock data _).mpr ⟨rfl, hv⟩
  obtain ⟨hres, hbooks⟩ := BookManager.add_of_ok clock writeOk s data _ hok
  refine ⟨Book.init clock data, hres, ?_, ?_, ?_, ?_, ?_, ?_, ?_, ?_, ?_⟩
  · intro v h hne
    simp [Book.init, orNumber, h, hne]
  · intro v h
    simp [Book.init, orEmpty_eq_getD, h]
  · intro v h
    simp [Book.init, orEmpty_eq_getD, h]
  · intro v h
    simp [Book.init, orEmpty_eq_getD, h]
  · intro v h
    simp [Book.init, orEmpty_eq_getD, h]
  · intro v h
    simp [Book.init, orEmpty_eq_getD, h]
  · intro v h hne
    simp [Book.init, orNumber, h, hne]
  · simp [BookManager.getAll, hbooks]
  · intro hfresh
    unfold BookManager.getById
    rw [hbooks]
    apply BookManager.find_append_singleton
    · intro x hx
      simpa using hfresh x hx
    · simp

/-- C1 (witness). Adding the form record "Refactoring" to the sample store,
none of whose books has the id the clock gives. -/
theorem BookManager.add_then_getById_witness :
    (trim (refactoringData.title.getD "") ≠ "" ∧
      trim (refactoringData.author.getD "") ≠ "" ∧
      trim (refactoringData.category.getD "") ≠ "") ∧
    (∀ x ∈ BookManager.getAll sampleStore, x.id ≠ 1700000000000) ∧
    ∃ b, (BookManager.add sampleClock true sampleStore refactoringData).2 = .ok b ∧
      b.id = 1700000000000 ∧
      (BookManager.getAll
        (BookManager.add sampleClock true sampleStore refactoringData).1).length =
        (BookManager.getAll sampleStore).length + 1 ∧
      BookManager.getById (BookManager.add sampleClock true sampleStore refactoringData).1
        b.id = some b := by
  have hfresh : ∀ x ∈ BookManager.getAll sampleStore, x.id ≠ 1700000000000 := by decide
  refine ⟨by decide, hfresh, ?_⟩
  obtain ⟨b, hb, -, -, -, -, -, -, -, hlen, hget⟩ :=
    BookManager.add_then_getById sampleClock true sampleStore refactoringData
      (by decide) (by decide) (by decide)
  have hb2 : (Except.ok (Book.init sampleClock refactoringData) : Except BookError Book)
      = Except.ok b := hb
  have hid : b.id = 1700000000000 := by
    cases hb2
    rfl
  exact ⟨b, hb, hid, hlen, hget (hid ▸ hfresh)⟩

/-- C1 (counterexample). The sample store holds "Clean Code" under id 2. Adding
a valid record that carries id 2 returns the new book, titled "The Pragmatic
Programmer", and `getById` of its id then returns "Clean Code": a book whose
title is not the title of the record just added. -/
theorem BookManager.add_then_getById_counterexample :
    ∃ b, (BookManager.add sampleClock true sampleStore sameIdData).2 = .ok b ∧
      b.title = "The Pragmatic Programmer" ∧
      BookManager.getById (BookManager.add sampleClock true sampleStore sameIdData).1 b.id
        = some cleanCode ∧
      cleanCode.title ≠ b.title :=
  ⟨_, rfl, rfl, rfl, by decide⟩

/-- C3. When the title, the author or the category of the record is blank after
trimming, `add` throws and `getAll()` afterwards is the list it was before. -/
theorem BookManager.add_blank_fails (clock : Clock) (writeOk : Bool) (s : BookManager)
    (data : BookData)
    (h : trim (data.title.getD "") = "" ∨ trim (data.author.getD "") = "" ∨
      trim (data.category.getD "") = "") :
    (∃ e, (BookManager.add clock writeOk s data).2 = .error e) ∧
      BookManager.getAll (BookManager.add clock writeOk s data).1 = BookManager.getAll s := by
  have hv : ¬ (Book.init clock data).Valid := by
    rw [Book.init_valid_iff]
    exact not_not.mpr h
  obtain ⟨e, he⟩ := (Book.constructor_error_iff clock data).mpr hv
  obtain ⟨h1, h2⟩ := BookManager.add_of_error clock writeOk s data e he
  exact ⟨⟨e, h1⟩, h2⟩

/-- C3 (witness). A record with a white-space title is refused by the sample
store, which keeps its two books. -/
theorem BookManager.add_blank_fails_witness :
    trim (blankTitleData.title.getD "") = "" ∧
      BookManager.getAll (BookManager.add sampleClock true sampleStore blankTitleData).1
        = [cleanCode, designPatterns] :=
  ⟨by decide,
    (BookManager.add_blank_fails sampleClock true sampleStore blankTitleData
      (Or.inl (by decide))).2.trans (by decide)⟩

/-- C4. When no book of the collection has the id, `update` throws the
not-found error and `getAll()` afterwards is the list it was before. -/
theorem BookManager.update_absent_id (writeOk : Bool) (s : BookManager) (id : Int)
    (updates : BookData) (h : ∀ b ∈ BookManager.getAll s, b.id ≠ id) :
    (BookManager.update writeOk s id updates).2 = .error .notFound ∧
      BookManager.getAll (BookManager.update writeOk s id updates).1
        = BookManager.getAll s := by
  have hnone : BookManager.getById s id = none := by
    unfold BookManager.getById
    rw [BookManager.find_eq_none_iff]
    intro x hx
    simpa using h x hx
  unfold BookManager.update
  simp [hnone, BookManager.getAll]

/-- C4 (witness). The sample store has no book with id 7. -/
theorem BookManager.update_absent_id_witness :
    (∀ b ∈ BookManager.getAll sampleStore, b.id ≠ 7) ∧
      (BookManager.update true sampleStore 7 refactoringData).2 = .error .notFound ∧
      BookManager.getAll (BookManager.update true sampleStore 7 refactoringData).1
        = BookManager.getAll sampleStore :=
  ⟨by decide, BookManager.update_absent_id true sampleStore 7 refactoringData (by decide)⟩

/-- C5. The book "Clean Code" satisfies the invariant; updating it with a
white-space title throws the validation error, and the book after the call has
the white-space title: it no longer satisfies the invariant. -/
theorem Book.update_blank_leaves_invalid :
    cleanCode.Valid ∧
      (Book.update cleanCode { title := some "  " }).2 = .error .emptyTitle ∧
      (Book.update cleanCode { title := some "  " }).1.title = "  " ∧
      ¬ (Book.update cleanCode { title := some "  " }).1.Valid :=
  ⟨by decide, rfl, rfl, by decide⟩

/-! ## The store: lookup, in-place mutation and deletion -/

namespace BookManager

theorem findIndex_eq_none_iff (p : Book → Bool) (l : List Book) :
    findIndex p l = none ↔ ∀ x ∈ l, p x = false := by
  induction l with
  | nil => simp [findIndex]
  | cons x xs ih =>
    by_cases h : p x = true
    · simp [findIndex, h]
    · simp [findIndex, h, ih]

theorem findIndex_eq_some (p : Book → Bool) (l : List Book) (i : Nat)
    (h : findIndex p l = some i) :
    ∃ pre b post, l = pre ++ b :: post ∧ pre.length = i ∧ p b = true ∧
      ∀ x ∈ pre, p x = false := by
  induction l generalizing i with
  | nil => simp [findIndex] at h
  | cons x xs ih =>
    by_cases hx : p x = true
    · simp [findIndex, hx] at h
      exact ⟨[], x, xs, rfl, by simpa using h, hx, by simp⟩
    · simp only [findIndex, hx] at h
      cases hj : findIndex p xs with
      | none => simp [hj] at h
      | some j =>
        simp [hj] at h
        obtain ⟨pre, b, post, hl, hlen, hb, hpre⟩ := ih j hj
        refine ⟨x :: pre, b, post, by simp [hl], by simp [hlen, h], hb, ?_⟩
        intro y hy
        rcases List.mem_cons.mp hy with rfl | hy
        · simpa using hx
        · exact hpre y hy

theorem splice1_at (pre post : List Book) (b : Book) :
    splice1 pre.length (pre ++ b :: post) = pre ++ post := by
  unfold splice1
  rw [List.take_left, List.drop_append]
  rfl

theorem splice1_sublist (i : Nat) (l : List Book) : (splice1 i l).Sublist l := by
  unfold splice1
  have h := List.Sublist.append (List.Sublist.refl (l.take i))
    (List.drop_sublist_drop_left l (Nat.le_succ i))
  rwa [List.take_append_drop] at h

theorem map_id_mutateFound (p : Book → Bool) (l : List Book) (found b : Book)
    (hf : find p l = some found) (hid : b.id = found.id) :
    (mutateFound p b l).map Book.id = l.map Book.id := by
  induction l with
  | nil => rfl
  | cons x xs ih =>
    by_cases hx : p x = true
    · simp only [find, hx, if_true, Option.some.injEq] at hf
      subst hf
      simp [mutateFound, hx, hid]
    · simp only [find, hx] at hf
      simp [mutateFound, hx, ih hf]

theorem update_books (writeOk : Bool) (s : BookManager) (id : Int) (updates : BookData) :
    (getById s id = none ∧ (update writeOk s id updates).1.books = s.books) ∨
      (∃ found, getById s id = some found ∧
        (update writeOk s id updates).1.books
          = mutateFound (fun b => b.id == id) (found.assign updates) s.books) := by
  unfold update
  cases hg : getById s id with
  | none => exact Or.inl ⟨rfl, rfl⟩
  | some found =>
    refine Or.inr ⟨found, rfl, ?_⟩
    simp only [Book.update]
    cases (found.assign updates).validate with
    | error e => simp
    | ok u => cases u; simp

theorem createMultipleFrom_ids (clocks : Nat → Clock) (k : Nat) (datas : List BookData)
    (bs : List Book) (h : BookFactory.createMultipleFrom clocks k datas = .ok bs) :
    bs.map Book.id = assignedIds clocks k datas := by
  induction datas generalizing k bs with
  | nil =>
    simp only [BookFactory.createMultipleFrom] at h
    cases h
    rfl
  | cons d ds ih =>
    simp only [BookFactory.createMultipleFrom] at h
    cases hc : Book.constructor (clocks k) d with
    | error e => simp [hc] at h
    | ok b =>
      cases hr : BookFactory.createMultipleFrom clocks (k + 1) ds with
      | error e => simp [hc, hr] at h
      | ok rest =>
        simp only [hc, hr] at h
        cases h
        obtain ⟨rfl, -⟩ := (Book.constructor_ok_iff (clocks k) d b).mp hc
        simp [assignedIds, ih (k + 1) rest hr, Book.init]

theorem importBooks_books (clocks : Nat → Clock) (writeOk : Bool) (s : BookManager)
    (datas : List BookData) :
    (∃ bs, BookFactory.createMultiple clocks datas = .ok bs ∧
        (importBooks clocks writeOk s datas).1.books = s.books ++ bs) ∨
      ((∃ e, BookFactory.createMultiple clocks datas = .error e) ∧
        (importBooks clocks writeOk s datas).1.books = s.books) := by
  unfold importBooks
  cases BookFactory.createMultiple clocks datas with
  | ok bs => exact Or.inl ⟨bs, rfl, by simp⟩
  | error e => exact Or.inr ⟨⟨e, rfl⟩, by simp⟩

theorem ids_nodup_step (s : BookManager) (call : Call) (hs : (ids s).Nodup)
    (hk : KeepsIds s call) : (ids (step s call)).Nodup := by
  cases call with
  | add clock writeOk data =>
    simp only [KeepsIds] at hk
    simp only [step]
    cases hc : Book.constructor clock data with
    | error e =>
      unfold ids
      rw [(add_of_error clock writeOk s data e hc).2]
      exact hs
    | ok b =>
      obtain ⟨rfl, -⟩ := (Book.constructor_ok_iff clock data b).mp hc
      unfold ids
      rw [(add_of_ok clock writeOk s data _ hc).2, List.map_append]
      refine List.Nodup.append hs (by simp) ?_
      intro a ha hb
      simp only [List.map_cons, List.map_nil, List.mem_singleton] at hb
      subst hb
      exact hk ha
  | update writeOk id updates =>
    simp only [KeepsIds] at hk
    simp only [step]
    rcases update_books writeOk s id updates with ⟨-, h⟩ | ⟨found, hf, h⟩
    · unfold ids
      rw [h]
      exact hs
    · unfold ids
      rw [h, map_id_mutateFound _ _ found _ hf (by simp [Book.assign, hk])]
      exact hs
  | remove writeOk id =>
    simp only [step]
    unfold remove
    cases hi : findIndex (fun book => book.id == id) s.books with
    | none => exact hs
    | some i =>
      simp only [ids, emit_books, saveToStorage_books]
      exact hs.sublist ((splice1_sublist i s.books).map Book.id)
  | importBooks clocks writeOk datas =>
    simp only [KeepsIds] at hk
    simp only [step]
    rcases importBooks_books clocks writeOk s datas with ⟨bs, hb, h⟩ | ⟨-, h⟩
    · unfold ids
      rw [h, List.map_append, createMultipleFrom_ids clocks 0 datas bs hb]
      exact List.Nodup.append hs hk.1 (fun a ha hb => hk.2 a hb ha)
    · unfold ids
      rw [h]
      exact hs
  | clear writeOk =>
    simp [step, clear, ids]

theorem ids_nodup_run (calls : List Call) (s : BookManager) (hs : (ids s).Nodup)
    (hk : RunKeepsIds s calls) : (ids (run s calls)).Nodup := by
  induction calls generalizing s with
  | nil => exact hs
  | cons call calls ih =>
    obtain ⟨h1, h2⟩ := hk
    exact ih (step s call) (ids_nodup_step s call hs h1) h2

end BookManager

/-! ## Claims on the store -/

/-- C6. The calls `add(cleanCodeData)` then `update(2, {title: "  "})` start
from the empty collection; the update throws the validation error, and the
collection it leaves holds a book whose title is blank after trimming. -/
theorem BookManager.failed_update_breaks_invariant :
    (BookManager.update true (BookManager.run BookManager.empty
        [.add sampleClock true cleanCodeData]) 2 { title := some "  " }).2
      = .error .emptyTitle ∧
    BookManager.getAll (BookManager.run BookManager.empty blankingCalls)
      = [{ cleanCode with title := "  " }] ∧
    ∃ b ∈ BookManager.getAll (BookManager.run BookManager.empty blankingCalls),
      trim b.title = "" :=
  ⟨rfl, by decide, by decide⟩

/-- C7 (amended). Starting from the empty collection, after any sequence of
add, importBooks, update, remove and clear calls in which every added or
imported record receives an id that no book of the collection has (nor another
record of the same batch) and no update names the property `id`, the ids of the
books of the collection are pairwise distinct. -/
theorem BookManager.ids_nodup_of_runKeepsIds (calls : List BookManager.Call)
    (h : BookManager.RunKeepsIds BookManager.empty calls) :
    ((BookManager.getAll (BookManager.run BookManager.empty calls)).map Book.id).Nodup :=
  BookManager.ids_nodup_run calls BookManager.empty (by simp [BookManager.ids, BookManager.empty]) h

/-- C7 (witness). An import, an add, an update and a remove that bring no id
already in use. -/
theorem BookManager.ids_nodup_of_runKeepsIds_witness :
    BookManager.RunKeepsIds BookManager.empty distinctIdCalls ∧
      ((BookManager.getAll (BookManager.run BookManager.empty distinctIdCalls)).map
        Book.id).Nodup := by
  have h : BookManager.RunKeepsIds BookManager.empty distinctIdCalls := by
    refine ⟨⟨?_, ?_⟩, ?_, ?_, ?_, ?_⟩
    · decide
    · decide
    · show _ ∉ _
      decide
    · rfl
    · trivial
    · trivial
  exact ⟨h, BookManager.ids_nodup_of_runKeepsIds distinctIdCalls h⟩

/-- C7 (counterexample). Importing the two sample records twice, starting from
the empty collection, leaves four books with the ids 2, 3, 2, 3. -/
theorem BookManager.ids_nodup_counterexample :
    (BookManager.getAll (BookManager.run BookManager.empty doubleImport)).map Book.id
      = [2, 3, 2, 3] ∧
    ¬ ((BookManager.getAll (BookManager.run BookManager.empty doubleImport)).map
      Book.id).Nodup :=
  ⟨by decide, by decide⟩

/-- C8. `remove(id)` always returns. Either no book has the id, and it returns
false leaving the store as it was; or the collection is `pre ++ b :: post` with
b the first book having the id, and it returns true leaving the collection
`pre ++ post`. -/
theorem BookManager.remove_first_match (writeOk : Bool) (s : BookManager) (id : Int) :
    ((∀ b ∈ BookManager.getAll s, b.id ≠ id) ∧
        BookManager.remove writeOk s id = (s, false)) ∨
      (∃ pre b post, BookManager.getAll s = pre ++ b :: post ∧
        (∀ x ∈ pre, x.id ≠ id) ∧ b.id = id ∧
        (BookManager.remove writeOk s id).2 = true ∧
        BookManager.getAll (BookManager.remove writeOk s id).1 = pre ++ post) := by
  unfold BookManager.remove
  cases hi : BookManager.findIndex (fun book => book.id == id) s.books with
  | none =>
    refine Or.inl ⟨?_, rfl⟩
    intro b hb
    have := (BookManager.findIndex_eq_none_iff _ _).mp hi b hb
    simpa using this
  | some i =>
    obtain ⟨pre, b, post, hl, hlen, hb, hpre⟩ := BookManager.findIndex_eq_some _ _ i hi
    refine Or.inr ⟨pre, b, post, hl, ?_, by simpa using hb, rfl, ?_⟩
    · intro x hx
      simpa using hpre x hx
    · simp only [BookManager.getAll, BookManager.emit_books,
        BookManager.saveToStorage_books]
      rw [hl, ← hlen, BookManager.splice1_at]

/-- C9. For a query made of white space only (the empty query included),
`search(query)` is `getAll()`: the same books in the same order. -/
theorem BookManager.search_blank (toLowerCase : String → String) (s : BookManager)
    (query : String) (h : ∀ c ∈ query.data, isTrimChar c = true) :
    BookManager.search toLowerCase s query = BookManager.getAll s := by
  unfold BookManager.search
  rw [if_pos ((trim_eq_empty_iff query).mpr h)]

/-- C9 (witness). The query of two spaces and a tab on the sample store. -/
theorem BookManager.search_blank_witness :
    (∀ c ∈ "  \t".data, isTrimChar c = true) ∧
      BookManager.search asciiLower sampleStore "  \t" = [cleanCode, designPatterns] :=
  ⟨by decide,
    (BookManager.search_blank asciiLower sampleStore "  \t" (by decide)).trans (by decide)⟩

/-- C10. For a query that is not blank, `search(query)` is the collection
filtered, in order, by: the lower-cased query occurs in the lower-cased title,
author, category or description. So a book matching in no field is left out,
and when the query lower-cases to "clean", every book of the collection whose
title lower-cases to "clean code" is returned. -/
theorem BookManager.search_nonblank (toLowerCase : String → String) (s : BookManager)
    (query : String) (h : trim query ≠ "") :
    BookManager.search toLowerCase s query
        = (BookManager.getAll s).filter (fun book => decide
          (List.IsInfix (toLowerCase query).data (toLowerCase book.title).data ∨
            List.IsInfix (toLowerCase query).data (toLowerCase book.author).data ∨
            List.IsInfix (toLowerCase query).data (toLowerCase book.category).data ∨
            List.IsInfix (toLowerCase query).data (toLowerCase book.description).data)) ∧
      (∀ book, ¬ List.IsInfix (toLowerCase query).data (toLowerCase book.title).data →
        ¬ List.IsInfix (toLowerCase query).data (toLowerCase book.author).data →
        ¬ List.IsInfix (toLowerCase query).data (toLowerCase book.category).data →
        ¬ List.IsInfix (toLowerCase query).data (toLowerCase book.description).data →
        book ∉ BookManager.search toLowerCase s query) ∧
      (toLowerCase query = "clean" →
        ∀ book ∈ BookManager.getAll s, toLowerCase book.title = "clean code" →
          book ∈ BookManager.search toLowerCase s query) := by
  have hfilter : BookManager.search toLowerCase s query
        = (BookManager.getAll s).filter (fun book => decide
          (List.IsInfix (toLowerCase query).data (toLowerCase book.title).data ∨
            List.IsInfix (toLowerCase query).data (toLowerCase book.author).data ∨
            List.IsInfix (toLowerCase query).data (toLowerCase book.category).data ∨
            List.IsInfix (toLowerCase query).data (toLowerCase book.description).data)) := by
    unfold BookManager.search
    rw [if_neg h]
    apply List.filter_congr
    intro b _
    rw [Bool.eq_iff_iff]
    simp only [Bool.or_eq_true, includes_iff, decide_eq_true_eq, or_assoc]
  refine ⟨hfilter, ?_, ?_⟩
  · intro book h1 h2 h3 h4 hmem
    rw [hfilter, List.mem_filter] at hmem
    have := hmem.2
    simp only [decide_eq_true_eq] at this
    tauto
  · intro hq book hmem htitle
    rw [hfilter, List.mem_filter]
    refine ⟨hmem, ?_⟩
    simp only [decide_eq_true_eq]
    left
    rw [hq, htitle]
    decide

/-- C10 (witness). The query "clean" on the sample store, which holds "Clean
Code" and "Design Patterns", returns exactly "Clean Code". -/
theorem BookManager.search_nonblank_witness :
    trim "clean" ≠ "" ∧ BookManager.search asciiLower sampleStore "clean" = [cleanCode] :=
  ⟨by decide,
    (BookManager.search_nonblank asciiLower sampleStore "clean" (by decide)).1.trans
      (by decide)⟩

/-! ## Code units, the order on strings, sets and sorting -/

theorem utf16Char_cases (c : Char) :
    (utf16Char c = [c.toNat] ∧ (c.toNat < 0xD800 ∨ (0xDFFF < c.toNat ∧ c.toNat < 0x10000))) ∨
      (∃ hi lo, utf16Char c = [hi, lo] ∧ 0xD800 ≤ hi ∧ hi ≤ 0xDBFF ∧ 0xDC00 ≤ lo ∧
        lo ≤ 0xDFFF ∧ c.toNat = 0x10000 + (hi - 0xD800) * 0x400 + (lo - 0xDC00)) := by
  have hv : c.toNat < 0xD800 ∨ (0xDFFF < c.toNat ∧ c.toNat < 0x110000) := c.valid
  unfold utf16Char
  by_cases h : c.toNat < 0x10000
  · left
    rw [if_pos h]
    refine ⟨rfl, ?_⟩
    omega
  · right
    rw [if_neg h]
    refine ⟨_, _, rfl, ?_⟩
    omega

theorem char_eq_of_toNat_eq (c d : Char) (h : c.toNat = d.toNat) : c = d :=
  Char.ext (UInt32.ext h)

theorem codeUnits_injective (a b : List Char) (h : codeUnits a = codeUnits b) : a = b := by
  induction a generalizing b with
  | nil =>
    cases b with
    | nil => rfl
    | cons d ds =>
      rcases utf16Char_cases d with ⟨hd, -⟩ | ⟨hi, lo, hd, -⟩ <;>
        simp [codeUnits, hd] at h
  | cons c cs ih =>
    cases b with
    | nil =>
      rcases utf16Char_cases c with ⟨hc, -⟩ | ⟨hi, lo, hc, -⟩ <;>
        simp [codeUnits, hc] at h
    | cons d ds =>
      rcases utf16Char_cases c with ⟨hc, hcr⟩ | ⟨hi, lo, hc, h1, h2, h3, h4, hcv⟩ <;>
        rcases utf16Char_cases d with ⟨hd, hdr⟩ | ⟨hi2, lo2, hd, g1, g2, g3, g4, hdv⟩ <;>
        simp only [codeUnits, hc, hd, List.cons_append, List.nil_append, List.cons.injEq] at h
      · rw [char_eq_of_toNat_eq c d h.1, ih ds h.2]
      · omega
      · omega
      · obtain ⟨e1, e2, e3⟩ := h
        have : c.toNat = d.toNat := by omega
        rw [char_eq_of_toNat_eq c d this, ih ds e3]

theorem unitsLt_iff_lex (a b : List Nat) :
    unitsLt a b = true ↔ List.Lex (· < ·) a b := by
  induction a generalizing b with
  | nil =>
    cases b with
    | nil => simp [unitsLt]
    | cons y ys => simp [unitsLt, List.Lex.nil]
  | cons x xs ih =>
    cases b with
    | nil => simp [unitsLt]
    | cons y ys =>
      simp only [unitsLt, Bool.or_eq_true, decide_eq_true_eq, Bool.and_eq_true, beq_iff_eq, ih]
      constructor
      · rintro (h | ⟨rfl, h⟩)
        · exact List.Lex.rel h
        · exact List.Lex.cons h
      · intro h
        cases h with
        | rel h => exact Or.inl h
        | cons h => exact Or.inr ⟨rfl, h⟩

theorem stringLt_asymm (a b : String) (h : stringLt a b = true) : stringLt b a = false := by
  unfold stringLt at *
  rw [unitsLt_iff_lex] at h
  rw [Bool.eq_false_iff, Ne, unitsLt_iff_lex]
  exact fun h2 => (List.Lex.isAsymm.aux (· < ·) _ _ h) h2


theorem stringLt_connected (a b c : String) (h : stringLt a c = true) :
    stringLt a b = true ∨ stringLt b c = true := by
  unfold stringLt at *
  rw [unitsLt_iff_lex] at h
  rw [unitsLt_iff_lex, unitsLt_iff_lex]
  exact (List.Lex.isOrderConnected (· < · : Nat → Nat → Prop)).conn _ _ _ h

theorem stringLt_trichotomous (a b : String) :
    stringLt a b = true ∨ a = b ∨ stringLt b a = true := by
  unfold stringLt
  rw [unitsLt_iff_lex, unitsLt_iff_lex]
  rcases (List.Lex.isTrichotomous (· < · : Nat → Nat → Prop)).trichotomous
    (codeUnits a.data) (codeUnits b.data) with h | h | h
  · exact Or.inl h
  · exact Or.inr (Or.inl (String.ext (codeUnits_injective _ _ h)))
  · exact Or.inr (Or.inr h)

theorem stringLe_total : IsTotal String (fun a b => stringLt b a = false) := by
  constructor
  intro a b
  by_cases h : stringLt b a = true
  · exact Or.inr (stringLt_asymm b a h)
  · exact Or.inl (by simpa using h)

theorem stringLe_trans : IsTrans String (fun a b => stringLt b a = false) := by
  constructor
  intro a b c hab hbc
  by_contra h
  rcases stringLt_connected c b a (by simpa using h) with h1 | h1
  · rw [h1] at hbc
    cases hbc
  · rw [h1] at hab
    cases hab

theorem setAdd_mem (set : List String) (x y : String) :
    y ∈ setAdd set x ↔ y ∈ set ∨ y = x := by
  unfold setAdd
  by_cases h : x ∈ set
  · rw [if_pos h]
    constructor
    · exact Or.inl
    · rintro (h1 | rfl)
      · exact h1
      · exact h
  · rw [if_neg h]
    simp

theorem setAdd_nodup (set : List String) (x : String) (h : set.Nodup) :
    (setAdd set x).Nodup := by
  unfold setAdd
  by_cases hx : x ∈ set
  · rw [if_pos hx]
    exact h
  · rw [if_neg hx]
    exact List.Nodup.append h (List.nodup_singleton x) (by
      intro a ha hb
      rw [List.mem_singleton] at hb
      exact hx (hb ▸ ha))

theorem foldl_setAdd_mem (xs set : List String) (y : String) :
    y ∈ xs.foldl setAdd set ↔ y ∈ set ∨ y ∈ xs := by
  induction xs generalizing set with
  | nil => simp
  | cons x xs ih =>
    rw [List.foldl_cons, ih, setAdd_mem, List.mem_cons]
    tauto

theorem foldl_setAdd_nodup (xs set : List String) (h : set.Nodup) :
    (xs.foldl setAdd set).Nodup := by
  induction xs generalizing set with
  | nil => exact h
  | cons x xs ih => exact ih _ (setAdd_nodup set x h)

theorem mem_newSet (xs : List String) (y : String) : y ∈ newSet xs ↔ y ∈ xs := by
  unfold newSet
  rw [foldl_setAdd_mem]
  simp

theorem newSet_nodup (xs : List String) : (newSet xs).Nodup :=
  foldl_setAdd_nodup xs [] List.nodup_nil

theorem mem_sort (xs : List String) (y : String) : y ∈ sort xs ↔ y ∈ xs :=
  (List.perm_insertionSort _ xs).mem_iff

theorem sort_strictly_ascending (xs : List String) (h : xs.Nodup) :
    List.Sorted (fun a b => stringLt a b = true) (sort xs) := by
  have hs : List.Sorted (fun a b => stringLt b a = false) (sort xs) :=
    @List.sorted_insertionSort _ _ _ stringLe_total stringLe_trans xs
  have hn : (sort xs).Nodup := (List.perm_insertionSort _ xs).nodup_iff.mpr h
  have hboth := List.Pairwise.and hs hn
  refine List.Pairwise.imp ?_ hboth
  rintro a b ⟨h1, h2⟩
  rcases stringLt_trichotomous a b with h3 | h3 | h3
  · exact h3
  · exact absurd h3 h2
  · rw [h3] at h1
    cases h1

/-- C11. `getCategories()` is strictly ascending in the order `<` of strings
(lexicographic on UTF-16 code units), hence free of duplicates; its elements
are exactly the categories of the books of the collection; and when the books
have the categories "Programming" and "Fiction", in this order, it is
["Fiction", "Programming"]. -/
theorem BookManager.getCategories_sorted_distinct (s : BookManager) :
    List.Sorted (fun a b => stringLt a b = true) (BookManager.getCategories s) ∧
      (BookManager.getCategories s).Nodup ∧
      (∀ c, c ∈ BookManager.getCategories s ↔ ∃ b ∈ BookManager.getAll s, b.category = c) ∧
      ((BookManager.getAll s).map Book.category = ["Programming", "Fiction"] →
        BookManager.getCategories s = ["Fiction", "Programming"]) := by
  refine ⟨sort_strictly_ascending _ (newSet_nodup _), ?_, ?_, ?_⟩
  · exact (List.perm_insertionSort _ _).nodup_iff.mpr (newSet_nodup _)
  · intro c
    unfold BookManager.getCategories BookManager.getAll
    rw [mem_sort, mem_newSet, List.mem_map]
  · intro h
    unfold BookManager.getAll at h
    unfold BookManager.getCategories
    have h2 : s.books.map (fun book => book.category) = ["Programming", "Fiction"] := h
    rw [h2]
    decide

/-! ## The dictionary object -/

theorem lookup_cons_eq {β : Type} (o : List (String × β)) (k k1 : String) (v1 : β) :
    List.lookup k ((k1, v1) :: o) = if k = k1 then some v1 else List.lookup k o := by
  by_cases h : k = k1
  · subst h
    simp [List.lookup]
  · have h2 : (k == k1) = false := by simpa using h
    simp [List.lookup, h2, h]

theorem lookup_isSome_iff {β : Type} (o : List (String × β)) (k : String) :
    (o.lookup k).isSome = true ↔ k ∈ o.map Prod.fst := by
  induction o with
  | nil => simp
  | cons kv o ih =>
    obtain ⟨k1, v1⟩ := kv
    rw [lookup_cons_eq]
    by_cases h : k = k1
    · simp [h]
    · simp [h, ih]

theorem lookup_replace {β : Type} (o : List (String × β)) (key k : String) (v : β) :
    (o.map (fun kv => if kv.1 = key then (key, v) else kv)).lookup k
      = if k = key then (o.lookup key).map (fun _ => v) else o.lookup k := by
  induction o with
  | nil => simp
  | cons kv o ih =>
    obtain ⟨k1, v1⟩ := kv
    rw [List.map_cons]
    by_cases h1 : k1 = key
    · have e : (if (k1, v1).1 = key then (key, v) else (k1, v1)) = (key, v) := if_pos h1
      rw [e]
      simp only [lookup_cons_eq, ih]
      by_cases h2 : k = key
      · simp [h2, h1]
      · have h3 : ¬ k = k1 := fun h => h2 (h.trans h1)
        simp [h2, h3]
    · have e : (if (k1, v1).1 = key then (key, v) else (k1, v1)) = (k1, v1) := if_neg h1
      rw [e]
      simp only [lookup_cons_eq, ih]
      have h4 : ¬ key = k1 := fun h => h1 h.symm
      by_cases h2 : k = key
      · have h3 : ¬ k = k1 := fun h => h1 (h.symm.trans h2)
        simp [h2, h4]
      · simp [h2, h4]

theorem lookup_append_new {β : Type} (o : List (String × β)) (key k : String) (v : β) :
    (o ++ [(key, v)]).lookup k
      = match o.lookup k with
        | some w => some w
        | none => if k = key then some v else none := by
  induction o with
  | nil =>
    rw [List.nil_append, lookup_cons_eq]
    rfl
  | cons kv o ih =>
    obtain ⟨k1, v1⟩ := kv
    rw [List.cons_append]
    simp only [lookup_cons_eq, ih]
    by_cases h2 : k = k1
    · simp [h2]
    · simp [h2]

theorem lookup_set (o : CountObject) (key k : String) (v : CountValue)
    (hkey : key ≠ "__proto__") :
    (o.set key v).lookup k = if k = key then some v else o.lookup k := by
  unfold CountObject.set
  rw [if_neg hkey]
  cases h : o.lookup key with
  | some w =>
    simp only [Option.isSome_some, if_true]
    rw [lookup_replace, h]
    rfl
  | none =>
    simp only [Option.isSome_none, Bool.false_eq_true, if_false]
    rw [lookup_append_new]
    by_cases hk : k = key
    · subst hk
      simp [h]
    · simp only [if_neg hk]
      cases o.lookup k <;> rfl

theorem map_fst_set (o : CountObject) (key : String) (v : CountValue) :
    (o.set key v).map Prod.fst = o.map Prod.fst ∨
      ((o.set key v).map Prod.fst = o.map Prod.fst ++ [key] ∧ key ∉ o.map Prod.fst) := by
  unfold CountObject.set
  by_cases hkey : key = "__proto__"
  · rw [if_pos hkey]
    exact Or.inl rfl
  · rw [if_neg hkey]
    cases h : o.lookup key with
    | some w =>
      left
      simp only [Option.isSome_some, if_true, List.map_map]
      apply List.map_congr_left
      intro kv _
      by_cases h1 : kv.1 = key
      · simp [h1]
      · simp [h1]
    | none =>
      right
      simp only [Option.isSome_none, Bool.false_eq_true, if_false, List.map_append,
        List.map_cons, List.map_nil, true_and]
      rw [← lookup_isSome_iff, h]
      simp

theorem mem_keys (o : CountObject) (k : String) : k ∈ o.keys ↔ k ∈ o.map Prod.fst := by
  unfold CountObject.keys
  rw [List.mem_append, (List.perm_insertionSort _ _).mem_iff, List.mem_filter,
    List.mem_filter]
  constructor
  · rintro (⟨h, -⟩ | ⟨h, -⟩) <;> exact h
  · intro h
    cases h2 : (arrayIndex? k).isSome with
    | true => exact Or.inl ⟨h, rfl⟩
    | false =>
      refine Or.inr ⟨h, ?_⟩
      cases h3 : arrayIndex? k with
      | none => rfl
      | some n => simp [h3] at h2

/-! ## Counting categories -/

namespace BookManager

theorem countOf_append_singleton (done : List Book) (b : Book) (k : String) :
    countOf (done ++ [b]) k = countOf done k + (if b.category = k then 1 else 0) := by
  unfold countOf
  rw [List.filter_append, List.length_append]
  by_cases h : b.category = k
  · simp [h]
  · simp [h]

theorem countOf_ne_zero_iff (books : List Book) (k : String) :
    countOf books k ≠ 0 ↔ ∃ b ∈ books, b.category = k := by
  unfold countOf
  rw [Ne, List.length_eq_zero, List.filter_eq_nil_iff]
  simp

theorem not_member_get (o : CountObject) (k : String)
    (hk : isPrototypeMember k = false) (h : o.lookup k = none) :
    o.get k = Read.undefined := by
  unfold isPrototypeMember at hk
  simp only [Bool.or_eq_false_iff, beq_eq_false_iff_ne, ne_eq] at hk
  obtain ⟨h1, h2⟩ := hk
  unfold CountObject.get
  rw [h, if_neg h1]
  cases h3 : prototypeFunctions.lookup k with
  | none => rfl
  | some n => simp [h3] at h2

theorem counted_step (o : CountObject) (done : List Book) (b : Book)
    (hinv : Counted o done) (hb : isPrototypeMember b.category = false) :
    Counted (o.set b.category (orZeroPlusOne (o.get b.category))) (done ++ [b]) := by
  have hne : b.category ≠ "__proto__" := by
    intro h
    rw [h] at hb
    simp [isPrototypeMember] at hb
  have hval : orZeroPlusOne (o.get b.category)
      = CountValue.number (countOf done b.category + 1) := by
    by_cases h0 : countOf done b.category = 0
    · have hl : o.lookup b.category = none := by rw [hinv, if_pos h0]
      rw [not_member_get o _ hb hl, h0]
      rfl
    · have hl : o.lookup b.category
          = some (CountValue.number (countOf done b.category)) := by
        rw [hinv, if_neg h0]
      unfold CountObject.get
      rw [hl]
      rfl
  intro k
  rw [lookup_set _ _ _ _ hne, hval, countOf_append_singleton]
  by_cases hk : k = b.category
  · subst hk
    simp
  · have hk2 : ¬ b.category = k := fun h => hk h.symm
    rw [if_neg hk, if_neg hk2, hinv k]
    rfl

theorem counted_fold (books : List Book) (o : CountObject) (done : List Book)
    (hinv : Counted o done) (hb : ∀ b ∈ books, isPrototypeMember b.category = false) :
    Counted (countCategories o books) (done ++ books) := by
  induction books generalizing o done with
  | nil => simpa [countCategories] using hinv
  | cons b bs ih =>
    have h1 := counted_step o done b hinv (hb b (List.mem_cons_self b bs))
    have h2 := ih _ (done ++ [b]) h1 (fun x hx => hb x (List.mem_cons_of_mem b hx))
    simpa [countCategories] using h2

theorem counted_getStats (s : BookManager)
    (hb : ∀ b ∈ s.books, isPrototypeMember b.category = false) :
    Counted (getStats s).categoryCount s.books := by
  have h := counted_fold s.books [] [] (fun k => by simp [countOf]) hb
  simpa [getStats] using h

theorem counted_mem_keys (o : CountObject) (books : List Book) (h : Counted o books)
    (k : String) : k ∈ o.keys ↔ countOf books k ≠ 0 := by
  rw [mem_keys, ← lookup_isSome_iff, h k]
  by_cases h0 : countOf books k = 0
  · simp [h0]
  · simp [h0]

theorem counted_greater (o : CountObject) (books : List Book) (h : Counted o books)
    (a b : String) (ha : countOf books a ≠ 0 ∨ a = "-") (hb : countOf books b ≠ 0) :
    greater (o.get a) (o.get b) = decide (countOf books b < countOf books a) := by
  have hgb : o.get b = Read.own (CountValue.number (countOf books b)) := by
    unfold CountObject.get
    rw [h b, if_neg hb]
  by_cases h0 : countOf books a = 0
  · have ha2 : a = "-" := by tauto
    have hga : o.get a = Read.undefined := by
      apply not_member_get
      · rw [ha2]
        decide
      · rw [h a, if_pos h0]
    rw [hga, hgb, h0]
    simp [greater, Read.toPrimitive]
  · have hga : o.get a = Read.own (CountValue.number (countOf books a)) := by
      unfold CountObject.get
      rw [h a, if_neg h0]
    rw [hga, hgb]
    rfl

theorem foldl_pick_congr (c : String → Nat) (g : String → String → String)
    (hg : ∀ a b, (c a ≠ 0 ∨ a = "-") → c b ≠ 0 → g a b = if c b < c a then a else b)
    (l : List String) (a : String) (ha : c a ≠ 0 ∨ a = "-") (hl : ∀ b ∈ l, c b ≠ 0) :
    l.foldl g a = l.foldl (fun a b => if c b < c a then a else b) a := by
  induction l generalizing a with
  | nil => rfl
  | cons b l ih =>
    have hb : c b ≠ 0 := hl b (List.mem_cons_self b l)
    rw [List.foldl_cons, List.foldl_cons, hg a b ha hb]
    apply ih
    · by_cases h : c b < c a
      · rw [if_pos h]
        exact ha
      · rw [if_neg h]
        exact Or.inl hb
    · exact fun x hx => hl x (List.mem_cons_of_mem b hx)

theorem foldl_pick_last_max (c : String → Nat) (l : List String) (a : String) :
    ∃ pre post, a :: l = pre ++ l.foldl (fun a b => if c b < c a then a else b) a :: post ∧
      (∀ x ∈ pre, c x ≤ c (l.foldl (fun a b => if c b < c a then a else b) a)) ∧
      (∀ x ∈ post, c x < c (l.foldl (fun a b => if c b < c a then a else b) a)) := by
  induction l generalizing a with
  | nil => exact ⟨[], [], rfl, by simp, by simp⟩
  | cons b l ih =>
    rw [List.foldl_cons]
    by_cases h : c b < c a
    · rw [if_pos h]
      obtain ⟨pre, post, heq, hpre, hpost⟩ := ih a
      generalize List.foldl (fun a b => if c b < c a then a else b) a l = r
        at heq hpre hpost ⊢
      cases pre with
      | nil =>
        simp only [List.nil_append, List.cons.injEq] at heq
        obtain ⟨h1, h2⟩ := heq
        subst h1 h2
        refine ⟨[], b :: l, rfl, by simp, ?_⟩
        intro x hx
        rcases List.mem_cons.mp hx with rfl | hx
        · exact h
        · exact hpost x hx
      | cons p pre =>
        simp only [List.cons_append, List.cons.injEq] at heq
        obtain ⟨h1, h2⟩ := heq
        subst h1 h2
        refine ⟨a :: b :: pre, post, rfl, ?_, hpost⟩
        have hap := hpre a (List.mem_cons_self a pre)
        intro x hx
        rcases List.mem_cons.mp hx with rfl | hx
        · exact hap
        · rcases List.mem_cons.mp hx with rfl | hx
          · omega
          · exact hpre x (List.mem_cons_of_mem a hx)
    · rw [if_neg h]
      obtain ⟨pre, post, heq, hpre, hpost⟩ := ih b
      generalize List.foldl (fun a b => if c b < c a then a else b) b l = r
        at heq hpre hpost ⊢
      refine ⟨a :: pre, post, by rw [heq]; rfl, ?_, hpost⟩
      have hb : c b ≤ c r := by
        cases pre with
        | nil =>
          simp only [List.nil_append, List.cons.injEq] at heq
          rw [← heq.1]
        | cons p pre =>
          simp only [List.cons_append, List.cons.injEq] at heq
          have := hpre p (List.mem_cons_self p pre)
          rw [← heq.1] at this
          exact this
      intro x hx
      rcases List.mem_cons.mp hx with rfl | hx
      · omega
      · exact hpre x hx

end BookManager

/-! ## Claims on categories and statistics -/

/-- C12 (amended). For a non-empty collection none of whose categories names a
member of `Object.prototype`, the keys of `categoryCount` are exactly the
categories of the books, and `popularCategory` is the LAST key, in the order of
`Object.keys(categoryCount)`, that attains the maximum book count: every key
before it has at most its count, every key after it has strictly less. -/
theorem BookManager.popularCategory_last_max (s : BookManager)
    (hne : BookManager.getAll s ≠ [])
    (hproto : ∀ b ∈ BookManager.getAll s, isPrototypeMember b.category = false) :
    (∀ k, k ∈ (BookManager.getStats s).categoryCount.keys ↔
        ∃ b ∈ BookManager.getAll s, b.category = k) ∧
      ∃ pre post,
        (BookManager.getStats s).categoryCount.keys
          = pre ++ (BookManager.getStats s).popularCategory :: post ∧
        (∀ k ∈ pre, BookManager.booksIn s k
          ≤ BookManager.booksIn s (BookManager.getStats s).popularCategory) ∧
        (∀ k ∈ post, BookManager.booksIn s k
          < BookManager.booksIn s (BookManager.getStats s).popularCategory) := by
  have hC := BookManager.counted_getStats s hproto
  have hkeys := BookManager.counted_mem_keys _ _ hC
  refine ⟨fun k => (hkeys k).trans (BookManager.countOf_ne_zero_iff _ k), ?_⟩
  have hpop : (BookManager.getStats s).popularCategory
      = (BookManager.getStats s).categoryCount.keys.foldl
          (fun a b => if BookManager.countOf s.books b < BookManager.countOf s.books a
            then a else b) "-" := by
    show BookManager.reducePopular (BookManager.getStats s).categoryCount = _
    unfold BookManager.reducePopular
    apply BookManager.foldl_pick_congr (BookManager.countOf s.books)
    · intro a b ha hb
      rw [BookManager.counted_greater _ _ hC a b ha hb]
      by_cases h : BookManager.countOf s.books b < BookManager.countOf s.books a
      · simp [h]
      · simp [h]
    · exact Or.inr rfl
    · exact fun b hb => (hkeys b).mp hb
  obtain ⟨pre, post, heq, hpre, hpost⟩ :=
    BookManager.foldl_pick_last_max (BookManager.countOf s.books)
      (BookManager.getStats s).categoryCount.keys "-"
  rw [← hpop] at heq hpre hpost
  cases pre with
  | nil =>
    exfalso
    simp only [List.nil_append, List.cons.injEq] at heq
    obtain ⟨h1, h2⟩ := heq
    cases hb : s.books with
    | nil => exact hne hb
    | cons b bs =>
      have hk : b.category ∈ (BookManager.getStats s).categoryCount.keys := by
        rw [hkeys, BookManager.countOf_ne_zero_iff, hb]
        exact ⟨b, List.mem_cons_self b bs, rfl⟩
      rw [h2] at hk
      have hlt := hpost _ hk
      rw [← h1] at hlt hpost
      have hdash : "-" ∈ (BookManager.getStats s).categoryCount.keys := by
        rw [hkeys]
        omega
      rw [h2] at hdash
      have := hpost _ hdash
      omega
  | cons p pre =>
    simp only [List.cons_append, List.cons.injEq] at heq
    exact ⟨pre, post, heq.2, fun k hk => hpre k (List.mem_cons_of_mem p hk), hpost⟩

/-- C12 (witness). The store holding "Clean Code" (Programming) and "Dune"
(Fiction). -/
theorem BookManager.popularCategory_last_max_witness :
    BookManager.getAll twoCategoryStore ≠ [] ∧
      (∀ b ∈ BookManager.getAll twoCategoryStore, isPrototypeMember b.category = false) ∧
      ∃ pre post,
        (BookManager.getStats twoCategoryStore).categoryCount.keys
          = pre ++ (BookManager.getStats twoCategoryStore).popularCategory :: post ∧
        (∀ k ∈ pre, BookManager.booksIn twoCategoryStore k
          ≤ BookManager.booksIn twoCategoryStore
              (BookManager.getStats twoCategoryStore).popularCategory) ∧
        (∀ k ∈ post, BookManager.booksIn twoCategoryStore k
          < BookManager.booksIn twoCategoryStore
              (BookManager.getStats twoCategoryStore).popularCategory) :=
  ⟨by decide, by decide,
    (BookManager.popularCategory_last_max twoCategoryStore (by decide) (by decide)).2⟩

/-- C12 (counterexample). With one book in "Programming" added first and one in
"Fiction" added second, the keys are "Programming", "Fiction", both categories
have the maximum count 1, and `popularCategory` is "Fiction": the key
encountered last, not the first one. -/
theorem BookManager.popularCategory_tie_counterexample :
    (BookManager.getStats twoCategoryStore).categoryCount.keys = ["Programming", "Fiction"] ∧
      BookManager.booksIn twoCategoryStore "Programming" = 1 ∧
      BookManager.booksIn twoCategoryStore "Fiction" = 1 ∧
      (BookManager.getStats twoCategoryStore).popularCategory = "Fiction" ∧
      (BookManager.getStats twoCategoryStore).popularCategory ≠ "Programming" :=
  ⟨by decide, by decide, by decide, by decide, by decide⟩

/-- C13. The collection holds two books in "Programming" and then one in
"constructor". Reading `categoryCount["constructor"]` on the object literal
finds the inherited function, so the property becomes a text; the comparison
of 2 with that text is false, and `popularCategory` is "constructor", a
category with one book against two in "Programming". -/
theorem BookManager.popularCategory_constructor :
    (BookManager.getAll constructorStore).map Book.category
        = ["Programming", "Programming", "constructor"] ∧
      (BookManager.getStats constructorStore).categoryCount
        = [("Programming", CountValue.number 2),
           ("constructor", CountValue.text "function Object() { [native code] }1")] ∧
      (BookManager.getStats constructorStore).popularCategory = "constructor" ∧
      BookManager.booksIn constructorStore "constructor" = 1 ∧
      BookManager.booksIn constructorStore "Programming" = 2 :=
  ⟨by decide, by decide, by decide, by decide, by decide⟩

/-- C14. For a store whose collection is empty, `getStats()` is
`{totalBooks: 0, totalCategories: 0, popularCategory: '-', categoryCount: {}}`. -/
theorem BookManager.getStats_empty (storage : Option (List BookData))
    (emitted : List Event) :
    BookManager.getStats { books := [], storage := storage, emitted := emitted }
      = { totalBooks := 0, totalCategories := 0, popularCategory := "-",
          categoryCount := [] } :=
  rfl

/-! ## Batch construction, import and export -/

theorem Book.constructor_cases (clock : Clock) (data : BookData) :
    (data.Blank ∧ ∃ e, Book.constructor clock data = .error e) ∨
      (¬ data.Blank ∧ Book.constructor clock data = .ok (Book.init clock data)) := by
  by_cases h : data.Blank
  · left
    refine ⟨h, (Book.constructor_error_iff clock data).mpr ?_⟩
    rw [Book.init_valid_iff]
    exact not_not.mpr h
  · right
    refine ⟨h, (Book.constructor_ok_iff clock data _).mpr ⟨rfl, ?_⟩⟩
    rw [Book.init_valid_iff]
    exact h

theorem BookFactory.createMultipleFrom_cases (clocks : Nat → Clock) (k : Nat)
    (datas : List BookData) :
    ((∃ d ∈ datas, d.Blank) ∧
        ∃ e, BookFactory.createMultipleFrom clocks k datas = .error e) ∨
      ((∀ d ∈ datas, ¬ d.Blank) ∧
        ∃ bs, BookFactory.createMultipleFrom clocks k datas = .ok bs ∧
          List.Forall₂ (fun d b => ∃ clock, Book.constructor clock d = .ok b) datas bs) := by
  induction datas generalizing k with
  | nil => exact Or.inr ⟨by simp, [], rfl, List.Forall₂.nil⟩
  | cons d ds ih =>
    rcases Book.constructor_cases (clocks k) d with ⟨hd, e, he⟩ | ⟨hd, hok⟩
    · left
      refine ⟨⟨d, List.mem_cons_self d ds, hd⟩, e, ?_⟩
      simp [BookFactory.createMultipleFrom, he]
    · rcases ih (k + 1) with ⟨⟨x, hx, hxb⟩, e, he⟩ | ⟨hall, bs, hbs, hf⟩
      · left
        refine ⟨⟨x, List.mem_cons_of_mem d hx, hxb⟩, e, ?_⟩
        simp [BookFactory.createMultipleFrom, hok, he]
      · right
        refine ⟨?_, Book.init (clocks k) d :: bs, ?_, List.Forall₂.cons ⟨clocks k, hok⟩ hf⟩
        · intro x hx
          rcases List.mem_cons.mp hx with rfl | hx
          · exact hd
          · exact hall x hx
        · simp [BookFactory.createMultipleFrom, hok, hbs]

theorem BookManager.importBooks_of_ok (clocks : Nat → Clock) (writeOk : Bool)
    (s : BookManager) (datas : List BookData) (bs : List Book)
    (h : BookFactory.createMultiple clocks datas = .ok bs) :
    (BookManager.importBooks clocks writeOk s datas).2 = .ok () ∧
      (BookManager.importBooks clocks writeOk s datas).1.books = s.books ++ bs := by
  unfold BookManager.importBooks
  simp [h]

theorem BookManager.importBooks_of_error (clocks : Nat → Clock) (writeOk : Bool)
    (s : BookManager) (datas : List BookData) (e : BookError)
    (h : BookFactory.createMultiple clocks datas = .error e) :
    (BookManager.importBooks clocks writeOk s datas).2 = .error e ∧
      (BookManager.importBooks clocks writeOk s datas).1.books = s.books := by
  unfold BookManager.importBooks
  simp [h]

/-- C15. `importBooks(list)` either meets a record that fails validation, and
then throws and leaves `getAll()` as it was, no record of the batch being
appended; or every record is valid, and then it returns and `getAll()` is the
old collection followed by the books constructed from the records, one per
record, in the order of the list. -/
theorem BookManager.importBooks_atomic (clocks : Nat → Clock) (writeOk : Bool)
    (s : BookManager) (datas : List BookData) :
    ((∃ d ∈ datas, d.Blank) ∧
        (∃ e, (BookManager.importBooks clocks writeOk s datas).2 = .error e) ∧
        BookManager.getAll (BookManager.importBooks clocks writeOk s datas).1
          = BookManager.getAll s) ∨
      ((∀ d ∈ datas, ¬ d.Blank) ∧
        (BookManager.importBooks clocks writeOk s datas).2 = .ok () ∧
        ∃ bs, BookManager.getAll (BookManager.importBooks clocks writeOk s datas).1
            = BookManager.getAll s ++ bs ∧
          List.Forall₂ (fun d b => ∃ clock, Book.constructor clock d = .ok b) datas bs) := by
  rcases BookFactory.createMultipleFrom_cases clocks 0 datas with
    ⟨hb, e, he⟩ | ⟨hall, bs, hbs, hf⟩
  · obtain ⟨h1, h2⟩ := BookManager.importBooks_of_error clocks writeOk s datas e he
    exact Or.inl ⟨hb, ⟨e, h1⟩, h2⟩
  · obtain ⟨h1, h2⟩ := BookManager.importBooks_of_ok clocks writeOk s datas bs hbs
    exact Or.inr ⟨hall, h1, bs, h2, hf⟩

theorem Book.constructor_toJSON (clock : Clock) (b : Book) (hv : b.Valid)
    (hid : b.id ≠ 0) (hc : b.createdAt ≠ 0) :
    Book.constructor clock b.toJSON = .ok b := by
  rw [Book.constructor_ok_iff]
  refine ⟨?_, hv⟩
  simp [Book.init, Book.toJSON, orNumber, orEmpty_eq_getD, hid, hc]

theorem BookFactory.createMultipleFrom_toJSON (clocks : Nat → Clock) (k : Nat)
    (bs : List Book)
    (h : ∀ b ∈ bs, b.Valid ∧ b.id ≠ 0 ∧ b.createdAt ≠ 0) :
    BookFactory.createMultipleFrom clocks k (bs.map (fun book => book.toJSON)) = .ok bs := by
  induction bs generalizing k with
  | nil => rfl
  | cons b bs ih =>
    obtain ⟨hv, hid, hc⟩ := h b (List.mem_cons_self b bs)
    have hrest := ih (k + 1) (fun x hx => h x (List.mem_cons_of_mem b hx))
    simp [BookFactory.createMultipleFrom, Book.constructor_toJSON (clocks k) b hv hid hc,
      hrest]

/-- C16 (amended). For every store state in which every book has title, author
and category non-blank after trimming and has a non-zero id and a non-zero
createdAt, feeding the exported records (each book's `toJSON`, in collection
order) to `importBooks` on the emptied store returns and reproduces the
collection: the same books, in the same order, every field equal, ids
preserved, whatever the clock reads during the import. -/
theorem BookManager.export_import_roundtrip (clocks : Nat → Clock)
    (writeOk writeOk2 : Bool) (s : BookManager)
    (h : ∀ b ∈ BookManager.getAll s, b.Valid ∧ b.id ≠ 0 ∧ b.createdAt ≠ 0) :
    (BookManager.importBooks clocks writeOk2 (BookManager.clear writeOk s)
        (BookManager.exportBooks s)).2 = .ok () ∧
      BookManager.getAll (BookManager.importBooks clocks writeOk2
        (BookManager.clear writeOk s) (BookManager.exportBooks s)).1
        = BookManager.getAll s := by
  have hc : BookFactory.createMultiple clocks (BookManager.exportBooks s) = .ok s.books :=
    BookFactory.createMultipleFrom_toJSON clocks 0 s.books h
  obtain ⟨h1, h2⟩ := BookManager.importBooks_of_ok clocks writeOk2
    (BookManager.clear writeOk s) _ _ hc
  refine ⟨h1, ?_⟩
  unfold BookManager.getAll
  rw [h2]
  simp [BookManager.clear]

/-- C16 (witness). The sample store, exported and imported again under another
clock. -/
theorem BookManager.export_import_roundtrip_witness :
    (∀ b ∈ BookManager.getAll sampleStore, b.Valid ∧ b.id ≠ 0 ∧ b.createdAt ≠ 0) ∧
      BookManager.getAll (BookManager.importBooks (fun _ => ⟨1, 1⟩) true
        (BookManager.clear true sampleStore) (BookManager.exportBooks sampleStore)).1
        = [cleanCode, designPatterns] :=
  ⟨by decide,
    (BookManager.export_import_roundtrip (fun _ => ⟨1, 1⟩) true true sampleStore
      (by decide)).2.trans (by decide)⟩

/-- C16 (counterexample). After `add` of the second sample record and
`update(2, {id: 0})`, both successful, the collection holds "Clean Code" under
id 0. Its export, imported into the emptied store, gives "Clean Code" under the
id the clock supplies: the id is not preserved. -/
theorem BookManager.export_import_counterexample :
    BookManager.getAll (BookManager.run BookManager.empty zeroIdCalls)
        = [{ cleanCode with id := 0 }] ∧
      (BookManager.importBooks (fun _ => sampleClock) true
        (BookManager.clear true (BookManager.run BookManager.empty zeroIdCalls))
        (BookManager.exportBooks (BookManager.run BookManager.empty zeroIdCalls))).2
        = .ok () ∧
      BookManager.getAll (BookManager.importBooks (fun _ => sampleClock) true
        (BookManager.clear true (BookManager.run BookManager.empty zeroIdCalls))
        (BookManager.exportBooks (BookManager.run BookManager.empty zeroIdCalls))).1
        = [{ cleanCode with id := 1700000000000 }] ∧
      BookManager.getAll (BookManager.importBooks (fun _ => sampleClock) true
        (BookManager.clear true (BookManager.run BookManager.empty zeroIdCalls))
        (BookManager.exportBooks (BookManager.run BookManager.empty zeroIdCalls))).1
        ≠ BookManager.getAll (BookManager.run BookManager.empty zeroIdCalls) :=
  ⟨by decide, rfl, by decide, by decide⟩

/-- C17. When the clock does not read 0 at construction, a Book b constructed
from a record is reproduced by `Book.fromJSON(b.toJSON())`: the call succeeds
and gives b itself (id, title, author, category, cover, description and
createdAt equal), whatever the clock reads at reconstruction. -/
theorem Book.fromJSON_toJSON (clock clock2 : Clock) (data : BookData) (b : Book)
    (h1 : clock.forId ≠ 0) (h2 : clock.forCreatedAt ≠ 0)
    (h : Book.constructor clock data = .ok b) :
    Book.fromJSON clock2 b.toJSON = .ok b := by
  obtain ⟨rfl, hv⟩ := (Book.constructor_ok_iff clock data b).mp h
  apply Book.constructor_toJSON clock2 _ hv
  · unfold Book.init orNumber
    cases hid : data.id with
    | none => exact h1
    | some n =>
      by_cases hn : n = 0
      · simp [hn, h1]
      · simp [hn]
  · unfold Book.init orNumber
    cases hid : data.createdAt with
    | none => exact h2
    | some n =>
      by_cases hn : n = 0
      · simp [hn, h2]
      · simp [hn]

/-- C17 (witness). The form record "Refactoring", constructed at the sample
clock and reconstructed at another one. -/
theorem Book.fromJSON_toJSON_witness :
    sampleClock.forId ≠ 0 ∧ sampleClock.forCreatedAt ≠ 0 ∧
      Book.constructor sampleClock refactoringData
        = .ok (Book.init sampleClock refactoringData) ∧
      Book.fromJSON ⟨1, 1⟩ (Book.init sampleClock refactoringData).toJSON
        = .ok (Book.init sampleClock refactoringData) :=
  ⟨by decide, by decide, rfl,
    Book.fromJSON_toJSON sampleClock ⟨1, 1⟩ refactoringData _ (by decide) (by decide) rfl⟩

/-! ## The events of the store -/

namespace BookManager

theorem saveToStorage_emitted (writeOk : Bool) (s : BookManager) :
    (saveToStorage writeOk s).emitted
      = s.emitted ++ (if writeOk = true then []
          else [Event.ERROR_OCCURRED "Không thể lưu dữ liệu vào bộ nhớ"]) := by
  cases writeOk <;> simp [saveToStorage, emit]

theorem findIndex_find (p : Book → Bool) (l : List Book) (i : Nat)
    (h : findIndex p l = some i) : find p l = some (l.getD i default) := by
  induction l generalizing i with
  | nil => simp [findIndex] at h
  | cons x xs ih =>
    by_cases hx : p x = true
    · simp only [findIndex, hx, if_true, Option.some.injEq] at h
      subst h
      simp [find, hx]
    · simp only [findIndex, hx] at h
      cases hj : findIndex p xs with
      | none => simp [hj] at h
      | some j =>
        simp [hj] at h
        subst h
        simp [find, hx, ih j hj]

end BookManager

/-- C18 (amended). A successful `add`, `update` or `remove` emits its own event
and then BOOKS_CHANGED, in this order and nothing after: `BOOK_ADDED` with the
new book, `BOOK_UPDATED` with the updated book, `BOOK_DELETED` with the removed
book; the payload of BOOKS_CHANGED is `getAll()` after the call.  These are the
only events of the call when the write to storage succeeds; when it fails,
`saveToStorage` emits ERROR_OCCURRED before them.  The calls are told apart by
their input: `add` succeeds exactly on a record that is not blank, `update` on
the id of a book whose merge with the updates is valid, `remove` on the id of a
book.  A failing `add` or `update` emits one ERROR_OCCURRED and nothing else; a
`remove` of an id that no book has returns false, emits nothing and changes
nothing. -/
theorem BookManager.mutation_events :
    (∀ (clock : Clock) (writeOk : Bool) (s : BookManager) (data : BookData),
      ¬ data.Blank →
      (BookManager.add clock writeOk s data).2 = .ok (Book.init clock data) ∧
      BookManager.getAll (BookManager.add clock writeOk s data).1
        = BookManager.getAll s ++ [Book.init clock data] ∧
      (BookManager.add clock writeOk s data).1.emitted
        = s.emitted ++
          (if writeOk = true then []
            else [Event.ERROR_OCCURRED "Không thể lưu dữ liệu vào bộ nhớ"]) ++
          [Event.BOOK_ADDED (Book.init clock data),
           Event.BOOKS_CHANGED (BookManager.getAll (BookManager.add clock writeOk s data).1)]) ∧
    (∀ (clock : Clock) (writeOk : Bool) (s : BookManager) (data : BookData),
      data.Blank →
      (∃ e, (BookManager.add clock writeOk s data).2 = .error e) ∧
      (BookManager.add clock writeOk s data).1.emitted
        = s.emitted ++ [Event.ERROR_OCCURRED "Không thể thêm sách mới"]) ∧
    (∀ (writeOk : Bool) (s : BookManager) (id : Int) (updates : BookData) (found : Book),
      BookManager.getById s id = some found → (found.assign updates).Valid →
      (BookManager.update writeOk s id updates).2 = .ok (found.assign updates) ∧
      BookManager.getAll (BookManager.update writeOk s id updates).1
        = BookManager.mutateFound (fun b => b.id == id) (found.assign updates)
            (BookManager.getAll s) ∧
      (BookManager.update writeOk s id updates).1.emitted
        = s.emitted ++
          (if writeOk = true then []
            else [Event.ERROR_OCCURRED "Không thể lưu dữ liệu vào bộ nhớ"]) ++
          [Event.BOOK_UPDATED (found.assign updates),
           Event.BOOKS_CHANGED
             (BookManager.getAll (BookManager.update writeOk s id updates).1)]) ∧
    (∀ (writeOk : Bool) (s : BookManager) (id : Int) (updates : BookData),
      (BookManager.getById s id = none ∨
        ∃ found, BookManager.getById s id = some found ∧ ¬ (found.assign updates).Valid) →
      (∃ e, (BookManager.update writeOk s id updates).2 = .error e) ∧
      (BookManager.update writeOk s id updates).1.emitted
        = s.emitted ++ [Event.ERROR_OCCURRED "Không thể cập nhật sách"]) ∧
    (∀ (writeOk : Bool) (s : BookManager) (id : Int) (found : Book),
      BookManager.getById s id = some found →
      (BookManager.remove writeOk s id).2 = true ∧
      (∃ pre post, BookManager.getAll s = pre ++ found :: post ∧
        (∀ x ∈ pre, x.id ≠ id) ∧
        BookManager.getAll (BookManager.remove writeOk s id).1 = pre ++ post) ∧
      (BookManager.remove writeOk s id).1.emitted
        = s.emitted ++
          (if writeOk = true then []
            else [Event.ERROR_OCCURRED "Không thể lưu dữ liệu vào bộ nhớ"]) ++
          [Event.BOOK_DELETED found,
           Event.BOOKS_CHANGED (BookManager.getAll (BookManager.remove writeOk s id).1)]) ∧
    (∀ (writeOk : Bool) (s : BookManager) (id : Int),
      BookManager.getById s id = none → BookManager.remove writeOk s id = (s, false)) := by
  refine ⟨?_, ?_, ?_, ?_, ?_, ?_⟩
  · intro clock writeOk s data hb
    have hc : Book.constructor clock data = .ok (Book.init clock data) := by
      rcases Book.constructor_cases clock data with ⟨h, _⟩ | ⟨_, h⟩
      · exact absurd h hb
      · exact h
    unfold BookManager.add
    simp only [hc]
    refine ⟨trivial, ?_, ?_⟩
    · cases writeOk <;> rfl
    · simp [BookManager.emit, BookManager.getAll, BookManager.saveToStorage_emitted]
  · intro clock writeOk s data hb
    have hc : ∃ e, Book.constructor clock data = .error e := by
      rcases Book.constructor_cases clock data with ⟨_, h⟩ | ⟨h, _⟩
      · exact h
      · exact absurd hb h
    obtain ⟨e, he⟩ := hc
    unfold BookManager.add
    simp only [he]
    exact ⟨⟨e, rfl⟩, by simp [BookManager.emit]⟩
  · intro writeOk s id updates found hg hv
    have hval : (found.assign updates).validate = .ok () :=
      (Book.validate_ok_iff _).mpr hv
    unfold BookManager.update
    simp only [hg, Book.update, hval]
    refine ⟨trivial, ?_, ?_⟩
    · cases writeOk <;> rfl
    · simp [BookManager.emit, BookManager.getAll, BookManager.saveToStorage_emitted]
  · intro writeOk s id updates h
    unfold BookManager.update
    rcases h with hg | ⟨found, hg, hv⟩
    · simp only [hg]
      exact ⟨⟨_, rfl⟩, by simp [BookManager.emit]⟩
    · simp only [hg, Book.update]
      rcases Book.validate_cases (found.assign updates) with ⟨_, h2⟩ | ⟨e, he, _, _⟩
      · exact absurd h2 hv
      · simp only [he]
        exact ⟨⟨e, rfl⟩, by simp [BookManager.emit]⟩
  · intro writeOk s id found hg
    unfold BookManager.getById at hg
    cases hi : BookManager.findIndex (fun book => book.id == id) s.books with
    | none =>
      rw [BookManager.findIndex_eq_none_iff, ← BookManager.find_eq_none_iff] at hi
      rw [hi] at hg
      cases hg
    | some i =>
      have hf := BookManager.findIndex_find _ _ i hi
      rw [hg] at hf
      have hfound : s.books.getD i default = found := (Option.some.inj hf).symm
      obtain ⟨pre, b, post, hl, hlen, _, hpre⟩ := BookManager.findIndex_eq_some _ _ i hi
      have hb : b = found := by
        rw [← hfound, hl, ← hlen, List.getD_eq_getElem?_getD,
          List.getElem?_append_right (Nat.le_refl _)]
        simp
      subst hb
      unfold BookManager.remove
      simp only [hi, hfound]
      refine ⟨trivial, ⟨pre, post, hl, ?_, ?_⟩, ?_⟩
      · intro x hx
        simpa using hpre x hx
      · have : BookManager.splice1 i s.books = pre ++ post := by
          rw [hl, ← hlen]
          exact BookManager.splice1_at pre post b
        cases writeOk <;> simpa [BookManager.getAll, BookManager.saveToStorage,
          BookManager.emit] using this
      · simp [BookManager.emit, BookManager.getAll, BookManager.saveToStorage_emitted]
  · intro writeOk s id hg
    unfold BookManager.getById at hg
    rw [BookManager.find_eq_none_iff, ← BookManager.findIndex_eq_none_iff] at hg
    unfold BookManager.remove
    simp only [hg]

/-- C18 (witness). On the sample store, the write to storage succeeding: adding
the form record "Refactoring", retitling the book 2 and removing the book 2
each append exactly the call's own event and BOOKS_CHANGED with the collection
as the call leaves it; adding a record with a blank title and updating the
absent id 9 each append one ERROR_OCCURRED; removing the absent id 9 returns
false and leaves the store as it was. -/
theorem BookManager.mutation_events_witness :
    ((BookManager.add sampleClock true sampleStore refactoringData).2
        = .ok (Book.init sampleClock refactoringData) ∧
      (BookManager.add sampleClock true sampleStore refactoringData).1.emitted
        = sampleStore.emitted ++
          [Event.BOOK_ADDED (Book.init sampleClock refactoringData),
           Event.BOOKS_CHANGED
             [cleanCode, designPatterns, Book.init sampleClock refactoringData]]) ∧
    (BookManager.add sampleClock true sampleStore blankTitleData).1.emitted
        = sampleStore.emitted ++ [Event.ERROR_OCCURRED "Không thể thêm sách mới"] ∧
    ((BookManager.update true sampleStore 2 retitle).2 = .ok (cleanCode.assign retitle) ∧
      (BookManager.update true sampleStore 2 retitle).1.emitted
        = sampleStore.emitted ++
          [Event.BOOK_UPDATED (cleanCode.assign retitle),
           Event.BOOKS_CHANGED [cleanCode.assign retitle, designPatterns]]) ∧
    (BookManager.update true sampleStore 9 retitle).1.emitted
        = sampleStore.emitted ++ [Event.ERROR_OCCURRED "Không thể cập nhật sách"] ∧
    ((BookManager.remove true sampleStore 2).2 = true ∧
      (BookManager.remove true sampleStore 2).1.emitted
        = sampleStore.emitted ++
          [Event.BOOK_DELETED cleanCode, Event.BOOKS_CHANGED [designPatterns]]) ∧
    BookManager.remove true sampleStore 9 = (sampleStore, false) := by
  obtain ⟨hadd, hbad, hupd, hmiss, hrem, hnone⟩ := BookManager.mutation_events
  have h1 := hadd sampleClock true sampleStore refactoringData (by decide)
  have h2 := hbad sampleClock true sampleStore blankTitleData (by decide)
  have h3 := hupd true sampleStore 2 retitle cleanCode (by decide) (by decide)
  have h4 := hmiss true sampleStore 9 retitle (Or.inl (by decide))
  have h5 := hrem true sampleStore 2 cleanCode (by decide)
  have h6 := hnone true sampleStore 9 (by decide)
  exact ⟨⟨h1.1, h1.2.2.trans (by decide)⟩, h2.2, ⟨h3.1, h3.2.2.trans (by decide)⟩, h4.2,
    ⟨h5.1, h5.2.2.trans (by decide)⟩, h6⟩

/-- C18 (counterexample). Adding the form record "Refactoring" to the sample
store while the write to storage fails succeeds and emits three events:
ERROR_OCCURRED from `saveToStorage`, then BOOK_ADDED, then BOOKS_CHANGED. -/
theorem BookManager.mutation_events_failing_write_counterexample :
    (BookManager.add sampleClock false sampleStore refactoringData).2
        = .ok (Book.init sampleClock refactoringData) ∧
      (BookManager.add sampleClock false sampleStore refactoringData).1.emitted
        = sampleStore.emitted ++
          [Event.ERROR_OCCURRED "Không thể lưu dữ liệu vào bộ nhớ",
           Event.BOOK_ADDED (Book.init sampleClock refactoringData),
           Event.BOOKS_CHANGED
             [cleanCode, designPatterns, Book.init sampleClock refactoringData]] :=
  ⟨rfl, by decide⟩

/-! ## The event bus -/

theorem lookup_mem {β : Type} (o : List (String × β)) (k : String) (v : β)
    (h : o.lookup k = some v) : (k, v) ∈ o := by
  induction o with
  | nil => simp at h
  | cons kv o ih =>
    obtain ⟨k1, v1⟩ := kv
    rw [lookup_cons_eq] at h
    by_cases hk : k = k1
    · rw [if_pos hk] at h
      cases h
      rw [hk]
      exact List.mem_cons_self _ _
    · rw [if_neg hk] at h
      exact List.mem_cons_of_mem _ (ih h)

theorem EventBus.lookup_mapSet (events : List (String × List Callback)) (event k : String)
    (set : List Callback) :
    (EventBus.mapSet events event set).lookup k
      = if k = event then some set else events.lookup k := by
  unfold EventBus.mapSet
  cases h : events.lookup event with
  | some w =>
    simp only [Option.isSome_some, if_true]
    rw [lookup_replace, h]
    rfl
  | none =>
    simp only [Option.isSome_none, Bool.false_eq_true, if_false]
    rw [lookup_append_new]
    by_cases hk : k = event
    · subst hk
      simp [h]
    · simp only [if_neg hk]
      cases events.lookup k <;> rfl

theorem EventBus.map_replace_absent (events : List (String × List Callback))
    (event : String) (set : List Callback) (h : events.lookup event = none) :
    events.map (fun kv => if kv.1 = event then (event, set) else kv) = events := by
  have hno : event ∉ events.map Prod.fst := by
    rw [← lookup_isSome_iff, h]
    simp
  calc events.map (fun kv => if kv.1 = event then (event, set) else kv)
      = events.map id := by
        apply List.map_congr_left
        intro kv hkv
        have : kv.1 ≠ event := fun e => hno (e ▸ List.mem_map_of_mem Prod.fst hkv)
        simp [this]
    _ = events := List.map_id events

theorem EventBus.mapSet_of_isSome (events : List (String × List Callback))
    (event : String) (set : List Callback) (h : (events.lookup event).isSome = true) :
    EventBus.mapSet events event set
      = events.map (fun kv => if kv.1 = event then (event, set) else kv) := by
  unfold EventBus.mapSet
  rw [if_pos h]

theorem EventBus.mapSet_of_none (events : List (String × List Callback))
    (event : String) (set : List Callback) (h : events.lookup event = none) :
    EventBus.mapSet events event set = events ++ [(event, set)] := by
  unfold EventBus.mapSet
  rw [h]
  rfl

theorem EventBus.mapSet_mapSet (events : List (String × List Callback)) (event : String)
    (s1 s2 : List Callback) :
    EventBus.mapSet (EventBus.mapSet events event s1) event s2
      = EventBus.mapSet events event s2 := by
  have hl : ((EventBus.mapSet events event s1).lookup event).isSome = true := by
    rw [EventBus.lookup_mapSet]
    simp
  rw [EventBus.mapSet_of_isSome _ _ _ hl]
  cases h : events.lookup event with
  | some w =>
    have hs : (events.lookup event).isSome = true := by rw [h]; rfl
    rw [EventBus.mapSet_of_isSome _ _ _ hs, EventBus.mapSet_of_isSome _ _ _ hs,
      List.map_map]
    apply List.map_congr_left
    intro kv _
    by_cases h1 : kv.1 = event
    · simp [h1]
    · simp [h1]
  | none =>
    rw [EventBus.mapSet_of_none _ _ _ h, EventBus.mapSet_of_none _ _ _ h, List.map_append,
      EventBus.map_replace_absent events event s2 h]
    simp

theorem EventBus.get_of_not_has (bus : EventBus) (event : String)
    (h : EventBus.has bus event = false) : EventBus.get bus event = [] := by
  unfold EventBus.has at h
  unfold EventBus.get
  cases hl : bus.events.lookup event with
  | none => rfl
  | some w => simp [hl] at h

theorem EventBus.on_eq (bus : EventBus) (event : String) (callback : Callback) :
    EventBus.on bus event callback
      = { bus with
          events := EventBus.mapSet bus.events event
            (EventBus.addCallback (EventBus.get bus event) callback) } := by
  unfold EventBus.on
  cases h : EventBus.has bus event with
  | true => simp
  | false =>
    simp only [Bool.false_eq_true, if_false, EventBus.mapSet_mapSet]
    have hg : EventBus.get { bus with events := EventBus.mapSet bus.events event [] } event
        = [] := by
      unfold EventBus.get
      simp [EventBus.lookup_mapSet]
    rw [hg, EventBus.get_of_not_has bus event h]

theorem EventBus.get_on (bus : EventBus) (event : String) (callback : Callback) :
    EventBus.get (EventBus.on bus event callback) event
      = EventBus.addCallback (EventBus.get bus event) callback := by
  rw [EventBus.on_eq]
  unfold EventBus.get
  simp [EventBus.lookup_mapSet]

theorem EventBus.has_on (bus : EventBus) (event : String) (callback : Callback) :
    EventBus.has (EventBus.on bus event callback) event = true := by
  rw [EventBus.on_eq]
  unfold EventBus.has
  simp [EventBus.lookup_mapSet]

theorem EventBus.get_nodup (bus : EventBus) (event : String) (h : bus.WF) :
    (EventBus.get bus event).Nodup := by
  unfold EventBus.get
  cases hl : bus.events.lookup event with
  | none => simp
  | some set => exact h.2 _ (lookup_mem _ _ _ hl)

theorem EventBus.addCallback_nodup (set : List Callback) (callback : Callback)
    (h : set.Nodup) : (EventBus.addCallback set callback).Nodup := by
  unfold EventBus.addCallback
  by_cases hx : callback ∈ set
  · rw [if_pos hx]
    exact h
  · rw [if_neg hx]
    exact List.Nodup.append h (List.nodup_singleton callback) (by
      intro a ha hb
      rw [List.mem_singleton] at hb
      exact hx (hb ▸ ha))

theorem EventBus.mem_addCallback (set : List Callback) (callback : Callback) :
    callback ∈ EventBus.addCallback set callback := by
  unfold EventBus.addCallback
  by_cases hx : callback ∈ set
  · rw [if_pos hx]
    exact hx
  · rw [if_neg hx]
    simp

theorem EventBus.getListenerCount_eq (bus : EventBus) (event : String) :
    EventBus.getListenerCount bus event = (EventBus.get bus event).length := by
  unfold EventBus.getListenerCount
  cases h : EventBus.has bus event with
  | true => simp
  | false => simp [EventBus.get_of_not_has bus event h]

theorem EventBus.addCallback_of_mem (set : List Callback) (callback : Callback)
    (h : callback ∈ set) : EventBus.addCallback set callback = set := by
  unfold EventBus.addCallback
  rw [if_pos h]

theorem EventBus.empty_wf : EventBus.empty.WF :=
  ⟨List.nodup_nil, by simp [EventBus.empty]⟩

theorem EventBus.on_wf (bus : EventBus) (event : String) (callback : Callback)
    (h : bus.WF) : (EventBus.on bus event callback).WF := by
  have hS := EventBus.addCallback_nodup _ callback (EventBus.get_nodup bus event h)
  rw [EventBus.on_eq]
  generalize EventBus.addCallback (EventBus.get bus event) callback = S at hS
  obtain ⟨hk, hs⟩ := h
  cases hl : bus.events.lookup event with
  | some w =>
    have hsome : (bus.events.lookup event).isSome = true := by rw [hl]; rfl
    constructor
    · show (List.map Prod.fst (EventBus.mapSet bus.events event S)).Nodup
      rw [EventBus.mapSet_of_isSome _ _ _ hsome, List.map_map]
      have : (Prod.fst ∘ fun kv : String × List Callback =>
          if kv.1 = event then (event, S) else kv) = Prod.fst := by
        funext kv
        by_cases h1 : kv.1 = event
        · simp [h1]
        · simp [h1]
      rw [this]
      exact hk
    · intro kv hkv
      have hkv2 : kv ∈ EventBus.mapSet bus.events event S := hkv
      rw [EventBus.mapSet_of_isSome _ _ _ hsome, List.mem_map] at hkv2
      obtain ⟨x, hx, rfl⟩ := hkv2
      by_cases h1 : x.1 = event
      · simpa [h1] using hS
      · simpa [h1] using hs x hx
  | none =>
    have hno : event ∉ bus.events.map Prod.fst := by
      rw [← lookup_isSome_iff, hl]
      simp
    constructor
    · show (List.map Prod.fst (EventBus.mapSet bus.events event S)).Nodup
      rw [EventBus.mapSet_of_none _ _ _ hl, List.map_append]
      refine List.Nodup.append hk (by simp) ?_
      intro a ha hb
      simp only [List.map_cons, List.map_nil, List.mem_singleton] at hb
      exact hno (hb ▸ ha)
    · intro kv hkv
      have hkv2 : kv ∈ EventBus.mapSet bus.events event S := hkv
      rw [EventBus.mapSet_of_none _ _ _ hl, List.mem_append] at hkv2
      rcases hkv2 with hx | hx
      · exact hs kv hx
      · rw [List.mem_singleton] at hx
        rw [hx]
        exact hS

theorem EventBus.get_off (bus : EventBus) (event k : String) (callback : Callback) :
    EventBus.get (EventBus.off bus event callback) k
      = if k = event then EventBus.deleteCallback (EventBus.get bus event) callback
        else EventBus.get bus k := by
  unfold EventBus.off
  cases h : EventBus.has bus event with
  | true =>
    simp only [if_true]
    unfold EventBus.get
    simp only [EventBus.lookup_mapSet]
    by_cases hk : k = event
    · simp [hk]
    · simp [hk]
  | false =>
    simp only [Bool.false_eq_true, if_false]
    by_cases hk : k = event
    · rw [if_pos hk, hk, EventBus.get_of_not_has bus event h]
      rfl
    · rw [if_neg hk]

theorem EventBus.not_mem_deleteCallback (set : List Callback) (callback : Callback) :
    callback ∉ EventBus.deleteCallback set callback := by
  unfold EventBus.deleteCallback
  simp

theorem EventBus.mem_of_mem_deleteCallback (set : List Callback) (callback x : Callback)
    (h : x ∈ EventBus.deleteCallback set callback) : x ∈ set := by
  unfold EventBus.deleteCallback at h
  exact (List.mem_filter.mp h).1

/-! ## The event bus: emit, once and removeAllListeners -/

theorem EventBus.get_on_other (bus : EventBus) (event k : String) (callback : Callback)
    (h : k ≠ event) :
    EventBus.get (EventBus.on bus event callback) k = EventBus.get bus k := by
  rw [EventBus.on_eq]
  unfold EventBus.get
  simp [EventBus.lookup_mapSet, h]

theorem EventBus.deleteCallback_nodup (set : List Callback) (callback : Callback)
    (h : set.Nodup) : (EventBus.deleteCallback set callback).Nodup := by
  unfold EventBus.deleteCallback
  exact h.filter _

theorem EventBus.off_wf (bus : EventBus) (event : String) (callback : Callback)
    (h : bus.WF) : (EventBus.off bus event callback).WF := by
  have hS := EventBus.deleteCallback_nodup _ callback (EventBus.get_nodup bus event h)
  unfold EventBus.off
  generalize EventBus.deleteCallback (EventBus.get bus event) callback = S at hS
  cases hh : EventBus.has bus event with
  | false => simpa using h
  | true =>
    simp only [if_true]
    obtain ⟨hk, hs⟩ := h
    have hsome : (bus.events.lookup event).isSome = true := hh
    constructor
    · show (List.map Prod.fst (EventBus.mapSet bus.events event S)).Nodup
      rw [EventBus.mapSet_of_isSome _ _ _ hsome, List.map_map]
      have : (Prod.fst ∘ fun kv : String × List Callback =>
          if kv.1 = event then (event, S) else kv) = Prod.fst := by
        funext kv
        by_cases h1 : kv.1 = event
        · simp [h1]
        · simp [h1]
      rw [this]
      exact hk
    · intro kv hkv
      have hkv2 : kv ∈ EventBus.mapSet bus.events event S := hkv
      rw [EventBus.mapSet_of_isSome _ _ _ hsome, List.mem_map] at hkv2
      obtain ⟨x, hx, rfl⟩ := hkv2
      by_cases h1 : x.1 = event
      · simpa [h1] using hS
      · simpa [h1] using hs x hx

theorem EventBus.once_wf (bus : EventBus) (event : String) (f : Nat)
    (h : bus.WF) : (EventBus.once bus event f).WF := by
  unfold EventBus.once
  exact EventBus.on_wf _ _ _ h

theorem EventBus.position_append_cons (pre post : List Callback) (c : Callback)
    (h : c ∉ pre) : EventBus.position c (pre ++ c :: post) = pre.length := by
  induction pre with
  | nil => simp [EventBus.position]
  | cons x pre ih =>
    have hx : x ≠ c := fun e => h (e ▸ List.mem_cons_self _ _)
    have hp : c ∉ pre := fun m => h (List.mem_cons_of_mem _ m)
    simp [EventBus.position, hx, ih hp]

theorem EventBus.deleteCallback_append_cons (pre post : List Callback) (c : Callback)
    (h1 : c ∉ pre) (h2 : c ∉ post) :
    EventBus.deleteCallback (pre ++ c :: post) c = pre ++ post := by
  unfold EventBus.deleteCallback
  rw [List.filter_append, List.filter_cons]
  have e1 : pre.filter (fun x => decide (x ≠ c)) = pre := by
    rw [List.filter_eq_self]
    intro a ha
    simpa using fun e : a = c => h1 (e ▸ ha)
  have e2 : post.filter (fun x => decide (x ≠ c)) = post := by
    rw [List.filter_eq_self]
    intro a ha
    simpa using fun e : a = c => h2 (e ▸ ha)
  rw [e1, e2]
  simp

/-- A call of the bus about another event leaves the walk where it is. -/
theorem EventBus.perform_other (event : String) (bus : EventBus) (k : Nat) (op : BusOp)
    (h : op.event ≠ event) (hwf : bus.WF) :
    (EventBus.perform event (bus, k) op).2 = k ∧
      (EventBus.perform event (bus, k) op).1.WF ∧
      EventBus.get (EventBus.perform event (bus, k) op).1 event = EventBus.get bus event := by
  cases op with
  | subscribe e cb =>
    have he : event ≠ e := fun x => h x.symm
    exact ⟨rfl, EventBus.on_wf _ _ _ hwf, EventBus.get_on_other _ _ _ _ he⟩
  | unsubscribe e cb =>
    have he : event ≠ e := fun x => h x.symm
    have h2 : e ≠ event := h
    refine ⟨?_, EventBus.off_wf _ _ _ hwf, ?_⟩
    · simp [EventBus.perform, h2]
    · show EventBus.get (EventBus.off bus e cb) event = _
      rw [EventBus.get_off, if_neg he]
  | subscribeOnce e f =>
    have he : event ≠ e := fun x => h x.symm
    refine ⟨rfl, EventBus.once_wf _ _ _ hwf, ?_⟩
    show EventBus.get (EventBus.once bus e f) event = _
    unfold EventBus.once
    rw [EventBus.get_on_other _ _ _ _ he]
    rfl

theorem EventBus.foldl_perform_other (event : String) (l : List BusOp) (bus : EventBus)
    (k : Nat) (h : ∀ op ∈ l, op.event ≠ event) (hwf : bus.WF) :
    ∃ bus1, l.foldl (EventBus.perform event) (bus, k) = (bus1, k) ∧ bus1.WF ∧
      EventBus.get bus1 event = EventBus.get bus event := by
  induction l generalizing bus with
  | nil => exact ⟨bus, rfl, hwf, rfl⟩
  | cons op l ih =>
    obtain ⟨h1, h2, h3⟩ := EventBus.perform_other event bus k op
      (h op (List.mem_cons_self _ _)) hwf
    obtain ⟨bus1, e1, w1, g1⟩ := ih (EventBus.perform event (bus, k) op).1
      (fun o ho => h o (List.mem_cons_of_mem _ ho)) h2
    refine ⟨bus1, ?_, w1, g1.trans h3⟩
    rw [List.foldl_cons, ← e1]
    congr 1
    exact Prod.ext rfl h1

/-- One invocation during the walk, by a subscriber whose function leaves the
subscribers of the event alone: the outcome is that of its function, and the
walk moves on to the next element. -/
theorem EventBus.invoke_step {P : Type} (throws : Nat → P → Bool)
    (ops : Nat → P → List BusOp) (payload : P) (event : String) (bus : EventBus)
    (pre rest : List Callback) (c : Callback) (hwf : bus.WF)
    (hget : EventBus.get bus event = pre ++ c :: rest)
    (hq : ∀ op ∈ ops c.target payload, op.event ≠ event) :
    ∃ bus1 pre1,
      EventBus.invoke throws ops payload event (bus, pre.length + 1) c
          = ((bus1, pre1.length), throws c.target payload) ∧
        bus1.WF ∧ EventBus.get bus1 event = pre1 ++ rest ∧
        pre1 = if EventBus.stays throws payload event c then pre ++ [c] else pre := by
  have hnd : (pre ++ c :: rest).Nodup := hget ▸ EventBus.get_nodup bus event hwf
  have hc1 : c ∉ pre := by
    intro hm
    have := List.disjoint_of_nodup_append hnd hm
    exact this (List.mem_cons_self _ _)
  have hc2 : c ∉ rest := (List.nodup_cons.mp (List.Nodup.of_append_right hnd)).1
  obtain ⟨bus0, e0, w0, g0⟩ :=
    EventBus.foldl_perform_other event (ops c.target payload) bus (pre.length + 1) hq hwf
  cases c with
  | fn f =>
    refine ⟨bus0, pre ++ [.fn f], ?_, w0, ?_, ?_⟩
    · simp only [EventBus.invoke, Callback.target] at e0 ⊢
      rw [e0]
      simp
    · rw [g0, hget]
      simp
    · simp [EventBus.stays]
  | onceCallback serial e f =>
    simp only [Callback.target] at e0
    cases ht : throws f payload with
    | true =>
      refine ⟨bus0, pre ++ [.onceCallback serial e f], ?_, w0, ?_, ?_⟩
      · simp only [EventBus.invoke, Callback.target, ht, if_true]
        rw [e0]
        simp
      · rw [g0, hget]
        simp
      · simp [EventBus.stays, ht]
    | false =>
      by_cases he : e = event
      · subst he
        refine ⟨EventBus.off bus0 e (.onceCallback serial e f), pre, ?_,
          EventBus.off_wf _ _ _ w0, ?_, ?_⟩
        · simp only [EventBus.invoke, Callback.target, ht, Bool.false_eq_true, if_false]
          rw [e0]
          simp only [EventBus.perform]
          rw [g0, hget, EventBus.position_append_cons _ _ _ hc1]
          simp
        · rw [EventBus.get_off, if_pos rfl, g0, hget,
            EventBus.deleteCallback_append_cons _ _ _ hc1 hc2]
        · simp [EventBus.stays, ht]
      · have he2 : event ≠ e := fun x => he x.symm
        refine ⟨EventBus.off bus0 e (.onceCallback serial e f),
          pre ++ [.onceCallback serial e f], ?_, EventBus.off_wf _ _ _ w0, ?_, ?_⟩
        · simp only [EventBus.invoke, Callback.target, ht, Bool.false_eq_true, if_false]
          rw [e0]
          simp [EventBus.perform, he]
        · rw [EventBus.get_off, if_neg he2, g0, hget]
          simp
        · simp [EventBus.stays, ht, he]

/-- The walk from a place on, when no function of a subscriber still to be
visited changes the subscribers of the event: it ends within one visit more
than there are such subscribers, having invoked each of them in order. -/
theorem EventBus.forEach_steady {P : Type} (throws : Nat → P → Bool)
    (ops : Nat → P → List BusOp) (payload : P) (event : String) :
    ∀ (pending pre : List Callback) (fuel : Nat) (bus : EventBus)
      (trace : List (Callback × Bool)),
      bus.WF → EventBus.get bus event = pre ++ pending →
      (∀ c ∈ pending, ∀ op ∈ ops c.target payload, op.event ≠ event) →
      pending.length < fuel →
      ∃ after, EventBus.forEach throws ops payload event fuel (bus, pre.length) trace
          = some (after, trace ++ pending.map (fun c => (c, throws c.target payload))) ∧
        after.WF ∧
        EventBus.get after event
          = pre ++ pending.filter (EventBus.stays throws payload event) := by
  intro pending
  induction pending with
  | nil =>
    intro pre fuel bus trace hwf hget _ hf
    obtain ⟨n, rfl⟩ : ∃ n, fuel = n + 1 := ⟨fuel - 1, by simp at hf; omega⟩
    refine ⟨bus, ?_, hwf, by simpa using hget⟩
    unfold EventBus.forEach
    simp [hget]
  | cons c rest ih =>
    intro pre fuel bus trace hwf hget hq hf
    obtain ⟨n, rfl⟩ : ∃ n, fuel = n + 1 := ⟨fuel - 1, by simp at hf; omega⟩
    obtain ⟨bus1, pre1, e1, w1, g1, hp⟩ :=
      EventBus.invoke_step throws ops payload event bus pre rest c hwf hget
        (hq c (List.mem_cons_self _ _))
    obtain ⟨after, ea, wa, ga⟩ := ih pre1 n bus1 (trace ++ [(c, throws c.target payload)])
      w1 g1 (fun x hx => hq x (List.mem_cons_of_mem _ hx)) (by simp at hf; omega)
    refine ⟨after, ?_, wa, ?_⟩
    · unfold EventBus.forEach
      have hel : (EventBus.get bus event)[pre.length]? = some c := by
        rw [hget, List.getElem?_append_right (Nat.le_refl _)]
        simp
      simp only [hel, e1]
      rw [ea]
      simp
    · rw [ga, hp]
      cases hs : EventBus.stays throws payload event c <;> simp [List.filter_cons, hs]

/-- An emit during which no function of a subscriber changes the subscribers
of the event returns within one visit more than there are subscribers; it has
invoked every subscriber, in the order of the set. -/
theorem EventBus.emit_steady {P : Type} (throws : Nat → P → Bool)
    (ops : Nat → P → List BusOp) (fuel : Nat) (bus : EventBus) (event : String)
    (payload : P) (hwf : bus.WF)
    (hq : ∀ c ∈ EventBus.get bus event, ∀ op ∈ ops c.target payload, op.event ≠ event)
    (hf : (EventBus.get bus event).length < fuel) :
    ∃ after, EventBus.emit throws ops fuel bus event payload
        = some (after,
            (EventBus.get bus event).map (fun c => (c, throws c.target payload))) ∧
      after.WF ∧
      EventBus.get after event
        = (EventBus.get bus event).filter (EventBus.stays throws payload event) := by
  unfold EventBus.emit
  cases hh : EventBus.has bus event with
  | true =>
    simp only [if_true]
    have := EventBus.forEach_steady throws ops payload event (EventBus.get bus event) []
      fuel bus [] hwf rfl hq hf
    simpa using this
  | false =>
    refine ⟨bus, ?_, hwf, ?_⟩
    · simp [EventBus.get_of_not_has bus event hh]
    · simp [EventBus.get_of_not_has bus event hh]

theorem EventBus.forEach_resubscribing (fuel : Nat) (trace : List (Callback × Bool)) :
    EventBus.forEach noneThrows resubscribesItself cleanCode "book:added" fuel (oneBus, 0) trace
      = none := by
  induction fuel generalizing trace with
  | zero => rfl
  | succ n ih =>
    have hstep : EventBus.forEach noneThrows resubscribesItself cleanCode "book:added" (n + 1)
        (oneBus, 0) trace
        = EventBus.forEach noneThrows resubscribesItself cleanCode "book:added" n
            (oneBus, 0) (trace ++ [(Callback.fn 1, false)]) := by
      have hinv : EventBus.invoke noneThrows resubscribesItself cleanCode "book:added"
          (oneBus, 0 + 1) (.fn 1) = ((oneBus, 0), false) := by decide
      have hget : (EventBus.get oneBus "book:added")[0]? = some (Callback.fn 1) := by decide
      rw [EventBus.forEach]
      simp only [hget, hinv]
    rw [hstep]
    exact ih _

/-- An emit need not return: a subscriber that unsubscribes itself and
subscribes itself again is moved to the end of the set on every visit, and the
walk visits it again, whatever the number of visits allowed. -/
theorem EventBus.emit_resubscribing_never_returns (fuel : Nat) :
    EventBus.emit noneThrows resubscribesItself fuel oneBus "book:added" cleanCode = none := by
  unfold EventBus.emit
  rw [if_pos (by decide)]
  exact EventBus.forEach_resubscribing fuel []

/-- C19 (amended). When no function run by a subscriber of the event calls
`on`, `off` or `once` for that event while the emit runs, `emit(event,
payload)` returns (within one visit more than there are subscribers), having
invoked the subscribers of the event in registration order, each of them
whether or not an earlier one threw: the trace lists every subscriber with the
outcome of its call; each subscribed callback occurs in it exactly once and no
other callback occurs; and a callback registered with `on` while not yet
subscribed takes the last place. -/
theorem EventBus.emit_invokes_each_once {P : Type} (throws : Nat → P → Bool)
    (ops : Nat → P → List BusOp) (fuel : Nat) (bus : EventBus) (event : String)
    (payload : P) (h : bus.WF)
    (hsteady : ∀ c ∈ EventBus.get bus event, ∀ op ∈ ops c.target payload,
      op.event ≠ event)
    (hfuel : (EventBus.get bus event).length < fuel) :
    ∃ after trace, EventBus.emit throws ops fuel bus event payload = some (after, trace) ∧
      trace = (EventBus.get bus event).map
          (fun callback => (callback, throws callback.target payload)) ∧
      (∀ callback,
        (trace.map Prod.fst).count callback
          = if callback ∈ EventBus.get bus event then 1 else 0) ∧
      (∀ callback, callback ∉ EventBus.get bus event →
        EventBus.get (EventBus.on bus event callback) event
          = EventBus.get bus event ++ [callback]) := by
  obtain ⟨after, he, _, _⟩ :=
    EventBus.emit_steady throws ops fuel bus event payload h hsteady hfuel
  refine ⟨after, _, he, rfl, ?_, ?_⟩
  · intro callback
    have hfst : ((EventBus.get bus event).map
        (fun callback => (callback, throws callback.target payload))).map Prod.fst
        = EventBus.get bus event := by
      rw [List.map_map]
      exact List.map_id _
    rw [hfst]
    by_cases hm : callback ∈ EventBus.get bus event
    · rw [if_pos hm]
      exact List.count_eq_one_of_mem (EventBus.get_nodup bus event h) hm
    · rw [if_neg hm]
      exact List.count_eq_zero_of_not_mem hm
  · intro callback hm
    rw [EventBus.get_on]
    unfold EventBus.addCallback
    rw [if_neg hm]

/-- C19 (witness). On the sample bus the function 1 subscribes a callback to
another event while it runs and the function 2 throws; the functions 1, 2 and
3 are all invoked, in this order. -/
theorem EventBus.emit_invokes_each_once_witness :
    sampleBus.WF ∧
      (∀ c ∈ EventBus.get sampleBus "book:added",
        ∀ op ∈ firstSubscribesElsewhere c.target cleanCode, op.event ≠ "book:added") ∧
      (EventBus.emit secondThrows firstSubscribesElsewhere 4 sampleBus "book:added"
          cleanCode).map Prod.snd
        = some [(Callback.fn 1, false), (Callback.fn 2, true), (Callback.fn 3, false)] := by
  have hwf : sampleBus.WF := by
    unfold EventBus.WF
    decide
  have hs : ∀ c ∈ EventBus.get sampleBus "book:added",
      ∀ op ∈ firstSubscribesElsewhere c.target cleanCode, op.event ≠ "book:added" := by
    decide
  obtain ⟨after, trace, he, ht, _⟩ :=
    EventBus.emit_invokes_each_once secondThrows firstSubscribesElsewhere 4 sampleBus
      "book:added" cleanCode hwf hs (by decide)
  refine ⟨hwf, hs, ?_⟩
  rw [he, ht]
  have hl : (EventBus.get sampleBus "book:added").map
      (fun callback => (callback, secondThrows callback.target cleanCode))
      = [(Callback.fn 1, false), (Callback.fn 2, true), (Callback.fn 3, false)] := by
    decide
  exact congrArg some hl

/-- C19 (counterexample). The functions 1, 2 and 3 are subscribed to
"book:added"; the function 1, when invoked, calls `off("book:added", f3)`.
The emit invokes the functions 1 and 2 and returns: the function 3, subscribed
when `emit` was called, is not invoked. -/
theorem EventBus.emit_unsubscribed_midway_counterexample :
    EventBus.get sampleBus "book:added" = [Callback.fn 1, Callback.fn 2, Callback.fn 3] ∧
      (EventBus.emit noneThrows firstUnsubscribesThird 4 sampleBus "book:added"
          cleanCode).map Prod.snd
        = some [(Callback.fn 1, false), (Callback.fn 2, false)] :=
  ⟨by decide, by decide⟩

/-- C20 (amended). Registering a callback twice with `on(event, callback)`
leaves the bus as registering it once does; the listener count of the event has
grown by at most one; and an `emit` of the event during which no function run
by a subscriber calls `on`, `off` or `once` for that event returns, having
invoked the callback exactly once. -/
theorem EventBus.on_twice (bus : EventBus) (event : String) (callback : Callback)
    (h : bus.WF) :
    EventBus.on (EventBus.on bus event callback) event callback
        = EventBus.on bus event callback ∧
      EventBus.getListenerCount (EventBus.on (EventBus.on bus event callback) event callback)
          event ≤ EventBus.getListenerCount bus event + 1 ∧
      (∀ (P : Type) (throws : Nat → P → Bool) (ops : Nat → P → List BusOp) (payload : P)
        (fuel : Nat),
        (∀ c ∈ EventBus.get (EventBus.on bus event callback) event,
          ∀ op ∈ ops c.target payload, op.event ≠ event) →
        (EventBus.get (EventBus.on bus event callback) event).length < fuel →
        ∃ after trace,
          EventBus.emit throws ops fuel
              (EventBus.on (EventBus.on bus event callback) event callback) event payload
            = some (after, trace) ∧
          (trace.map Prod.fst).count callback = 1) := by
  have hidem : EventBus.on (EventBus.on bus event callback) event callback
      = EventBus.on bus event callback := by
    have hadd : EventBus.addCallback
        (EventBus.addCallback (EventBus.get bus event) callback) callback
        = EventBus.addCallback (EventBus.get bus event) callback :=
      EventBus.addCallback_of_mem _ _ (EventBus.mem_addCallback _ _)
    rw [EventBus.on_eq (EventBus.on bus event callback), EventBus.get_on, hadd]
    rw [EventBus.on_eq bus]
    simp [EventBus.mapSet_mapSet]
  refine ⟨hidem, ?_, ?_⟩
  · rw [hidem, EventBus.getListenerCount_eq, EventBus.getListenerCount_eq, EventBus.get_on]
    unfold EventBus.addCallback
    by_cases hm : callback ∈ EventBus.get bus event
    · rw [if_pos hm]
      omega
    · rw [if_neg hm]
      simp
  · intro P throws ops payload fuel hsteady hfuel
    rw [hidem]
    have hwf := EventBus.on_wf bus event callback h
    obtain ⟨after, he, _, _⟩ :=
      EventBus.emit_steady throws ops fuel _ event payload hwf hsteady hfuel
    refine ⟨after, _, he, ?_⟩
    rw [List.map_map]
    have hid : (Prod.fst ∘ fun c : Callback => (c, throws c.target payload)) = id := rfl
    rw [hid, List.map_id]
    apply List.count_eq_one_of_mem (EventBus.get_nodup _ event hwf)
    rw [EventBus.get_on]
    exact EventBus.mem_addCallback _ _

/-- C20 (witness). Registering the function 2, already subscribed, once more
on the sample bus changes nothing, and an emit during which the function 1
subscribes a callback to another event invokes the function 2 once. -/
theorem EventBus.on_twice_witness :
    sampleBus.WF ∧
      EventBus.on (EventBus.on sampleBus "book:added" (.fn 2)) "book:added" (.fn 2)
        = sampleBus ∧
      (EventBus.emit secondThrows firstSubscribesElsewhere 4
          (EventBus.on (EventBus.on sampleBus "book:added" (.fn 2)) "book:added" (.fn 2))
          "book:added" cleanCode).map (fun r => (r.2.map Prod.fst).count (.fn 2))
        = some 1 := by
  have hwf : sampleBus.WF := by
    unfold EventBus.WF
    decide
  have h := EventBus.on_twice sampleBus "book:added" (.fn 2) hwf
  obtain ⟨after, trace, he, hc⟩ :=
    h.2.2 Book secondThrows firstSubscribesElsewhere cleanCode 4 (by decide) (by decide)
  refine ⟨hwf, h.1.trans (by decide), ?_⟩
  rw [he]
  exact congrArg some hc

/-- C20 (counterexample). The functions 1 and 2 are subscribed to "book:added"
and the function 3 is registered twice with `on`; the function 1, when invoked,
calls `off("book:added", f3)`.  The emit that follows the two registrations
returns without having invoked the function 3. -/
theorem EventBus.on_twice_unsubscribed_midway_counterexample :
    EventBus.get (EventBus.on (EventBus.on twoBus "book:added" (.fn 3)) "book:added" (.fn 3))
        "book:added"
        = [Callback.fn 1, Callback.fn 2, Callback.fn 3] ∧
      (EventBus.emit noneThrows firstUnsubscribesThird 4
          (EventBus.on (EventBus.on twoBus "book:added" (.fn 3)) "book:added" (.fn 3))
          "book:added" cleanCode).map (fun r => (r.2.map Prod.fst).count (.fn 3))
        = some 0 :=
  ⟨by decide, by decide⟩

/-- When the function given to `once` returns on the first emit and no function
run by a subscriber changes the subscribers of the event meanwhile, the closure
is invoked by that emit, is no longer subscribed after it, and no later emit
of the event (of the same kind) invokes it. -/
theorem EventBus.once_removed_when_returns {P : Type} (throws : Nat → P → Bool)
    (ops : Nat → P → List BusOp) (fuel : Nat) (bus : EventBus) (event : String)
    (f : Nat) (payload : P) (hwf : bus.WF) (h : throws f payload = false)
    (hsteady : ∀ c ∈ EventBus.get (EventBus.once bus event f) event,
      ∀ op ∈ ops c.target payload, op.event ≠ event)
    (hfuel : (EventBus.get (EventBus.once bus event f) event).length < fuel) :
    ∃ after trace,
      EventBus.emit throws ops fuel (EventBus.once bus event f) event payload
        = some (after, trace) ∧
      (Callback.onceCallback bus.closures event f, false) ∈ trace ∧
      Callback.onceCallback bus.closures event f ∉ EventBus.get after event ∧
      ∀ (throws2 : Nat → P → Bool) (ops2 : Nat → P → List BusOp) (payload2 : P)
        (fuel2 : Nat),
        (∀ c ∈ EventBus.get after event, ∀ op ∈ ops2 c.target payload2, op.event ≠ event) →
        (EventBus.get after event).length < fuel2 →
        ∃ after2 trace2,
          EventBus.emit throws2 ops2 fuel2 after event payload2 = some (after2, trace2) ∧
          Callback.onceCallback bus.closures event f ∉ trace2.map Prod.fst := by
  have hmem : Callback.onceCallback bus.closures event f
      ∈ EventBus.get (EventBus.once bus event f) event := by
    unfold EventBus.once
    rw [EventBus.get_on]
    exact EventBus.mem_addCallback _ _
  obtain ⟨after, he, wa, ga⟩ :=
    EventBus.emit_steady throws ops fuel _ event payload (EventBus.once_wf bus event f hwf)
      hsteady hfuel
  have hgone : Callback.onceCallback bus.closures event f ∉ EventBus.get after event := by
    rw [ga, List.mem_filter]
    simp [EventBus.stays, h]
  refine ⟨after, _, he, ?_, hgone, ?_⟩
  · rw [List.mem_map]
    exact ⟨_, hmem, by simp [Callback.target, h]⟩
  · intro throws2 ops2 payload2 fuel2 hs2 hf2
    obtain ⟨after2, he2, _, _⟩ :=
      EventBus.emit_steady throws2 ops2 fuel2 after event payload2 wa hs2 hf2
    refine ⟨after2, _, he2, ?_⟩
    rw [List.map_map]
    have hid : (Prod.fst ∘ fun c : Callback => (c, throws2 c.target payload2)) = id := rfl
    rw [hid, List.map_id]
    exact hgone

/-- C21. After `once("book:added", 2)` on the empty bus, with a function 2 that
throws: the first emit invokes the closure, which throws before it reaches
`this.off`; it is still subscribed after the emit, and the second emit invokes
it again. -/
theorem EventBus.once_throwing_stays_subscribed :
    (EventBus.emit secondThrows quiet 4 onceBus "book:added" cleanCode).map Prod.snd
        = some [(Callback.onceCallback 0 "book:added" 2, true)] ∧
      (EventBus.emit secondThrows quiet 4 onceBus "book:added" cleanCode).map
          (fun r => EventBus.get r.1 "book:added")
        = some [Callback.onceCallback 0 "book:added" 2] ∧
      ((EventBus.emit secondThrows quiet 4 onceBus "book:added" cleanCode).bind
          (fun r => EventBus.emit secondThrows quiet 4 r.1 "book:added" designPatterns)).map
          Prod.snd
        = some [(Callback.onceCallback 0 "book:added" 2, true)] :=
  ⟨by decide, by decide, by decide⟩

theorem lookup_filter_ne {β : Type} (o : List (String × β)) (e k : String) :
    (o.filter (fun kv => kv.1 ≠ e)).lookup k = if k = e then none else o.lookup k := by
  induction o with
  | nil => simp
  | cons kv o ih =>
    obtain ⟨k1, v1⟩ := kv
    by_cases h1 : k1 = e
    · have : List.filter (fun kv : String × β => decide (kv.1 ≠ e)) ((k1, v1) :: o)
          = List.filter (fun kv : String × β => decide (kv.1 ≠ e)) o := by
        simp [List.filter_cons, h1]
      rw [this, ih, lookup_cons_eq]
      by_cases hk : k = e
      · simp [hk]
      · have : ¬ k = k1 := fun h => hk (h.trans h1)
        simp [hk, this]
    · have : List.filter (fun kv : String × β => decide (kv.1 ≠ e)) ((k1, v1) :: o)
          = (k1, v1) :: List.filter (fun kv : String × β => decide (kv.1 ≠ e)) o := by
        simp [List.filter_cons, h1]
      rw [this, lookup_cons_eq, lookup_cons_eq, ih]
      by_cases hk : k = e
      · have : ¬ e = k1 := fun h => h1 h.symm
        simp [hk, this]
      · simp [hk]

/-- C22 (amended). For an event name e that is not the empty text,
`removeAllListeners(e)` leaves e without subscribers (the key is gone, the
listener count is 0) and leaves the subscribers of every other event as they
were; `removeAllListeners()` without a name, and `removeAllListeners("")`, leave
no event at all. -/
theorem EventBus.removeAllListeners_named (bus : EventBus) (e : String) (he : e ≠ "") :
    EventBus.has (EventBus.removeAllListeners bus (some e)) e = false ∧
      EventBus.get (EventBus.removeAllListeners bus (some e)) e = [] ∧
      EventBus.getListenerCount (EventBus.removeAllListeners bus (some e)) e = 0 ∧
      (∀ k, k ≠ e →
        (EventBus.removeAllListeners bus (some e)).events.lookup k = bus.events.lookup k) ∧
      (EventBus.removeAllListeners bus none).events = [] ∧
      (EventBus.removeAllListeners bus (some "")).events = [] := by
  have hl : ∀ k, (EventBus.removeAllListeners bus (some e)).events.lookup k
      = if k = e then none else bus.events.lookup k := by
    intro k
    unfold EventBus.removeAllListeners
    simp only [he, ne_eq, not_false_eq_true, if_true]
    exact lookup_filter_ne bus.events e k
  have hhas : EventBus.has (EventBus.removeAllListeners bus (some e)) e = false := by
    unfold EventBus.has
    rw [hl e, if_pos rfl]
    rfl
  refine ⟨hhas, EventBus.get_of_not_has _ _ hhas, ?_, ?_, rfl, rfl⟩
  · rw [EventBus.getListenerCount_eq, EventBus.get_of_not_has _ _ hhas]
    rfl
  · intro k hk
    rw [hl k, if_neg hk]

/-- C22 (witness). Removing the listeners of "book:added" from the bus that
also has a listener under the empty name. -/
theorem EventBus.removeAllListeners_named_witness :
    "book:added" ≠ "" ∧
      EventBus.get (EventBus.removeAllListeners mixedBus (some "book:added")) "book:added"
        = [] ∧
      (EventBus.removeAllListeners mixedBus (some "book:added")).events.lookup ""
        = some [Callback.fn 1] := by
  have h := EventBus.removeAllListeners_named mixedBus "book:added" (by decide)
  exact ⟨by decide, h.2.1, (h.2.2.2.1 "" (by decide)).trans (by decide)⟩

/-- C22 (counterexample). With the function 1 subscribed to the event named by
the empty text and the function 2 subscribed to "book:added",
`removeAllListeners("")` takes the branch of the call without a name: the
subscriber of "book:added" is removed too. -/
theorem EventBus.removeAllListeners_empty_name_counterexample :
    EventBus.get mixedBus "book:added" = [Callback.fn 2] ∧
      EventBus.get (EventBus.removeAllListeners mixedBus (some "")) "book:added" = [] ∧
      (EventBus.removeAllListeners mixedBus (some "")).events = [] :=
  ⟨by decide, by decide, by decide⟩

/-! ## Typed creation, loading, failing writes, updates in place -/

theorem Book.constructor_congr (clock clock2 : Clock) (d d2 : BookData)
    (h : Book.init clock2 d2 = Book.init clock d) :
    Book.constructor clock2 d2 = Book.constructor clock d := by
  unfold Book.constructor
  rw [h]

theorem orNumber_again (x : Option Int) (c c2 : Int) (hc : c ≠ 0) :
    orNumber (some (orNumber x c)) c2 = orNumber x c := by
  have h : orNumber x c ≠ 0 := by
    unfold orNumber
    cases x with
    | none => exact hc
    | some n =>
      by_cases hn : n = 0
      · simp [hn, hc]
      · simp [hn]
  show (if orNumber x c = 0 then c2 else orNumber x c) = orNumber x c
  rw [if_neg h]

theorem BookFactory.init_defaultData (clock clock2 : Clock) (data : BookData)
    (h1 : clock.forId ≠ 0) (h2 : clock.forCreatedAt ≠ 0) :
    Book.init clock2 (BookFactory.defaultData clock data) = Book.init clock data := by
  simp [Book.init, BookFactory.defaultData, orEmpty_eq_getD, orNumber_again _ _ _ h1,
    orNumber_again _ _ _ h2]

theorem BookFactory.init_applyDefaults (clock clock2 : Clock) (data : BookData)
    (category description : String)
    (h1 : clock.forId ≠ 0) (h2 : clock.forCreatedAt ≠ 0) :
    Book.init clock2
        (BookFactory.applyDefaults (BookFactory.defaultData clock data) category description)
      = Book.init clock
          { data with
            category := some (if data.category.getD "" = "" then category
              else data.category.getD "")
            description := some (if data.description.getD "" = "" then description
              else data.description.getD "") } := by
  simp [Book.init, BookFactory.defaultData, BookFactory.applyDefaults, orText,
    orEmpty_eq_getD, orNumber_again _ _ _ h1, orNumber_again _ _ _ h2]

/-- C23. With the clock not reading 0, `BookFactory.create(type, data)` is
`new Book` of the record in which, for a type that lower-cases to "comic",
"novel" or "textbook", the category and the description are the caller's when
the caller gave a non-empty one and the default of the type otherwise; for
every other type ("general" included) it is `new Book(data)` itself. -/
theorem BookFactory.create_defaults (toLowerCase : String → String) (clock clock2 : Clock)
    (type : String) (data : BookData)
    (h1 : clock.forId ≠ 0) (h2 : clock.forCreatedAt ≠ 0) :
    (toLowerCase type = "comic" →
      BookFactory.create toLowerCase clock clock2 type data
        = Book.constructor clock
            { data with
              category := some (if data.category.getD "" = "" then "Truyện tranh"
                else data.category.getD "")
              description := some (if data.description.getD "" = ""
                then "Truyện tranh với hình ảnh minh họa sinh động"
                else data.description.getD "") }) ∧
    (toLowerCase type = "novel" →
      BookFactory.create toLowerCase clock clock2 type data
        = Book.constructor clock
            { data with
              category := some (if data.category.getD "" = "" then "Tiểu thuyết"
                else data.category.getD "")
              description := some (if data.description.getD "" = ""
                then "Tiểu thuyết văn học với cốt truyện hấp dẫn"
                else data.description.getD "") }) ∧
    (toLowerCase type = "textbook" →
      BookFactory.create toLowerCase clock clock2 type data
        = Book.constructor clock
            { data with
              category := some (if data.category.getD "" = "" then "Sách giáo khoa"
                else data.category.getD "")
              description := some (if data.description.getD "" = ""
                then "Sách giáo khoa chuyên môn"
                else data.description.getD "") }) ∧
    (toLowerCase type ≠ "comic" → toLowerCase type ≠ "novel" →
      toLowerCase type ≠ "textbook" →
      BookFactory.create toLowerCase clock clock2 type data = Book.constructor clock data) := by
  refine ⟨?_, ?_, ?_, ?_⟩
  · intro h
    unfold BookFactory.create
    dsimp only
    rw [if_pos h]
    exact Book.constructor_congr _ _ _ _ (BookFactory.init_applyDefaults _ _ _ _ _ h1 h2)
  · intro h
    have hc : ¬ toLowerCase type = "comic" := by rw [h]; decide
    unfold BookFactory.create
    dsimp only
    rw [if_neg hc, if_pos h]
    exact Book.constructor_congr _ _ _ _ (BookFactory.init_applyDefaults _ _ _ _ _ h1 h2)
  · intro h
    have hc : ¬ toLowerCase type = "comic" := by rw [h]; decide
    have hn : ¬ toLowerCase type = "novel" := by rw [h]; decide
    unfold BookFactory.create
    dsimp only
    rw [if_neg hc, if_neg hn, if_pos h]
    exact Book.constructor_congr _ _ _ _ (BookFactory.init_applyDefaults _ _ _ _ _ h1 h2)
  · intro hc hn ht
    unfold BookFactory.create
    dsimp only
    rw [if_neg hc, if_neg hn, if_neg ht]
    exact Book.constructor_congr _ _ _ _ (BookFactory.init_defaultData _ _ _ h1 h2)

/-- C23 (witness). Creating "Asterix" with type "Comic" and no category gives
the book with the defaults of comics. -/
theorem BookFactory.create_defaults_witness :
    sampleClock.forId ≠ 0 ∧ sampleClock.forCreatedAt ≠ 0 ∧ asciiLower "Comic" = "comic" ∧
      BookFactory.create asciiLower sampleClock sampleClock "Comic" asterixData
        = .ok { id := 6, title := "Asterix", author := "Goscinny",
                category := "Truyện tranh", cover := "",
                description := "Truyện tranh với hình ảnh minh họa sinh động",
                createdAt := 1700000000000 } :=
  ⟨by decide, by decide, by decide,
    ((BookFactory.create_defaults asciiLower sampleClock sampleClock "Comic" asterixData
      (by decide) (by decide)).1 (by decide)).trans rfl⟩

/-- C24 (amended). `loadFromStorage()` always returns. When no item is stored
the collection is set to empty and NO event is emitted. When the stored text is
not parseable, is not an array, or holds a record that fails validation, the
collection is set to empty and one ERROR_OCCURRED is emitted. When it is an
array of valid records, the collection is the books constructed from them, one
per record, in order, and no event is emitted. -/
theorem BookManager.loadFromStorage_cases (clocks : Nat → Clock) (s : BookManager) :
    ((BookManager.loadFromStorage clocks .missing s).books = [] ∧
      (BookManager.loadFromStorage clocks .missing s).emitted = s.emitted) ∧
    ((BookManager.loadFromStorage clocks .unparseable s).books = [] ∧
      (BookManager.loadFromStorage clocks .unparseable s).emitted
        = s.emitted ++ [Event.ERROR_OCCURRED "Không thể tải dữ liệu từ bộ nhớ"]) ∧
    ((BookManager.loadFromStorage clocks .notArray s).books = [] ∧
      (BookManager.loadFromStorage clocks .notArray s).emitted
        = s.emitted ++ [Event.ERROR_OCCURRED "Không thể tải dữ liệu từ bộ nhớ"]) ∧
    (∀ booksData, (∃ d ∈ booksData, d.Blank) →
      (BookManager.loadFromStorage clocks (.records booksData) s).books = [] ∧
      (BookManager.loadFromStorage clocks (.records booksData) s).emitted
        = s.emitted ++ [Event.ERROR_OCCURRED "Không thể tải dữ liệu từ bộ nhớ"]) ∧
    (∀ booksData, (∀ d ∈ booksData, ¬ d.Blank) →
      (BookManager.loadFromStorage clocks (.records booksData) s).emitted = s.emitted ∧
      List.Forall₂ (fun d b => ∃ clock, Book.constructor clock d = .ok b) booksData
        (BookManager.loadFromStorage clocks (.records booksData) s).books) := by
  refine ⟨⟨rfl, rfl⟩, ⟨rfl, rfl⟩, ⟨rfl, rfl⟩, ?_, ?_⟩
  · intro booksData hb
    rcases BookFactory.createMultipleFrom_cases clocks 0 booksData with
      ⟨-, e, he⟩ | ⟨hall, -⟩
    · have he2 : BookFactory.createMultiple clocks booksData = .error e := he
      simp [BookManager.loadFromStorage, he2, BookManager.emit]
    · obtain ⟨d, hd, hblank⟩ := hb
      exact absurd hblank (hall d hd)
  · intro booksData hall
    rcases BookFactory.createMultipleFrom_cases clocks 0 booksData with
      ⟨⟨d, hd, hblank⟩, -⟩ | ⟨-, bs, hbs, hf⟩
    · exact absurd hblank (hall d hd)
    · have hbs2 : BookFactory.createMultiple clocks booksData = .ok bs := hbs
      simp only [BookManager.loadFromStorage, hbs2]
      exact ⟨trivial, hf⟩

/-- C24 (counterexample). At startup with nothing stored, `loadFromStorage()`
leaves the collection empty and emits no event at all, hence no
ERROR_OCCURRED. -/
theorem BookManager.loadFromStorage_missing_counterexample :
    (BookManager.loadFromStorage (fun _ => sampleClock) .missing BookManager.empty).books
        = [] ∧
      (BookManager.loadFromStorage (fun _ => sampleClock) .missing
        BookManager.empty).emitted = [] :=
  ⟨rfl, rfl⟩

theorem BookManager.update_writeOk_irrelevant (w1 w2 : Bool) (s : BookManager) (id : Int)
    (updates : BookData) :
    (BookManager.update w1 s id updates).2 = (BookManager.update w2 s id updates).2 ∧
      (BookManager.update w1 s id updates).1.books
        = (BookManager.update w2 s id updates).1.books := by
  unfold BookManager.update
  cases BookManager.getById s id with
  | none => exact ⟨rfl, rfl⟩
  | some found =>
    simp only [Book.update]
    cases (found.assign updates).validate with
    | error e => exact ⟨rfl, rfl⟩
    | ok u =>
      cases u
      simp

/-- C25. When the write fails, `saveToStorage()` emits one ERROR_OCCURRED and
leaves the collection and the stored item as they were. An `add`, `update`,
`remove` or `clear` whose write fails has the same outcome and leaves the same
collection as the one whose write succeeds; in particular an `add` of a record
that constructs to b returns b with b appended. -/
theorem BookManager.write_failure_keeps_mutation :
    (∀ s, (BookManager.saveToStorage false s).books = s.books ∧
      (BookManager.saveToStorage false s).storage = s.storage ∧
      (BookManager.saveToStorage false s).emitted
        = s.emitted ++ [Event.ERROR_OCCURRED "Không thể lưu dữ liệu vào bộ nhớ"]) ∧
    (∀ clock s data,
      (BookManager.add clock false s data).2 = (BookManager.add clock true s data).2 ∧
      BookManager.getAll (BookManager.add clock false s data).1
        = BookManager.getAll (BookManager.add clock true s data).1) ∧
    (∀ clock s data b, Book.constructor clock data = .ok b →
      (BookManager.add clock false s data).2 = .ok b ∧
      BookManager.getAll (BookManager.add clock false s data).1
        = BookManager.getAll s ++ [b]) ∧
    (∀ s id updates,
      (BookManager.update false s id updates).2 = (BookManager.update true s id updates).2 ∧
      BookManager.getAll (BookManager.update false s id updates).1
        = BookManager.getAll (BookManager.update true s id updates).1) ∧
    (∀ s id,
      (BookManager.remove false s id).2 = (BookManager.remove true s id).2 ∧
      BookManager.getAll (BookManager.remove false s id).1
        = BookManager.getAll (BookManager.remove true s id).1) ∧
    (∀ s, BookManager.getAll (BookManager.clear false s) = [] ∧
      BookManager.getAll (BookManager.clear true s) = []) := by
  refine ⟨fun s => ⟨rfl, rfl, rfl⟩, ?_, ?_, ?_, ?_, fun s => ⟨rfl, rfl⟩⟩
  · intro clock s data
    unfold BookManager.add
    cases Book.constructor clock data with
    | error e => exact ⟨rfl, rfl⟩
    | ok b => exact ⟨rfl, rfl⟩
  · intro clock s data b h
    exact BookManager.add_of_ok clock false s data b h
  · intro s id updates
    exact BookManager.update_writeOk_irrelevant false true s id updates
  · intro s id
    unfold BookManager.remove
    cases BookManager.findIndex (fun book => book.id == id) s.books with
    | none => exact ⟨rfl, rfl⟩
    | some i => exact ⟨rfl, rfl⟩

theorem BookManager.find_eq_some (p : Book → Bool) (l : List Book) (found b : Book)
    (h : BookManager.find p l = some found) :
    ∃ pre post, l = pre ++ found :: post ∧ (∀ x ∈ pre, p x = false) ∧ p found = true ∧
      BookManager.mutateFound p b l = pre ++ b :: post := by
  induction l with
  | nil => simp [BookManager.find] at h
  | cons x xs ih =>
    by_cases hx : p x = true
    · simp only [BookManager.find, hx, if_true, Option.some.injEq] at h
      subst h
      exact ⟨[], xs, rfl, by simp, hx, by simp [BookManager.mutateFound, hx]⟩
    · simp only [BookManager.find, hx] at h
      obtain ⟨pre, post, hl, hpre, hf, hm⟩ := ih h
      refine ⟨x :: pre, post, by simp [hl], ?_, hf, by
        simp [BookManager.mutateFound, hx, hm]⟩
      intro y hy
      rcases List.mem_cons.mp hy with rfl | hy
      · simpa using hx
      · exact hpre y hy

/-- C29. When some book has the id and the merge of `updates` into the first
such book leaves title, author and category non-blank, `update(id, updates)`
returns that book with each property named in `updates` overwritten and every
other property kept; the collection is the old one with that book replaced at
its position: same length, same books before and after it. -/
theorem BookManager.update_in_place (writeOk : Bool) (s : BookManager) (id : Int)
    (updates : BookData)
    (hid : ∃ b ∈ BookManager.getAll s, b.id = id)
    (hvalid : ∀ b, BookManager.getById s id = some b → (b.assign updates).Valid) :
    ∃ pre found post updated,
      BookManager.getAll s = pre ++ found :: post ∧
      (∀ x ∈ pre, x.id ≠ id) ∧ found.id = id ∧
      (BookManager.update writeOk s id updates).2 = .ok updated ∧
      BookManager.getAll (BookManager.update writeOk s id updates).1
        = pre ++ updated :: post ∧
      (BookManager.getAll (BookManager.update writeOk s id updates).1).length
        = (BookManager.getAll s).length ∧
      updated.id = updates.id.getD found.id ∧
      updated.title = updates.title.getD found.title ∧
      updated.author = updates.author.getD found.author ∧
      updated.category = updates.category.getD found.category ∧
      updated.cover = updates.cover.getD found.cover ∧
      updated.description = updates.description.getD found.description ∧
      updated.createdAt = updates.createdAt.getD found.createdAt := by
  cases hg : BookManager.getById s id with
  | none =>
    exfalso
    obtain ⟨b, hb, hbid⟩ := hid
    have := (BookManager.find_eq_none_iff _ _).mp hg b hb
    simp [hbid] at this
  | some found =>
    have hv := hvalid found hg
    obtain ⟨pre, post, hl, hpre, hf, hm⟩ :=
      BookManager.find_eq_some _ _ found (found.assign updates) hg
    have hval : (found.assign updates).validate = .ok () :=
      (Book.validate_ok_iff _).mpr hv
    have hres : (BookManager.update writeOk s id updates).2 = .ok (found.assign updates) ∧
        (BookManager.update writeOk s id updates).1.books
          = BookManager.mutateFound (fun b => b.id == id) (found.assign updates) s.books := by
      unfold BookManager.update
      simp [hg, Book.update, hval]
    refine ⟨pre, found, post, found.assign updates, hl, ?_, by simpa using hf, hres.1, ?_, ?_,
      rfl, rfl, rfl, rfl, rfl, rfl, rfl⟩
    · intro x hx
      simpa using hpre x hx
    · unfold BookManager.getAll
      rw [hres.2, hm]
    · unfold BookManager.getAll
      rw [hres.2, hm, hl]
      simp

/-- C29 (witness). Retitling "Design Patterns" (id 3) in the sample store. -/
theorem BookManager.update_in_place_witness :
    (∃ b ∈ BookManager.getAll sampleStore, b.id = 3) ∧
      (∀ b, BookManager.getById sampleStore 3 = some b →
        (b.assign { title := some "Design Patterns, 2nd printing" }).Valid) ∧
      ∃ pre found post updated,
        BookManager.getAll sampleStore = pre ++ found :: post ∧
        BookManager.getAll (BookManager.update true sampleStore 3
          { title := some "Design Patterns, 2nd printing" }).1 = pre ++ updated :: post ∧
        updated.title
          = (some "Design Patterns, 2nd printing" : Option String).getD found.title ∧
        updated.author = (none : Option String).getD found.author := by
  have hid : ∃ b ∈ BookManager.getAll sampleStore, b.id = 3 := by decide
  have hvalid : ∀ b, BookManager.getById sampleStore 3 = some b →
      (b.assign { title := some "Design Patterns, 2nd printing" }).Valid := by
    intro b hb
    have h2 : BookManager.getById sampleStore 3 = some designPatterns := by decide
    rw [h2] at hb
    rw [← Option.some.inj hb]
    decide
  obtain ⟨pre, found, post, updated, h1, -, -, -, h5, -, -, h8, h9, -⟩ :=
    BookManager.update_in_place true sampleStore 3
      { title := some "Design Patterns, 2nd printing" } hid hvalid
  exact ⟨hid, hvalid, pre, found, post, updated, h1, h5, h8, h9⟩

/-! ## The controller -/

theorem BookManager.search_eq_filter (toLowerCase : String → String) (s : BookManager)
    (query : String) :
    ∃ p : Book → Bool, BookManager.search toLowerCase s query = s.books.filter p := by
  unfold BookManager.search
  by_cases h : trim query = ""
  · rw [if_pos h]
    exact ⟨fun _ => true, by simp [BookManager.getAll]⟩
  · rw [if_neg h]
    exact ⟨_, rfl⟩

theorem Controller.applyFilters_fields (toLowerCase : String → String)
    (store : BookManager) (c : Controller) :
    (Controller.applyFilters toLowerCase store c).currentSearch = c.currentSearch ∧
      (Controller.applyFilters toLowerCase store c).currentFilter = c.currentFilter ∧
      (Controller.applyFilters toLowerCase store c).currentBooks = c.currentBooks :=
  ⟨rfl, rfl, rfl⟩

theorem Controller.applyFilters_rendered (toLowerCase : String → String)
    (store : BookManager) (c : Controller)
    (h : c.currentBooks = BookManager.getAll store) :
    (Controller.applyFilters toLowerCase store c).rendered
      = Controller.visibleBooks toLowerCase store c.currentSearch c.currentFilter := by
  obtain ⟨p, hp⟩ := BookManager.search_eq_filter toLowerCase store c.currentSearch
  unfold Controller.applyFilters Controller.visibleBooks
  simp only [h, BookManager.getAll, hp]
  by_cases hs : c.currentSearch = "" <;> by_cases hf : c.currentFilter = ""
  · simp [hs, hf]
  · simp [hs, hf]
  · simp only [hs, hf, ne_eq, not_false_eq_true, not_true_eq_false, if_true, if_false,
      false_or, or_true, and_true, true_or]
    apply List.filter_congr
    intro b hb
    simp [List.mem_filter, hb]
  · simp only [hs, hf, ne_eq, not_false_eq_true, if_true, false_or, List.filter_filter]
    apply List.filter_congr
    intro b hb
    simp [List.mem_filter, hb, Bool.and_comm]

/-- C26. With `currentBooks` equal to the store's collection, the list that
`applyFilters()` hands to `renderBooks` is the collection filtered, in order,
by both conditions together: the search text is empty or the book is in
`store.search(currentSearch)`, AND the category filter is empty or equals the
book's category. -/
theorem Controller.applyFilters_intersection (toLowerCase : String → String)
    (store : BookManager) (c : Controller)
    (h : c.currentBooks = BookManager.getAll store) :
    (Controller.applyFilters toLowerCase store c).rendered
      = (BookManager.getAll store).filter (fun book => decide
          ((c.currentSearch = "" ∨
              book ∈ BookManager.search toLowerCase store c.currentSearch) ∧
            (c.currentFilter = "" ∨ book.category = c.currentFilter))) :=
  Controller.applyFilters_rendered toLowerCase store c h

/-- C26 (witness). Searching "clean" with the category filter "Programming"
over the sample store shows "Clean Code" only. -/
theorem Controller.applyFilters_intersection_witness :
    searchingController.currentBooks = BookManager.getAll sampleStore ∧
      (Controller.applyFilters asciiLower sampleStore
        { searchingController with currentFilter := "Programming" }).rendered
        = [cleanCode] :=
  ⟨by decide,
    (Controller.applyFilters_intersection asciiLower sampleStore
      { searchingController with currentFilter := "Programming" } (by decide)).trans
      (by decide)⟩

theorem Controller.updateView_fields (toLowerCase : String → String)
    (store : BookManager) (c : Controller) :
    (Controller.updateView toLowerCase store c).currentSearch = c.currentSearch ∧
      (Controller.updateView toLowerCase store c).currentFilter = c.currentFilter ∧
      (Controller.updateView toLowerCase store c).rendered
        = Controller.visibleBooks toLowerCase store c.currentSearch c.currentFilter := by
  refine ⟨rfl, rfl, ?_⟩
  exact Controller.applyFilters_rendered toLowerCase store
    { c with currentBooks := BookManager.getAll store } rfl

/-- C27 (amended). Handling BOOK_UPDATED, BOOK_DELETED, or BOOKS_CHANGED
carrying the store's collection, the controller keeps its search text and its
category filter and renders the store's collection restricted by them.
Handling BOOK_ADDED it resets both to the empty text, clears the two inputs of
the view and renders the whole collection. -/
theorem Controller.handle_change_event (toLowerCase : String → String)
    (store : BookManager) (c : Controller) :
    (∀ book,
      (Controller.handle toLowerCase store c (.BOOK_UPDATED book)).currentSearch
        = c.currentSearch ∧
      (Controller.handle toLowerCase store c (.BOOK_UPDATED book)).currentFilter
        = c.currentFilter ∧
      (Controller.handle toLowerCase store c (.BOOK_UPDATED book)).rendered
        = Controller.visibleBooks toLowerCase store c.currentSearch c.currentFilter) ∧
    (∀ book,
      (Controller.handle toLowerCase store c (.BOOK_DELETED book)).currentSearch
        = c.currentSearch ∧
      (Controller.handle toLowerCase store c (.BOOK_DELETED book)).currentFilter
        = c.currentFilter ∧
      (Controller.handle toLowerCase store c (.BOOK_DELETED book)).rendered
        = Controller.visibleBooks toLowerCase store c.currentSearch c.currentFilter) ∧
    ((Controller.handle toLowerCase store c
        (.BOOKS_CHANGED (BookManager.getAll store))).currentSearch = c.currentSearch ∧
      (Controller.handle toLowerCase store c
        (.BOOKS_CHANGED (BookManager.getAll store))).currentFilter = c.currentFilter ∧
      (Controller.handle toLowerCase store c
        (.BOOKS_CHANGED (BookManager.getAll store))).rendered
        = Controller.visibleBooks toLowerCase store c.currentSearch c.currentFilter) ∧
    (∀ book,
      (Controller.handle toLowerCase store c (.BOOK_ADDED book)).currentSearch = "" ∧
      (Controller.handle toLowerCase store c (.BOOK_ADDED book)).currentFilter = "" ∧
      (Controller.handle toLowerCase store c (.BOOK_ADDED book)).rendered
        = BookManager.getAll store ∧
      (Controller.handle toLowerCase store c (.BOOK_ADDED book)).searchInput = "" ∧
      (Controller.handle toLowerCase store c (.BOOK_ADDED book)).categoryFilter = "") := by
  refine ⟨?_, ?_, ?_, ?_⟩
  · intro book
    exact Controller.updateView_fields toLowerCase store _
  · intro book
    exact Controller.updateView_fields toLowerCase store _
  · exact ⟨rfl, rfl, Controller.applyFilters_rendered toLowerCase store
      { c with currentBooks := BookManager.getAll store } rfl⟩
  · intro book
    refine ⟨rfl, rfl, ?_, rfl, rfl⟩
    have h := (Controller.updateView_fields toLowerCase store
      { Controller.showSuccess c ("Đã thêm sách \"" ++ book.title ++ "\" thành công!") with
        searchInput := "", categoryFilter := "", currentSearch := "",
        currentFilter := "" }).2.2
    have hv : Controller.visibleBooks toLowerCase store "" "" = BookManager.getAll store := by
      unfold Controller.visibleBooks
      simp
    rw [← hv]
    exact h

/-- C27 (counterexample). The controller searches "clean" over the sample
store and shows "Clean Code". After "Refactoring" was added, handling
BOOK_ADDED empties the search text and renders all three books, whereas the
collection restricted by "clean" is "Clean Code" alone. -/
theorem Controller.handle_added_counterexample :
    searchingController.currentSearch = "clean" ∧
      (Controller.handle asciiLower refactoringStore searchingController
        (.BOOK_ADDED refactoring)).currentSearch = "" ∧
      (Controller.handle asciiLower refactoringStore searchingController
        (.BOOK_ADDED refactoring)).rendered = [cleanCode, designPatterns, refactoring] ∧
      Controller.visibleBooks asciiLower refactoringStore "clean" "" = [cleanCode] :=
  ⟨by decide, by decide, by decide, by decide⟩

theorem BookManager.importBooks_emits (clocks : Nat → Clock) (writeOk : Bool)
    (s : BookManager) (data : List BookData) :
    s.emitted.length < (BookManager.importBooks clocks writeOk s data).1.emitted.length := by
  unfold BookManager.importBooks
  cases BookFactory.createMultiple clocks data with
  | error e => simp [BookManager.emit]
  | ok bs =>
    cases writeOk <;> simp [BookManager.emit, BookManager.saveToStorage]

/-- C28. When the text is not valid JSON, or parses to a value that is not an
array, the handler of 'books:import' returns having shown the error "File JSON
không hợp lệ" and leaves the store exactly as it was; every call of
`store.importBooks` would have changed the store (its event log grows), so
none was made. For a parsed array the store is left as
`store.importBooks(array)` leaves it. -/
theorem Controller.onBooksImport_cases (toLowerCase : String → String)
    (clocks : Nat → Clock) (writeOk : Bool) (store : BookManager) (c : Controller) :
    ((Controller.onBooksImport toLowerCase clocks writeOk store c .syntaxError).1 = store ∧
      (Controller.onBooksImport toLowerCase clocks writeOk store c .syntaxError).2.errors
        = c.errors ++ ["File JSON không hợp lệ"]) ∧
    ((Controller.onBooksImport toLowerCase clocks writeOk store c .notArray).1 = store ∧
      (Controller.onBooksImport toLowerCase clocks writeOk store c .notArray).2.errors
        = c.errors ++ ["File JSON không hợp lệ"]) ∧
    (∀ data, (BookManager.importBooks clocks writeOk store data).1 ≠ store) ∧
    (∀ data, (Controller.onBooksImport toLowerCase clocks writeOk store c (.array data)).1
      = (BookManager.importBooks clocks writeOk store data).1) := by
  refine ⟨⟨rfl, rfl⟩, ⟨rfl, rfl⟩, ?_, ?_⟩
  · intro data h
    have := BookManager.importBooks_emits clocks writeOk store data
    rw [h] at this
    exact Nat.lt_irrefl _ this
  · intro data
    unfold Controller.onBooksImport Controller.importBooks
    dsimp only
    split <;> rfl

/-! ## Consistency of the statistics -/

namespace BookManager

theorem countCategories_names_nodup (books : List Book) (o : CountObject)
    (h : (o.map Prod.fst).Nodup) : ((countCategories o books).map Prod.fst).Nodup := by
  induction books generalizing o with
  | nil => exact h
  | cons b bs ih =>
    unfold countCategories
    rw [List.foldl_cons]
    apply ih
    rcases map_fst_set o b.category (orZeroPlusOne (o.get b.category)) with h1 | ⟨h1, h2⟩
    · rw [h1]
      exact h
    · rw [h1]
      refine List.Nodup.append h (List.nodup_singleton _) ?_
      intro a ha hb
      rw [List.mem_singleton] at hb
      exact h2 (hb ▸ ha)

theorem keys_perm_names (o : CountObject) : o.keys.Perm (o.map Prod.fst) := by
  unfold CountObject.keys
  have h1 := List.filter_append_perm (fun k => (arrayIndex? k).isSome) (o.map Prod.fst)
  have h2 : (fun k : String => !(arrayIndex? k).isSome)
      = (fun k : String => (arrayIndex? k).isNone) := by
    funext k
    cases arrayIndex? k <;> rfl
  rw [h2] at h1
  exact ((List.perm_insertionSort _ _).append_right _).trans h1

theorem countOf_eq_count (books : List Book) (k : String) :
    countOf books k = (books.map Book.category).count k := by
  induction books with
  | nil => rfl
  | cons b bs ih =>
    unfold countOf at ih ⊢
    by_cases h : b.category = k
    · simp [List.filter_cons, h, ih]
    · have h2 : ¬ (b.category == k) = true := by simpa using h
      simp [List.filter_cons, h, ih, List.count_cons, h2]

/-- For a collection none of whose categories names a member of
`Object.prototype`, the result of `getStats()` is consistent: `totalBooks` is
the length of the collection and the sum of the counts; the keys of
`categoryCount` are, up to order, the elements of `getCategories()`;
`totalCategories` is their number; and each count is the number of books of
the category. -/
theorem getStats_consistent (s : BookManager)
    (hproto : ∀ b ∈ s.books, isPrototypeMember b.category = false) :
    (getStats s).totalBooks = (getAll s).length ∧
      ((getStats s).categoryCount.keys.map (booksIn s)).sum = (getStats s).totalBooks ∧
      (getStats s).categoryCount.keys.Perm (getCategories s) ∧
      (getStats s).totalCategories = (getStats s).categoryCount.keys.length ∧
      (∀ c ∈ (getStats s).categoryCount.keys,
        (getStats s).categoryCount.get c = Read.own (CountValue.number (booksIn s c))) := by
  have hC := counted_getStats s hproto
  have hkeys := counted_mem_keys _ _ hC
  have hnd : (getStats s).categoryCount.keys.Nodup := by
    rw [(keys_perm_names _).nodup_iff]
    exact countCategories_names_nodup s.books [] List.nodup_nil
  have hcat := (BookVerse.BookManager.countOf_ne_zero_iff s.books)
  have hperm : (getStats s).categoryCount.keys.Perm (getCategories s) := by
    have hnd2 : (getCategories s).Nodup :=
      (List.perm_insertionSort _ _).nodup_iff.mpr (newSet_nodup _)
    rw [List.perm_ext_iff_of_nodup hnd hnd2]
    intro a
    rw [hkeys, hcat]
    unfold getCategories
    rw [mem_sort, mem_newSet, List.mem_map]
  have hdedup : (getStats s).categoryCount.keys.Perm (s.books.map Book.category).dedup := by
    rw [List.perm_ext_iff_of_nodup hnd (List.nodup_dedup _)]
    intro a
    rw [hkeys, hcat, List.mem_dedup, List.mem_map]
  refine ⟨rfl, ?_, hperm, ?_, ?_⟩
  · have hfun : booksIn s = fun k => (s.books.map Book.category).count k := by
      funext k
      exact countOf_eq_count s.books k
    rw [hfun, (hdedup.map _).sum_eq, List.sum_map_count_dedup_eq_length]
    simp [getStats]
  · exact hperm.length_eq.symm
  · intro c hc
    have h0 : countOf s.books c ≠ 0 := (hkeys c).mp hc
    unfold CountObject.get
    rw [hC c, if_neg h0]
    rfl

end BookManager

/-- C30. The collection holds two books in "Programming" and one in
"constructor". `getStats()` gives totalBooks 3, and under "constructor" the
property of `categoryCount` is the text "function Object() { [native code] }1",
not the number 1 of books in that category: the values of `categoryCount` do
not sum to totalBooks. -/
theorem BookManager.getStats_constructor_inconsistent :
    (BookManager.getStats constructorStore).totalBooks = 3 ∧
      BookManager.booksIn constructorStore "constructor" = 1 ∧
      (BookManager.getStats constructorStore).categoryCount.get "constructor"
        = Read.own (CountValue.text "function Object() { [native code] }1") ∧
      (BookManager.getStats constructorStore).categoryCount.get "constructor"
        ≠ Read.own (CountValue.number
            (BookManager.booksIn constructorStore "constructor")) ∧
      (BookManager.getStats constructorStore).categoryCount
        = [("Programming", CountValue.number 2),
           ("constructor", CountValue.text "function Object() { [native code] }1")] :=
  ⟨by decide, by decide, by decide, by decide, by decide⟩

end BookVerse
